import Mathlib

/-!
# Verification of `c4driver.py`

A shallow embedding of the Control4 experience-button driver builder
(`src/c4driver.py`) together with proofs about the claims of its
specification.  Strings are embedded as `List Char`; the filesystem
effects of `main` are embedded as explicit state passing over an
association-list filesystem.
-/

set_option maxRecDepth 4000

/-- Strings of the embedded program, as lists of characters. -/
abbrev Str := List Char

/-- Model of `data.encode().decode("ascii", "ignore")` (line 109): a
codepoint below 128 encodes to a single byte below 128 and survives;
any other codepoint encodes to UTF-8 bytes that are all at least 128
and is dropped entirely. -/
def asciiIgnore (s : Str) : Str := s.filter (fun c => c.toNat < 128)

/-- `true` when every character of `s` is ASCII. -/
def allAscii (s : Str) : Bool := s.all (fun c => decide (c.toNat < 128))

/-- Fueled core of Python's `str.replace` (global, leftmost,
non-overlapping, the replacement text is not rescanned).  The fuel is
only a termination device; `pyReplace` supplies enough of it. -/
def pyReplaceF : Nat → Str → Str → Str → Str
  | 0, _, _, s => s
  | _ + 1, _, _, [] => []
  | fuel + 1, pat, rep, c :: rest =>
    if pat ≠ [] ∧ pat <+: (c :: rest) then
      rep ++ pyReplaceF fuel pat rep ((c :: rest).drop pat.length)
    else
      c :: pyReplaceF fuel pat rep rest

/-- Model of Python `s.replace(pat, rep)` for the nonempty literal
patterns used by the program. -/
def pyReplace (pat rep s : Str) : Str := pyReplaceF (s.length + 1) pat rep s

/-- Fueled splitting of `s` at the leftmost non-overlapping occurrences
of `pat`; `pyReplaceF` equals interleaving the replacement between the
returned pieces. -/
def pySplitF : Nat → Str → Str → List Str
  | 0, _, s => [s]
  | _ + 1, _, [] => [[]]
  | fuel + 1, pat, c :: rest =>
    if pat ≠ [] ∧ pat <+: (c :: rest) then
      [] :: pySplitF fuel pat ((c :: rest).drop pat.length)
    else
      match pySplitF fuel pat rest with
      | [] => [[c]]
      | h :: t => (c :: h) :: t

/-- The pieces of `s` between the leftmost non-overlapping occurrences
of `pat`. -/
def pySplit (pat s : Str) : List Str := pySplitF (s.length + 1) pat s

/-- Interleave a separator between the pieces of a list of strings. -/
def joinSep (sep : Str) : List Str → Str
  | [] => []
  | [x] => x
  | x :: xs => x ++ sep ++ joinSep sep xs

/-- `true` when `pat` occurs as a contiguous substring of `s`. -/
def hasSub (pat s : Str) : Bool :=
  (List.range (s.length + 1)).any (fun i => decide (pat <+: s.drop i))

/-- Python `str.title` for ASCII text: the first letter of every
maximal run of letters is uppercased, the remaining letters are
lowercased.  The flag records whether the previous character was a
letter. -/
def pyTitleGo : Bool → Str → Str
  | _, [] => []
  | prev, c :: rest =>
    if c.isAlpha then
      (if prev then c.toLower else c.toUpper) :: pyTitleGo true rest
    else
      c :: pyTitleGo false rest

/-- Model of Python `s.title()` on ASCII text (line 115/118). -/
def pyTitle (s : Str) : Str := pyTitleGo false s

/-- Index of the leftmost occurrence of `pat` in `s`, if any. -/
def findFirstIdx (pat s : Str) : Option Nat :=
  (List.range (s.length + 1)).find? (fun i => decide (pat <+: s.drop i))

/-- Index of the rightmost occurrence of `pat` in `s` starting at or
after `start`, if any. -/
def findLastIdx (pat s : Str) (start : Nat) : Option Nat :=
  ((List.range (s.length + 1)).filter
    (fun i => decide (start ≤ i) && decide (pat <+: s.drop i))).getLast?

/-- Leftmost index at which `openT` occurs with at least `openT.length`
characters before position `j`, i.e. a viable start for a greedy match
ending at the close that starts at `j`. -/
def findOpenBefore (openT s : Str) (j : Nat) : Option Nat :=
  (List.range (s.length + 1)).find?
    (fun i => decide (openT <+: s.drop i) && decide (i + openT.length ≤ j))

/-- Model of `re.sub("<tag>.*</tag>", rep, s, flags=re.DOTALL)` for the
`<created>`/`<modified>` patterns (lines 119-120): with a greedy
`.*` under `DOTALL`, the single match runs from the first viable
occurrence of the opening tag to the rightmost occurrence of the
closing tag, and no further match remains afterwards. -/
def subTagDotAll (openT closeT rep s : Str) : Str :=
  match findLastIdx closeT s 0 with
  | none => s
  | some j =>
    match findOpenBefore openT s j with
    | none => s
    | some i => s.take i ++ rep ++ s.drop (j + closeT.length)

/-- Candidate closing positions for a `re.search("<version>(.*)</version>")`
match starting at `i` without `DOTALL`: the closing tag must start at
or after the end of the opening tag with no newline in between. -/
def lineCloseCands (openT closeT s : Str) (i : Nat) : List Nat :=
  (List.range (s.length + 1)).filter
    (fun k => decide (closeT <+: s.drop k) && decide (i + openT.length ≤ k)
      && !(((s.take k).drop (i + openT.length)).contains '\n'))

/-- Model of `re.search("<version>(.*)</version>", s)` (line 121,
without `DOTALL`): the leftmost viable start, paired with the greatest
viable close for it (greedy `.*`).  Returns the start index of the
match and the start index of the closing tag. -/
def searchLineTag (openT closeT s : Str) : Option (Nat × Nat) :=
  match (List.range (s.length + 1)).find?
      (fun i => decide (openT <+: s.drop i) && !(lineCloseCands openT closeT s i).isEmpty) with
  | none => none
  | some i =>
    match (lineCloseCands openT closeT s i).getLast? with
    | none => none
    | some k => some (i, k)

/-- `true` for the six ASCII whitespace characters stripped by Python's
`int()`. -/
def isPyWs (c : Char) : Bool :=
  c = ' ' || c = '\t' || c = '\n' || c = '\r' || c = '\x0b' || c = '\x0c'

/-- Digit run with optional single underscores between digits, as
accepted by Python's `int()` after the sign. -/
def digitsUnderscore : Str → Bool
  | [] => true
  | '_' :: c :: rest => c.isDigit && digitsUnderscore rest
  | '_' :: [] => false
  | c :: rest => c.isDigit && digitsUnderscore rest

/-- Model of Python `int(s)` (line 123): strip whitespace, optional
sign, then digits with single underscores allowed between them; any
other shape raises `ValueError`, modelled as `none`. -/
def pyInt (s : Str) : Option Int :=
  let t := ((s.dropWhile isPyWs).reverse.dropWhile isPyWs).reverse
  let sign : Int := if t.head? = some '-' then -1 else 1
  let u := match t with
    | '+' :: r => r
    | '-' :: r => r
    | r => r
  match u with
  | [] => none
  | c :: _ =>
    if c.isDigit && digitsUnderscore u then
      some (sign * ((u.filter (fun c => c ≠ '_')).foldl
        (fun a c => a * 10 + ((c.toNat : Int) - 48)) 0))
    else none

/-- The decimal digit characters. -/
def digitChar : Nat → Char
  | 0 => '0' | 1 => '1' | 2 => '2' | 3 => '3' | 4 => '4'
  | 5 => '5' | 6 => '6' | 7 => '7' | 8 => '8' | _ => '9'

/-- Fueled decimal rendering of a natural number. -/
def natToStrF : Nat → Nat → Str
  | 0, _ => []
  | fuel + 1, n =>
    if n < 10 then [digitChar n]
    else natToStrF fuel (n / 10) ++ [digitChar (n % 10)]

/-- Decimal rendering of a natural number, most significant digit
first. -/
def natToStr (n : Nat) : Str := natToStrF (n + 1) n

/-- Model of Python's `str` formatting of an `int` (line 123's
`format`). -/
def intToStr (v : Int) : Str :=
  if v < 0 then '-' :: natToStr v.natAbs else natToStr v.toNat

/-! ## The descriptor patcher: `process_xml_file` (lines 98-127)

The file-reading and file-writing wrappers of `process_xml_file` are
part of the filesystem model below; the pure text transformation the
function performs on the descriptor content is embedded here. -/

/-- `"experience-button-scenario"`, the template's internal identifier
(`stext`, line 111). -/
def sceStr : Str := "experience-button-scenario".data

/-- `"Scenario - Experience Button"`, the template's document name
(`stext2`, line 112). -/
def docScenStr : Str := "Scenario - Experience Button".data

/-- `'name="Scenario"'`, the template's display-name attribute
(`stext3`, line 113). -/
def nameScenStr : Str := "name=\"Scenario\"".data

/-- `driver_label.title().replace('_', ' ')` (lines 115 and 118): the
human-readable display name derived from the identifier. -/
def labelDisplay (driver_label : Str) : Str :=
  pyReplace ['_'] [' '] (pyTitle driver_label)

/-- The create-mode rewrites of `process_xml_file` (lines 110-118),
applied in source order: icon-file identifier, document name, then
display-name attribute. -/
def createRewrite (data driver_name driver_label : Str) : Str :=
  let rtext2 := labelDisplay driver_label ++ " - Experience Button".data
  let d1 := pyReplace sceStr driver_name data
  let d2 := pyReplace docScenStr rtext2 d1
  pyReplace nameScenStr ("name=\"".data ++ labelDisplay driver_label ++ "\"".data) d2

/-- Lines 108-118: the ASCII-ignoring decode followed by the
mode-gated create rewrites. -/
def modeStage (data0 driver_name driver_label : Str) (update_driver : Bool) : Str :=
  if update_driver = false then
    createRewrite (asciiIgnore data0) driver_name driver_label
  else asciiIgnore data0

/-- The opening tag of the created field. -/
def cOpenStr : Str := "<created>".data

/-- The closing tag of the created field. -/
def cCloseStr : Str := "</created>".data

/-- The opening tag of the modified field. -/
def mOpenStr : Str := "<modified>".data

/-- The closing tag of the modified field. -/
def mCloseStr : Str := "</modified>".data

/-- The opening tag of the version field. -/
def vOpenStr : Str := "<version>".data

/-- The closing tag of the version field. -/
def vCloseStr : Str := "</version>".data

/-- Lines 119-120: replace the `<created>` and then the `<modified>`
spans with the current time. -/
def stampStage (s current_time : Str) : Str :=
  subTagDotAll mOpenStr mCloseStr (mOpenStr ++ current_time ++ mCloseStr)
    (subTagDotAll cOpenStr cCloseStr (cOpenStr ++ current_time ++ cCloseStr) s)

/-- Lines 121-124: locate the version field, parse it as an integer,
add one, and textually replace every occurrence of the matched
`<version>...</version>` string.  `none` models the unhandled
`AttributeError` (no match) or `ValueError` (non-numeric) crash. -/
def versionStep (s : Str) : Option Str :=
  match searchLineTag vOpenStr vCloseStr s with
  | none => none
  | some (i, k) =>
    let version_info := (s.take (k + vCloseStr.length)).drop i
    let ver := (s.take k).drop (i + vOpenStr.length)
    match pyInt ver with
    | none => none
    | some v =>
      some (pyReplace version_info (vOpenStr ++ intToStr (v + 1) ++ vCloseStr) s)

/-- The integer value of the version field that line 123 would parse,
if any: `none` exactly when the field is missing or non-numeric. -/
def versionParseResult (s : Str) : Option Int :=
  match searchLineTag vOpenStr vCloseStr s with
  | none => none
  | some (i, k) => pyInt ((s.take k).drop (i + vOpenStr.length))

/-- The pure descriptor transformation of `process_xml_file`
(lines 98-127): `none` models the unhandled crash on a missing or
non-numeric version field. -/
def processXmlData (data0 driver_name driver_label : Str)
    (update_driver : Bool) (current_time : Str) : Option Str :=
  versionStep (stampStage (modeStage data0 driver_name driver_label update_driver)
    current_time)

/-- Line 143-144 of `main`: the driver name passed to
`process_xml_file` is the output stem `"uibutton_" + sys.argv[1]`, not
the bare identifier. -/
def mainDriverName (ident : Str) : Str := "uibutton_".data ++ ident

/-- Broken-down local time, as consumed by `strftime`. -/
structure DateT where
  month : Nat
  day : Nat
  year : Nat
  hour : Nat
  minute : Nat

/-- Zero-padded two-digit rendering used by `%m`, `%d`, `%H`, `%M`. -/
def pad2 (n : Nat) : Str := if n < 10 then '0' :: natToStr n else natToStr n

/-- `%Y` rendering (zero-padded to four digits for the years at hand). -/
def pad4 (n : Nat) : Str :=
  if n < 10 then '0' :: '0' :: '0' :: natToStr n
  else if n < 100 then '0' :: '0' :: natToStr n
  else if n < 1000 then '0' :: natToStr n
  else natToStr n

/-- Line 100: `now.strftime("%m/%d/%Y %H:%M")`. -/
def fmtTimeMDYHM (t : DateT) : Str :=
  pad2 t.month ++ "/".data ++ pad2 t.day ++ "/".data ++ pad4 t.year
    ++ " ".data ++ pad2 t.hour ++ ":".data ++ pad2 t.minute

/-- Spec-side extractor: the display name of a descriptor is the text
between the first `name="` and the following quote. -/
def extractNameAttr (s : Str) : Option Str :=
  match findFirstIdx "name=\"".data s with
  | none => none
  | some i => some ((s.drop (i + "name=\"".data.length)).takeWhile (fun c => c ≠ '"'))

/-! ## Lemmas about the string primitives -/

theorem pyReplaceF_congr (pat rep : Str) :
    ∀ f1 : Nat, ∀ s : Str, ∀ f2 : Nat, s.length < f1 → s.length < f2 →
      pyReplaceF f1 pat rep s = pyReplaceF f2 pat rep s := by
  intro f1
  induction f1 with
  | zero => intro s f2 h1 _; omega
  | succ f ih =>
    intro s f2 h1 h2
    match f2 with
    | 0 => omega
    | f2 + 1 =>
      match s with
      | [] => rfl
      | c :: rest =>
        simp only [pyReplaceF]
        by_cases hc : pat ≠ [] ∧ pat <+: (c :: rest)
        · rw [if_pos hc, if_pos hc]
          have hplen : 1 ≤ pat.length := by
            cases pat with
            | nil => exact absurd rfl hc.1
            | cons p ps => simp
          have hlen : ((c :: rest).drop pat.length).length ≤ rest.length := by
            simp only [List.length_drop, List.length_cons]
            omega
          rw [ih ((c :: rest).drop pat.length) f2 (by simp at h1; omega) (by simp at h2; omega)]
        · rw [if_neg hc, if_neg hc]
          rw [ih rest f2 (by simp at h1; omega) (by simp at h2; omega)]

theorem pyReplace_nil (pat rep : Str) : pyReplace pat rep [] = [] := rfl

theorem pyReplace_cons (pat rep : Str) (c : Char) (rest : Str) :
    pyReplace pat rep (c :: rest)
      = if pat ≠ [] ∧ pat <+: (c :: rest) then
          rep ++ pyReplace pat rep ((c :: rest).drop pat.length)
        else c :: pyReplace pat rep rest := by
  show pyReplaceF ((c :: rest).length + 1) pat rep (c :: rest) = _
  simp only [List.length_cons, pyReplaceF]
  by_cases hc : pat ≠ [] ∧ pat <+: (c :: rest)
  · rw [if_pos hc, if_pos hc]
    have hplen : 1 ≤ pat.length := by
      cases pat with
      | nil => exact absurd rfl hc.1
      | cons p ps => simp
    rw [pyReplaceF_congr pat rep (rest.length + 1) ((c :: rest).drop pat.length)
      (((c :: rest).drop pat.length).length + 1)
      (by simp only [List.length_drop, List.length_cons]; omega) (by omega)]
    rfl
  · rw [if_neg hc, if_neg hc]
    rfl

theorem pyReplace_no_occur (pat rep s : Str) (h : ∀ i, ¬ pat <+: s.drop i) :
    pyReplace pat rep s = s := by
  induction s with
  | nil => rfl
  | cons c rest ih =>
    rw [pyReplace_cons, if_neg]
    · rw [ih]
      intro i
      have := h (i + 1)
      simpa using this
    · rintro ⟨-, hpre⟩
      exact h 0 (by simpa using hpre)

theorem pyReplace_splice (pat rep a b : Str) (hpat : pat ≠ [])
    (hfirst : ∀ i, i < a.length → ¬ pat <+: (a ++ pat ++ b).drop i)
    (hb : ∀ i, ¬ pat <+: b.drop i) :
    pyReplace pat rep (a ++ pat ++ b) = a ++ rep ++ b := by
  induction a with
  | nil =>
    simp only [List.nil_append]
    match pat, hpat with
    | p :: ps, hpat =>
      rw [List.cons_append, pyReplace_cons, if_pos]
      · rw [show (p :: (ps ++ b)).drop (p :: ps).length = b by
          rw [← List.cons_append, List.drop_left]]
        rw [pyReplace_no_occur (p :: ps) rep b hb]
      · exact ⟨hpat, by rw [← List.cons_append]; exact List.prefix_append _ _⟩
  | cons c a' ih =>
    have hshape : (c :: a' ++ pat ++ b) = c :: (a' ++ pat ++ b) := by
      simp only [List.cons_append]
    rw [hshape, pyReplace_cons, if_neg]
    · rw [ih]
      · simp only [List.cons_append]
      · intro i hi hpre
        refine hfirst (i + 1) (by simp only [List.length_cons]; omega) ?_
        rw [hshape, List.drop_succ_cons]
        exact hpre
    · rintro ⟨-, hpre⟩
      refine hfirst 0 (by simp only [List.length_cons]; omega) ?_
      rw [hshape, List.drop_zero]
      exact hpre

theorem pySplitF_ne_nil : ∀ (fuel : Nat) (pat s : Str), pySplitF fuel pat s ≠ [] := by
  intro fuel pat s
  match fuel, s with
  | 0, s => simp [pySplitF]
  | fuel + 1, [] => simp [pySplitF]
  | fuel + 1, c :: rest =>
    simp only [pySplitF]
    by_cases hc : pat ≠ [] ∧ pat <+: (c :: rest)
    · rw [if_pos hc]; simp
    · rw [if_neg hc]
      cases pySplitF fuel pat rest <;> simp

theorem pyReplaceF_eq_joinSep :
    ∀ (fuel : Nat) (pat rep s : Str),
      pyReplaceF fuel pat rep s = joinSep rep (pySplitF fuel pat s) := by
  intro fuel
  induction fuel with
  | zero => intro pat rep s; rfl
  | succ f ih =>
    intro pat rep s
    match s with
    | [] => rfl
    | c :: rest =>
      simp only [pyReplaceF, pySplitF]
      by_cases hc : pat ≠ [] ∧ pat <+: (c :: rest)
      · rw [if_pos hc, if_pos hc, ih]
        match hsplit : pySplitF f pat ((c :: rest).drop pat.length) with
        | [] => exact absurd hsplit (pySplitF_ne_nil f pat _)
        | h :: t => simp [joinSep]
      · rw [if_neg hc, if_neg hc, ih]
        match hsplit : pySplitF f pat rest with
        | [] => exact absurd hsplit (pySplitF_ne_nil f pat rest)
        | h :: t =>
          match t with
          | [] => simp [joinSep]
          | t0 :: ts => simp [joinSep]

theorem pyReplace_eq_joinSep (pat rep s : Str) :
    pyReplace pat rep s = joinSep rep (pySplit pat s) :=
  pyReplaceF_eq_joinSep (s.length + 1) pat rep s

theorem pySplitF_head_prefix :
    ∀ (fuel : Nat) (pat s h : Str) (t : List Str),
      pySplitF fuel pat s = h :: t → h <+: s := by
  intro fuel
  induction fuel with
  | zero =>
    intro pat s h t he
    simp only [pySplitF] at he
    injection he with h1 _
    exact h1 ▸ List.prefix_refl s
  | succ f ih =>
    intro pat s h t he
    match s with
    | [] =>
      simp only [pySplitF] at he
      injection he with h1 _
      rw [← h1]
    | c :: rest =>
      simp only [pySplitF] at he
      by_cases hc : pat ≠ [] ∧ pat <+: (c :: rest)
      · rw [if_pos hc] at he
        obtain ⟨h1, -⟩ := List.cons_eq_cons.mp he
        rw [← h1]
        exact List.nil_prefix
      · rw [if_neg hc] at he
        match hsplit : pySplitF f pat rest with
        | [] => exact absurd hsplit (pySplitF_ne_nil f pat rest)
        | h0 :: t0 =>
          rw [hsplit] at he
          obtain ⟨he1, -⟩ := List.cons_eq_cons.mp he
          rw [← he1]
          exact List.cons_prefix_cons.mpr ⟨rfl, ih pat rest h0 t0 hsplit⟩

theorem pySplitF_clean :
    ∀ (fuel : Nat) (pat s : Str), pat ≠ [] → s.length < fuel →
      ∀ piece ∈ pySplitF fuel pat s, ∀ i, ¬ pat <+: piece.drop i := by
  intro fuel
  induction fuel with
  | zero => intro pat s _ h; omega
  | succ f ih =>
    intro pat s hpat hlen piece hmem i
    match s with
    | [] =>
      simp only [pySplitF, List.mem_singleton] at hmem
      subst hmem
      simp only [List.drop_nil]
      intro hpre
      exact hpat (List.prefix_nil.mp hpre)
    | c :: rest =>
      simp only [pySplitF] at hmem
      have hplen : 1 ≤ pat.length := by
        cases pat with
        | nil => exact absurd rfl hpat
        | cons p ps => simp
      by_cases hc : pat ≠ [] ∧ pat <+: (c :: rest)
      · rw [if_pos hc] at hmem
        rcases List.mem_cons.mp hmem with he | hmem'
        · subst he
          simp only [List.drop_nil]
          intro hpre
          exact hpat (List.prefix_nil.mp hpre)
        · exact ih pat _ hpat
            (by simp only [List.length_drop, List.length_cons] at *; omega)
            piece hmem' i
      · rw [if_neg hc] at hmem
        match hsplit : pySplitF f pat rest with
        | [] => exact absurd hsplit (pySplitF_ne_nil f pat rest)
        | h0 :: t0 =>
          rw [hsplit] at hmem
          have hrest : ∀ piece ∈ pySplitF f pat rest, ∀ i, ¬ pat <+: piece.drop i :=
            ih pat rest hpat (by simp at hlen; omega)
          rcases List.mem_cons.mp hmem with he | hmem'
          · subst he
            match i with
            | 0 =>
              simp only [List.drop_zero]
              intro hpre
              have hh0 : h0 <+: rest := pySplitF_head_prefix f pat rest h0 t0 hsplit
              have : (c :: h0) <+: (c :: rest) := List.cons_prefix_cons.mpr ⟨rfl, hh0⟩
              exact hc ⟨hpat, hpre.trans this⟩
            | i + 1 =>
              simp only [List.drop_succ_cons]
              exact hrest h0 (by rw [hsplit]; simp) i
          · exact hrest piece (by rw [hsplit]; exact List.mem_cons_of_mem _ hmem') i

theorem pySplit_clean (pat s : Str) (hpat : pat ≠ []) :
    ∀ piece ∈ pySplit pat s, ∀ i, ¬ pat <+: piece.drop i :=
  pySplitF_clean (s.length + 1) pat s hpat (by omega)

theorem hasSub_eq_false_iff (pat s : Str) (hpat : pat ≠ []) :
    hasSub pat s = false ↔ ∀ i, ¬ pat <+: s.drop i := by
  constructor
  · intro h i hpre
    by_cases hi : i < s.length + 1
    · have := List.any_eq_false.mp h i (by simpa using hi)
      simp only [decide_eq_true_eq] at this
      exact this hpre
    · have hdrop : s.drop i = [] := List.drop_eq_nil_of_le (by omega)
      rw [hdrop] at hpre
      exact hpat (List.prefix_nil.mp hpre)
  · intro h
    apply List.any_eq_false.mpr
    intro i _
    simp only [decide_eq_true_eq]
    exact h i

theorem pyReplace_splice' (pat rep a b s : Str) (hpat : pat ≠ [])
    (hs : s = a ++ (pat ++ b))
    (hfirst : ∀ i, i < a.length → ¬ pat <+: s.drop i)
    (hb : hasSub pat b = false) :
    pyReplace pat rep s = a ++ (rep ++ b) := by
  have hs' : s = a ++ pat ++ b := by rw [hs]; simp [List.append_assoc]
  rw [hs', pyReplace_splice pat rep a b hpat
    (by intro i hi; rw [← hs']; exact hfirst i hi)
    ((hasSub_eq_false_iff pat b hpat).mp hb)]
  simp [List.append_assoc]

theorem subTagDotAll_splice (openT closeT rep a inner b s : Str)
    (hs : s = a ++ (openT ++ (inner ++ (closeT ++ b))))
    (h1 : findLastIdx closeT s 0 = some (a.length + openT.length + inner.length))
    (h2 : findOpenBefore openT s (a.length + openT.length + inner.length)
        = some a.length) :
    subTagDotAll openT closeT rep s = a ++ (rep ++ b) := by
  have htake : s.take a.length = a := by
    rw [hs]; exact List.take_left a _
  have hdrop : s.drop (a.length + openT.length + inner.length + closeT.length) = b := by
    rw [hs, show a ++ (openT ++ (inner ++ (closeT ++ b)))
        = (a ++ (openT ++ (inner ++ closeT))) ++ b by simp [List.append_assoc]]
    exact List.drop_left' (by simp [List.length_append]; omega)
  simp only [subTagDotAll, h1, h2, htake, hdrop]
  simp [List.append_assoc]

theorem versionStep_splice (A verS B s : Str) (v : Int)
    (hs : s = A ++ (vOpenStr ++ (verS ++ (vCloseStr ++ B))))
    (hsearch : searchLineTag vOpenStr vCloseStr s
      = some (A.length, A.length + vOpenStr.length + verS.length))
    (hv : pyInt verS = some v)
    (hfirst : ∀ i, i < A.length →
      ¬ (vOpenStr ++ (verS ++ vCloseStr)) <+: s.drop i)
    (hB : hasSub (vOpenStr ++ (verS ++ vCloseStr)) B = false) :
    versionStep s
      = some (A ++ (vOpenStr ++ (intToStr (v + 1) ++ (vCloseStr ++ B)))) := by
  have hpatne : (vOpenStr ++ (verS ++ vCloseStr)) ≠ [] := by
    intro h
    have hlen := congrArg List.length h
    have h9 : (vOpenStr : Str).length = 9 := rfl
    simp only [List.length_append, List.length_nil, h9] at hlen
    omega
  have htake1 : s.take (A.length + vOpenStr.length + verS.length + vCloseStr.length)
      = A ++ (vOpenStr ++ (verS ++ vCloseStr)) := by
    rw [hs, show A ++ (vOpenStr ++ (verS ++ (vCloseStr ++ B)))
        = (A ++ (vOpenStr ++ (verS ++ vCloseStr))) ++ B by simp [List.append_assoc]]
    exact List.take_left' (by simp [List.length_append]; omega)
  have hvinfo : (s.take (A.length + vOpenStr.length + verS.length
      + vCloseStr.length)).drop A.length
      = vOpenStr ++ (verS ++ vCloseStr) := by
    rw [htake1]; exact List.drop_left A _
  have htake2 : s.take (A.length + vOpenStr.length + verS.length)
      = A ++ (vOpenStr ++ verS) := by
    rw [hs, show A ++ (vOpenStr ++ (verS ++ (vCloseStr ++ B)))
        = (A ++ (vOpenStr ++ verS)) ++ (vCloseStr ++ B) by simp [List.append_assoc]]
    exact List.take_left' (by simp [List.length_append]; omega)
  have hver : (s.take (A.length + vOpenStr.length + verS.length)).drop
      (A.length + vOpenStr.length) = verS := by
    rw [htake2, show A ++ (vOpenStr ++ verS)
        = (A ++ vOpenStr) ++ verS by simp [List.append_assoc]]
    exact List.drop_left' (by simp [List.length_append])
  simp only [versionStep, hsearch, hvinfo, hver, hv]
  congr 1
  rw [pyReplace_splice' (vOpenStr ++ (verS ++ vCloseStr))
    (vOpenStr ++ intToStr (v + 1) ++ vCloseStr) A B s hpatne
    (by rw [hs]; simp [List.append_assoc]) hfirst hB]
  simp [List.append_assoc]

/-- Symbolic execution of the always-run part of the descriptor patch
(timestamp substitution followed by the version increment) on a
descriptor decomposed into its marker spans.  The hypotheses pin the
regex primitives to the designated occurrences; a concrete
well-formed descriptor discharges them by computation. -/
theorem patch_pipeline (s ct : Str) (pre cr mid2 mo mid3 verS post : Str) (v : Int)
    (hs : s = pre ++ (cOpenStr ++ (cr ++ (cCloseStr ++ (mid2 ++ (mOpenStr ++ (mo ++ (mCloseStr ++ (mid3 ++ (vOpenStr ++ (verS ++ (vCloseStr ++ post))))))))))))
    (h1 : findLastIdx cCloseStr s 0 = some (pre.length + cOpenStr.length + cr.length))
    (h2 : findOpenBefore cOpenStr s (pre.length + cOpenStr.length + cr.length)
        = some pre.length)
    (s1 : Str)
    (hs1 : s1 = pre ++ (cOpenStr ++ (ct ++ (cCloseStr ++ (mid2 ++ (mOpenStr ++ (mo ++ (mCloseStr ++ (mid3 ++ (vOpenStr ++ (verS ++ (vCloseStr ++ post))))))))))))
    (h3 : findLastIdx mCloseStr s1 0 = some (pre.length + cOpenStr.length + ct.length
        + cCloseStr.length + mid2.length + mOpenStr.length + mo.length))
    (h4 : findOpenBefore mOpenStr s1 (pre.length + cOpenStr.length + ct.length
        + cCloseStr.length + mid2.length + mOpenStr.length + mo.length)
        = some (pre.length + cOpenStr.length + ct.length + cCloseStr.length + mid2.length))
    (s2 : Str)
    (hs2 : s2 = pre ++ (cOpenStr ++ (ct ++ (cCloseStr ++ (mid2 ++ (mOpenStr ++ (ct ++ (mCloseStr ++ (mid3 ++ (vOpenStr ++ (verS ++ (vCloseStr ++ post))))))))))))
    (h5 : searchLineTag vOpenStr vCloseStr s2
        = some (pre.length + cOpenStr.length + ct.length + cCloseStr.length + mid2.length
            + mOpenStr.length + ct.length + mCloseStr.length + mid3.length,
          pre.length + cOpenStr.length + ct.length + cCloseStr.length + mid2.length
            + mOpenStr.length + ct.length + mCloseStr.length + mid3.length
            + vOpenStr.length + verS.length))
    (hv : pyInt verS = some v)
    (h6 : ∀ i, i < pre.length + cOpenStr.length + ct.length + cCloseStr.length
        + mid2.length + mOpenStr.length + ct.length + mCloseStr.length + mid3.length →
      ¬ (vOpenStr ++ (verS ++ vCloseStr)) <+: s2.drop i)
    (h7 : hasSub (vOpenStr ++ (verS ++ vCloseStr)) post = false) :
    versionStep (stampStage s ct)
      = some (pre ++ (cOpenStr ++ (ct ++ (cCloseStr ++ (mid2 ++ (mOpenStr ++ (ct ++ (mCloseStr ++ (mid3 ++ (vOpenStr ++ (intToStr (v + 1) ++ (vCloseStr ++ post)))))))))))) := by
  have e1 : subTagDotAll cOpenStr cCloseStr (cOpenStr ++ ct ++ cCloseStr) s = s1 := by
    rw [subTagDotAll_splice cOpenStr cCloseStr _ pre cr
      (mid2 ++ (mOpenStr ++ (mo ++ (mCloseStr ++ (mid3 ++ (vOpenStr ++ (verS ++ (vCloseStr ++ post)))))))) s hs h1 h2,
      hs1]
    simp [List.append_assoc]
  have e2 : subTagDotAll mOpenStr mCloseStr (mOpenStr ++ ct ++ mCloseStr) s1 = s2 := by
    have ha : (pre ++ (cOpenStr ++ (ct ++ (cCloseStr ++ mid2)))).length
        = pre.length + cOpenStr.length + ct.length + cCloseStr.length + mid2.length := by
      simp [List.length_append]; omega
    rw [subTagDotAll_splice mOpenStr mCloseStr _
      (pre ++ (cOpenStr ++ (ct ++ (cCloseStr ++ mid2)))) mo
      (mid3 ++ (vOpenStr ++ (verS ++ (vCloseStr ++ post)))) s1
      (by rw [hs1]; simp [List.append_assoc])
      (by rw [h3]; rw [ha]) (by rw [ha]; exact h4), hs2]
    simp [List.append_assoc]
  have hA : (pre ++ (cOpenStr ++ (ct ++ (cCloseStr ++ (mid2 ++ (mOpenStr ++ (ct ++ (mCloseStr ++ mid3)))))))).length
      = pre.length + cOpenStr.length + ct.length + cCloseStr.length + mid2.length
        + mOpenStr.length + ct.length + mCloseStr.length + mid3.length := by
    simp [List.length_append]; omega
  have e3 : versionStep s2
      = some ((pre ++ (cOpenStr ++ (ct ++ (cCloseStr ++ (mid2 ++ (mOpenStr ++ (ct ++ (mCloseStr ++ mid3))))))))
          ++ (vOpenStr ++ (intToStr (v + 1) ++ (vCloseStr ++ post)))) := by
    apply versionStep_splice
      (pre ++ (cOpenStr ++ (ct ++ (cCloseStr ++ (mid2 ++ (mOpenStr ++ (ct ++ (mCloseStr ++ mid3))))))))
      verS post s2 v
      (by rw [hs2]; simp [List.append_assoc])
      (by rw [h5, hA])
      hv
      (by rw [hA]; exact h6)
      h7
  rw [show stampStage s ct = s2 by rw [stampStage, e1, e2], e3]
  congr 1
  simp [List.append_assoc]

/-- The descriptor patch aborts exactly when the version field of the
stamped text is missing or non-numeric. -/
theorem versionStep_none_iff (s : Str) :
    versionStep s = none ↔ versionParseResult s = none := by
  unfold versionStep versionParseResult
  cases hsearch : searchLineTag vOpenStr vCloseStr s with
  | none => simp
  | some ik =>
    obtain ⟨i, k⟩ := ik
    cases hint : pyInt ((s.take k).drop (i + vOpenStr.length)) with
    | none => simp [hint]
    | some v => simp [hint]

/-! ## Claim C4 -/

/-- C4: on every run, in both create and update mode, the descriptor
patch sets the created and modified timestamps to the current local
time rendered by `strftime("%m/%d/%Y %H:%M")` (`fmtTimeMDYHM`), parses
the version field as an integer, adds one, and writes it back as
integer text; and the patch aborts exactly when the version field of
the (stamped) descriptor is missing or non-numeric — no other step of
the text transformation can fail.  The decomposition hypotheses pin
the marker spans of the descriptor to their designated unique
occurrences, as holds for any well-formed descriptor. -/
theorem c4_stamps_and_version_increment
    (data0 dn dl : Str) (u : Bool) (t : DateT)
    (pre cr mid2 mo mid3 verS post : Str) (v : Int) (s1 s2 : Str)
    (hdec : modeStage data0 dn dl u = pre ++ (cOpenStr ++ (cr ++ (cCloseStr ++ (mid2 ++ (mOpenStr ++ (mo ++ (mCloseStr ++ (mid3 ++ (vOpenStr ++ (verS ++ (vCloseStr ++ post))))))))))))
    (h1 : findLastIdx cCloseStr (modeStage data0 dn dl u) 0
        = some (pre.length + cOpenStr.length + cr.length))
    (h2 : findOpenBefore cOpenStr (modeStage data0 dn dl u)
        (pre.length + cOpenStr.length + cr.length) = some pre.length)
    (hs1 : s1 = pre ++ (cOpenStr ++ (fmtTimeMDYHM t ++ (cCloseStr ++ (mid2 ++ (mOpenStr ++ (mo ++ (mCloseStr ++ (mid3 ++ (vOpenStr ++ (verS ++ (vCloseStr ++ post))))))))))))
    (h3 : findLastIdx mCloseStr s1 0 = some (pre.length + cOpenStr.length
        + (fmtTimeMDYHM t).length + cCloseStr.length + mid2.length
        + mOpenStr.length + mo.length))
    (h4 : findOpenBefore mOpenStr s1 (pre.length + cOpenStr.length
        + (fmtTimeMDYHM t).length + cCloseStr.length + mid2.length
        + mOpenStr.length + mo.length)
        = some (pre.length + cOpenStr.length + (fmtTimeMDYHM t).length
            + cCloseStr.length + mid2.length))
    (hs2 : s2 = pre ++ (cOpenStr ++ (fmtTimeMDYHM t ++ (cCloseStr ++ (mid2 ++ (mOpenStr ++ (fmtTimeMDYHM t ++ (mCloseStr ++ (mid3 ++ (vOpenStr ++ (verS ++ (vCloseStr ++ post))))))))))))
    (h5 : searchLineTag vOpenStr vCloseStr s2
        = some (pre.length + cOpenStr.length + (fmtTimeMDYHM t).length
            + cCloseStr.length + mid2.length + mOpenStr.length
            + (fmtTimeMDYHM t).length + mCloseStr.length + mid3.length,
          pre.length + cOpenStr.length + (fmtTimeMDYHM t).length + cCloseStr.length
            + mid2.length + mOpenStr.length + (fmtTimeMDYHM t).length
            + mCloseStr.length + mid3.length + vOpenStr.length + verS.length))
    (hv : pyInt verS = some v)
    (h6 : ∀ i, i < pre.length + cOpenStr.length + (fmtTimeMDYHM t).length
        + cCloseStr.length + mid2.length + mOpenStr.length + (fmtTimeMDYHM t).length
        + mCloseStr.length + mid3.length →
      ¬ (vOpenStr ++ (verS ++ vCloseStr)) <+: s2.drop i)
    (h7 : hasSub (vOpenStr ++ (verS ++ vCloseStr)) post = false) :
    processXmlData data0 dn dl u (fmtTimeMDYHM t)
      = some (pre ++ (cOpenStr ++ (fmtTimeMDYHM t ++ (cCloseStr ++ (mid2 ++ (mOpenStr ++ (fmtTimeMDYHM t ++ (mCloseStr ++ (mid3 ++ (vOpenStr ++ (intToStr (v + 1) ++ (vCloseStr ++ post))))))))))))
    ∧ (∀ d0 : Str, processXmlData d0 dn dl u (fmtTimeMDYHM t) = none
        ↔ versionParseResult (stampStage (modeStage d0 dn dl u) (fmtTimeMDYHM t)) = none) := by
  constructor
  · show versionStep (stampStage (modeStage data0 dn dl u) (fmtTimeMDYHM t)) = _
    exact patch_pipeline (modeStage data0 dn dl u) (fmtTimeMDYHM t)
      pre cr mid2 mo mid3 verS post v hdec h1 h2 s1 hs1 h3 h4 s2 hs2 h5 hv h6 h7
  · intro d0
    show versionStep (stampStage (modeStage d0 dn dl u) (fmtTimeMDYHM t)) = none ↔ _
    exact versionStep_none_iff _

/-- Witness for C4 at a concrete well-formed descriptor, in update
mode with version `12`. -/
theorem c4_stamps_and_version_increment_witness :
    processXmlData
      "<x><created>a</created>M<modified>b</modified>N<version>12</version>tail</x>".data
      (mainDriverName "x".data) "x".data true (fmtTimeMDYHM ⟨1, 5, 2022, 9, 30⟩)
    = some "<x><created>01/05/2022 09:30</created>M<modified>01/05/2022 09:30</modified>N<version>13</version>tail</x>".data := by
  have h := c4_stamps_and_version_increment
    "<x><created>a</created>M<modified>b</modified>N<version>12</version>tail</x>".data
    (mainDriverName "x".data) "x".data true ⟨1, 5, 2022, 9, 30⟩
    "<x>".data "a".data "M".data "b".data "N".data "12".data "tail</x>".data 12
    "<x><created>01/05/2022 09:30</created>M<modified>b</modified>N<version>12</version>tail</x>".data
    "<x><created>01/05/2022 09:30</created>M<modified>01/05/2022 09:30</modified>N<version>12</version>tail</x>".data
    (by decide) (by decide) (by decide) (by decide) (by decide) (by decide)
    (by decide) (by decide) (by decide) (by decide) (by decide)
  exact h.1.trans (by decide)

/-! ## Claim C1 -/

/-- A display-name attribute with name text `nm`. -/
def nameAttr (nm : Str) : Str := "name=\"".data ++ (nm ++ "\"".data)

/-- C1 fails as literally stated: in update mode the descriptor patch
first re-decodes the text with ASCII error-ignoring (lines 108-109),
so a prior descriptor whose display name contains a non-ASCII
character (produced by a create run with a non-ASCII identifier) has
that character silently dropped — the display-name field is changed,
not left unchanged. -/
theorem c1_counterexample :
    processXmlData "name=\"é\"<version>1</version>".data
      (mainDriverName "x".data) "x".data true "01/05/2022 09:30".data
      = some "name=\"\"<version>2</version>".data
  ∧ extractNameAttr "name=\"é\"<version>1</version>".data = some "é".data
  ∧ extractNameAttr "name=\"é\"<version>1</version>".data
      ≠ extractNameAttr "name=\"\"<version>2</version>".data := by
  exact ⟨by decide, by decide, by decide⟩

/-- C1 (amended): for every run in update mode on a pure-ASCII prior
descriptor whose created/modified/version markers occur uniquely at
their designated places, the patch increments the integer version
field by exactly 1 and preserves all remaining text verbatim — in
particular the display-name attribute and the document name — because
the create-mode name rewrites are skipped. -/
theorem c1_update_mode_frame
    (data0 dn dl ct : Str)
    (pre nm mid1 cr mid2 mo mid3 verS post : Str) (v : Int) (s1 s2 : Str)
    (hascii : asciiIgnore data0 = data0)
    (hdec : data0 = pre ++ (nameAttr nm ++ (mid1 ++ (cOpenStr ++ (cr ++ (cCloseStr ++ (mid2 ++ (mOpenStr ++ (mo ++ (mCloseStr ++ (mid3 ++ (vOpenStr ++ (verS ++ (vCloseStr ++ post))))))))))))))
    (h1 : findLastIdx cCloseStr data0 0
        = some ((pre ++ (nameAttr nm ++ mid1)).length + cOpenStr.length + cr.length))
    (h2 : findOpenBefore cOpenStr data0
        ((pre ++ (nameAttr nm ++ mid1)).length + cOpenStr.length + cr.length)
        = some (pre ++ (nameAttr nm ++ mid1)).length)
    (hs1 : s1 = (pre ++ (nameAttr nm ++ mid1)) ++ (cOpenStr ++ (ct ++ (cCloseStr ++ (mid2 ++ (mOpenStr ++ (mo ++ (mCloseStr ++ (mid3 ++ (vOpenStr ++ (verS ++ (vCloseStr ++ post))))))))))))
    (h3 : findLastIdx mCloseStr s1 0 = some ((pre ++ (nameAttr nm ++ mid1)).length
        + cOpenStr.length + ct.length + cCloseStr.length + mid2.length
        + mOpenStr.length + mo.length))
    (h4 : findOpenBefore mOpenStr s1 ((pre ++ (nameAttr nm ++ mid1)).length
        + cOpenStr.length + ct.length + cCloseStr.length + mid2.length
        + mOpenStr.length + mo.length)
        = some ((pre ++ (nameAttr nm ++ mid1)).length + cOpenStr.length + ct.length
            + cCloseStr.length + mid2.length))
    (hs2 : s2 = (pre ++ (nameAttr nm ++ mid1)) ++ (cOpenStr ++ (ct ++ (cCloseStr ++ (mid2 ++ (mOpenStr ++ (ct ++ (mCloseStr ++ (mid3 ++ (vOpenStr ++ (verS ++ (vCloseStr ++ post))))))))))))
    (h5 : searchLineTag vOpenStr vCloseStr s2
        = some ((pre ++ (nameAttr nm ++ mid1)).length + cOpenStr.length + ct.length
            + cCloseStr.length + mid2.length + mOpenStr.length + ct.length
            + mCloseStr.length + mid3.length,
          (pre ++ (nameAttr nm ++ mid1)).length + cOpenStr.length + ct.length
            + cCloseStr.length + mid2.length + mOpenStr.length + ct.length
            + mCloseStr.length + mid3.length + vOpenStr.length + verS.length))
    (hv : pyInt verS = some v)
    (h6 : ∀ i, i < (pre ++ (nameAttr nm ++ mid1)).length + cOpenStr.length + ct.length
        + cCloseStr.length + mid2.length + mOpenStr.length + ct.length
        + mCloseStr.length + mid3.length →
      ¬ (vOpenStr ++ (verS ++ vCloseStr)) <+: s2.drop i)
    (h7 : hasSub (vOpenStr ++ (verS ++ vCloseStr)) post = false) :
    processXmlData data0 dn dl true ct
      = some (pre ++ (nameAttr nm ++ (mid1 ++ (cOpenStr ++ (ct ++ (cCloseStr ++ (mid2 ++ (mOpenStr ++ (ct ++ (mCloseStr ++ (mid3 ++ (vOpenStr ++ (intToStr (v + 1) ++ (vCloseStr ++ post)))))))))))))) := by
  have hm : modeStage data0 dn dl true = data0 := by
    simp [modeStage, hascii]
  show versionStep (stampStage (modeStage data0 dn dl true) ct) = _
  rw [hm]
  have hs : data0 = (pre ++ (nameAttr nm ++ mid1)) ++ (cOpenStr ++ (cr ++ (cCloseStr ++ (mid2 ++ (mOpenStr ++ (mo ++ (mCloseStr ++ (mid3 ++ (vOpenStr ++ (verS ++ (vCloseStr ++ post))))))))))) := by
    rw [hdec]; simp [nameAttr, List.append_assoc]
  rw [patch_pipeline data0 ct (pre ++ (nameAttr nm ++ mid1)) cr mid2 mo mid3 verS post v
    hs h1 h2 s1 hs1 h3 h4 s2 hs2 h5 hv h6 h7]
  congr 1
  simp [nameAttr, List.append_assoc]

/-- Witness for the amended C1 at a concrete ASCII prior descriptor
with version `7` and display name `Stones`. -/
theorem c1_update_mode_frame_witness :
    processXmlData
      "A name=\"Stones\" B<created>a</created>M<modified>b</modified>N<version>7</version>end".data
      (mainDriverName "stones".data) "stones".data true "01/05/2022 09:30".data
    = some "A name=\"Stones\" B<created>01/05/2022 09:30</created>M<modified>01/05/2022 09:30</modified>N<version>8</version>end".data := by
  have h := c1_update_mode_frame
    "A name=\"Stones\" B<created>a</created>M<modified>b</modified>N<version>7</version>end".data
    (mainDriverName "stones".data) "stones".data "01/05/2022 09:30".data
    "A ".data "Stones".data " B".data "a".data "M".data "b".data "N".data "7".data "end".data 7
    "A name=\"Stones\" B<created>01/05/2022 09:30</created>M<modified>b</modified>N<version>7</version>end".data
    "A name=\"Stones\" B<created>01/05/2022 09:30</created>M<modified>01/05/2022 09:30</modified>N<version>7</version>end".data
    (by decide) (by decide) (by decide) (by decide) (by decide) (by decide)
    (by decide) (by decide) (by decide) (by decide) (by decide) (by decide)
  exact h.trans (by decide)

/-! ## Claim C10 -/

/-- C10: in create mode, the identifier rewrite (line 116) is a plain
global substring replacement — the document splits at the leftmost
non-overlapping occurrences of `"experience-button-scenario"`, every
occurrence is replaced (no occurrence survives inside any piece), and
the replacement text is the full output stem `"uibutton_" ++ ident`
(the `driver_name` of `main`, lines 143-144), not the bare identifier
supplied on the command line. -/
theorem c10_global_stem_replacement (data ident label : Str) :
    pyReplace sceStr (mainDriverName ident) data
      = joinSep (mainDriverName ident) (pySplit sceStr data)
  ∧ (∀ piece ∈ pySplit sceStr data, hasSub sceStr piece = false)
  ∧ createRewrite data (mainDriverName ident) label
      = pyReplace nameScenStr ("name=\"".data ++ labelDisplay label ++ "\"".data)
          (pyReplace docScenStr (labelDisplay label ++ " - Experience Button".data)
            (joinSep (mainDriverName ident) (pySplit sceStr data)))
  ∧ mainDriverName ident = "uibutton_".data ++ ident := by
  refine ⟨pyReplace_eq_joinSep _ _ _, ?_, ?_, rfl⟩
  · intro piece hmem
    exact (hasSub_eq_false_iff sceStr piece (by decide)).mpr
      (pySplit_clean sceStr data (by decide) piece hmem)
  · unfold createRewrite
    rw [pyReplace_eq_joinSep sceStr (mainDriverName ident) data]

/-! ## Claim C3 -/

/-- C3: in create mode the descriptor patch sets the display name to
the title-cased, underscores-to-spaces form of the identifier
(`labelDisplay`), sets the document name to that display name followed
by `" - Experience Button"`, and rewrites every occurrence of the
template's internal identifier to the new driver stem (globally, per
`pySplit`).  The hypotheses pin the document-name and display-name
literals to unique occurrences, as in the stock template. -/
theorem c3_create_mode_rewrites (d ident : Str) (a b a2 b2 : Str)
    (h1 : pyReplace sceStr (mainDriverName ident) d = a ++ (docScenStr ++ b))
    (hfa : ∀ i, i < a.length →
      ¬ docScenStr <+: (pyReplace sceStr (mainDriverName ident) d).drop i)
    (hb : hasSub docScenStr b = false)
    (h2 : a ++ ((labelDisplay ident ++ " - Experience Button".data) ++ b)
        = a2 ++ (nameScenStr ++ b2))
    (hfa2 : ∀ i, i < a2.length → ¬ nameScenStr <+: (a2 ++ (nameScenStr ++ b2)).drop i)
    (hb2 : hasSub nameScenStr b2 = false) :
    createRewrite d (mainDriverName ident) ident
      = a2 ++ (("name=\"".data ++ (labelDisplay ident ++ "\"".data)) ++ b2)
  ∧ pyReplace docScenStr (labelDisplay ident ++ " - Experience Button".data)
      (pyReplace sceStr (mainDriverName ident) d)
      = a ++ ((labelDisplay ident ++ " - Experience Button".data) ++ b)
  ∧ pyReplace sceStr (mainDriverName ident) d
      = joinSep (mainDriverName ident) (pySplit sceStr d)
  ∧ labelDisplay ident = pyReplace ['_'] [' '] (pyTitle ident) := by
  have step2 : pyReplace docScenStr (labelDisplay ident ++ " - Experience Button".data)
      (pyReplace sceStr (mainDriverName ident) d)
      = a ++ ((labelDisplay ident ++ " - Experience Button".data) ++ b) :=
    pyReplace_splice' docScenStr _ a b _ (by decide) h1 hfa hb
  refine ⟨?_, step2, pyReplace_eq_joinSep _ _ _, rfl⟩
  show pyReplace nameScenStr ("name=\"".data ++ labelDisplay ident ++ "\"".data)
      (pyReplace docScenStr (labelDisplay ident ++ " - Experience Button".data)
        (pyReplace sceStr (mainDriverName ident) d)) = _
  rw [step2, h2, pyReplace_splice' nameScenStr
    ("name=\"".data ++ labelDisplay ident ++ "\"".data) a2 b2 _ (by decide) rfl
    (by rw [← h2]; intro i hi; rw [h2]; exact hfa2 i hi) hb2]
  simp [List.append_assoc]

/-- Witness for C3 at a template-shaped concrete descriptor and the
identifier `my_st`. -/
theorem c3_create_mode_rewrites_witness :
    createRewrite
      "name=\"Scenario\" p/experience-button-scenario/i.png <n>Scenario - Experience Button</n>".data
      (mainDriverName "my_st".data) "my_st".data
    = "name=\"My St\" p/uibutton_my_st/i.png <n>My St - Experience Button</n>".data := by
  have h := c3_create_mode_rewrites
    "name=\"Scenario\" p/experience-button-scenario/i.png <n>Scenario - Experience Button</n>".data
    "my_st".data
    "name=\"Scenario\" p/uibutton_my_st/i.png <n>".data "</n>".data
    "".data " p/uibutton_my_st/i.png <n>My St - Experience Button</n>".data
    (by decide) (by decide) (by decide) (by decide) (by decide) (by decide)
  exact h.1.trans (by decide)

/-! ## ASCII preservation lemmas -/

theorem toNat_ofNat_valid (n : Nat) (h : n.isValidChar) : (Char.ofNat n).toNat = n := by
  unfold Char.ofNat
  rw [dif_pos h]
  unfold Char.ofNatAux Char.toNat
  simp [UInt32.toNat, BitVec.toNat_ofNatLt]

theorem toLower_ascii (c : Char) (h : c.toNat < 128) : c.toLower.toNat < 128 := by
  unfold Char.toLower
  by_cases hc : c.toNat ≥ 65 ∧ c.toNat ≤ 90
  · rw [if_pos hc, toNat_ofNat_valid _ (Or.inl (by omega))]
    omega
  · rw [if_neg hc]
    exact h

theorem toUpper_ascii (c : Char) (h : c.toNat < 128) : c.toUpper.toNat < 128 := by
  unfold Char.toUpper
  by_cases hc : c.toNat ≥ 97 ∧ c.toNat ≤ 122
  · rw [if_pos hc, toNat_ofNat_valid _ (Or.inl (by omega))]
    omega
  · rw [if_neg hc]
    exact h

theorem allAscii_mono (s s' : Str) (hsub : ∀ c, c ∈ s' → c ∈ s)
    (h : allAscii s = true) : allAscii s' = true := by
  simp only [allAscii, List.all_eq_true, decide_eq_true_eq] at *
  intro c hc
  exact h c (hsub c hc)

theorem allAscii_append (a b : Str) (ha : allAscii a = true) (hb : allAscii b = true) :
    allAscii (a ++ b) = true := by
  simp only [allAscii, List.all_eq_true, decide_eq_true_eq, List.mem_append] at *
  rintro c (hc | hc)
  · exact ha c hc
  · exact hb c hc

theorem allAscii_cons (c : Char) (s : Str) (hc : c.toNat < 128)
    (hs : allAscii s = true) : allAscii (c :: s) = true := by
  simp only [allAscii, List.all_eq_true, decide_eq_true_eq, List.mem_cons] at *
  rintro x (rfl | hx)
  · exact hc
  · exact hs x hx

theorem pyReplaceF_ascii (pat rep : Str) (hrep : allAscii rep = true) :
    ∀ (fuel : Nat) (s : Str), allAscii s = true →
      allAscii (pyReplaceF fuel pat rep s) = true := by
  intro fuel
  induction fuel with
  | zero => intro s hs; exact hs
  | succ f ih =>
    intro s hs
    match s with
    | [] => exact hs
    | c :: rest =>
      simp only [pyReplaceF]
      by_cases hc : pat ≠ [] ∧ pat <+: (c :: rest)
      · rw [if_pos hc]
        refine allAscii_append _ _ hrep (ih _ ?_)
        exact allAscii_mono (c :: rest) _ (fun x hx => List.mem_of_mem_drop hx) hs
      · rw [if_neg hc]
        have hcs : c.toNat < 128 := by
          simp only [allAscii, List.all_eq_true, decide_eq_true_eq] at hs
          exact hs c (List.mem_cons_self c rest)
        refine allAscii_cons c _ hcs (ih rest ?_)
        exact allAscii_mono (c :: rest) rest
          (fun x hx => List.mem_cons_of_mem _ hx) hs

theorem pyReplace_ascii (pat rep s : Str) (hrep : allAscii rep = true)
    (hs : allAscii s = true) : allAscii (pyReplace pat rep s) = true :=
  pyReplaceF_ascii pat rep hrep (s.length + 1) s hs

theorem subTagDotAll_ascii (openT closeT rep s : Str) (hrep : allAscii rep = true)
    (hs : allAscii s = true) : allAscii (subTagDotAll openT closeT rep s) = true := by
  unfold subTagDotAll
  split
  · exact hs
  · split
    · exact hs
    · refine allAscii_append _ _ (allAscii_append _ _ ?_ hrep) ?_
      · exact allAscii_mono s _ (fun x hx => List.mem_of_mem_take hx) hs
      · exact allAscii_mono s _ (fun x hx => List.mem_of_mem_drop hx) hs

theorem digitChar_ascii (n : Nat) : (digitChar n).toNat < 128 := by
  match n with
  | 0 | 1 | 2 | 3 | 4 | 5 | 6 | 7 | 8 => decide
  | n + 9 => exact (by decide : ('9' : Char).toNat < 128)

theorem natToStrF_ascii : ∀ (fuel n : Nat), allAscii (natToStrF fuel n) = true := by
  intro fuel
  induction fuel with
  | zero => intro n; rfl
  | succ f ih =>
    intro n
    simp only [natToStrF]
    by_cases hn : n < 10
    · rw [if_pos hn]
      exact allAscii_cons _ _ (digitChar_ascii n) rfl
    · rw [if_neg hn]
      exact allAscii_append _ _ (ih (n / 10))
        (allAscii_cons _ _ (digitChar_ascii (n % 10)) rfl)

theorem intToStr_ascii (v : Int) : allAscii (intToStr v) = true := by
  unfold intToStr
  by_cases hv : v < 0
  · rw [if_pos hv]
    exact allAscii_cons _ _ (by decide) (natToStrF_ascii _ _)
  · rw [if_neg hv]
    exact natToStrF_ascii _ _

theorem versionStep_some_ascii (s out : Str) (hs : allAscii s = true)
    (hout : versionStep s = some out) : allAscii out = true := by
  unfold versionStep at hout
  cases hsearch : searchLineTag vOpenStr vCloseStr s with
  | none => rw [hsearch] at hout; exact absurd hout (by simp)
  | some ik =>
    obtain ⟨i, k⟩ := ik
    rw [hsearch] at hout
    simp only at hout
    cases hint : pyInt ((s.take k).drop (i + vOpenStr.length)) with
    | none => rw [hint] at hout; exact absurd hout (by simp)
    | some v =>
      rw [hint] at hout
      simp only [Option.some_inj] at hout
      rw [← hout]
      refine pyReplace_ascii _ _ _ ?_ hs
      refine allAscii_append _ _ (allAscii_append _ _ (by decide) (intToStr_ascii _)) (by decide)

theorem asciiIgnore_ascii (s : Str) : allAscii (asciiIgnore s) = true := by
  simp only [allAscii, asciiIgnore, List.all_eq_true, decide_eq_true_eq]
  intro c hc
  exact (List.mem_filter.mp hc).2 |> of_decide_eq_true

theorem pyTitleGo_ascii : ∀ (b : Bool) (s : Str), allAscii s = true →
    allAscii (pyTitleGo b s) = true := by
  intro b s
  induction s generalizing b with
  | nil => intro h; exact h
  | cons c rest ih =>
    intro h
    have hc : c.toNat < 128 := by
      simp only [allAscii, List.all_eq_true, decide_eq_true_eq] at h
      exact h c (List.mem_cons_self c rest)
    have hrest : allAscii rest = true :=
      allAscii_mono (c :: rest) rest (fun x hx => List.mem_cons_of_mem _ hx) h
    simp only [pyTitleGo]
    by_cases ha : c.isAlpha
    · rw [if_pos ha]
      refine allAscii_cons _ _ ?_ (ih true hrest)
      by_cases hb : b
      · rw [if_pos hb]; exact toLower_ascii c hc
      · rw [if_neg hb]; exact toUpper_ascii c hc
    · rw [if_neg ha]
      exact allAscii_cons _ _ hc (ih false hrest)

theorem labelDisplay_ascii (l : Str) (h : allAscii l = true) :
    allAscii (labelDisplay l) = true := by
  unfold labelDisplay
  exact pyReplace_ascii _ _ _ (by decide) (pyTitleGo_ascii false l h)

theorem createRewrite_ascii (d dn dl : Str) (hd : allAscii d = true)
    (hdn : allAscii dn = true) (hdl : allAscii dl = true) :
    allAscii (createRewrite d dn dl) = true := by
  show allAscii (pyReplace nameScenStr ("name=\"".data ++ labelDisplay dl ++ "\"".data)
    (pyReplace docScenStr (labelDisplay dl ++ " - Experience Button".data)
      (pyReplace sceStr dn d))) = true
  refine pyReplace_ascii _ _ _ ?_ (pyReplace_ascii _ _ _ ?_ (pyReplace_ascii _ _ _ hdn hd))
  · have h1 := labelDisplay_ascii dl hdl
    simp only [allAscii, List.all_append, Bool.and_eq_true] at h1 ⊢
    exact ⟨⟨by decide, h1⟩, by decide⟩
  · have h1 := labelDisplay_ascii dl hdl
    simp only [allAscii, List.all_append, Bool.and_eq_true] at h1 ⊢
    exact ⟨h1, by decide⟩

/-! ## Claim C9 -/

/-- C9 fails as literally stated: the create-mode replacement strings
come from the command-line identifier, which is not ASCII-filtered, so
the rewritten descriptor can contain non-ASCII characters even though
the input descriptor was filtered.  Concretely, identifier `é` puts
`uibutton_é` into the output. -/
theorem c9_counterexample :
    processXmlData "i/experience-button-scenario/x.png<version>1</version>".data
      (mainDriverName "é".data) "é".data false "01/05/2022 09:30".data
      = some "i/uibutton_é/x.png<version>2</version>".data
  ∧ allAscii "i/uibutton_é/x.png<version>2</version>".data = false := by
  exact ⟨by decide, by decide⟩

/-- C9 (amended): the descriptor patcher decodes the content with
ASCII error-ignoring before any rewriting, so every non-ASCII
character of the input descriptor is silently dropped (the filtered
text is an all-ASCII sublist of the input); and the rewritten
descriptor contains only ASCII characters provided the inserted
strings — the timestamp and, in create mode, the identifier-derived
names — are ASCII (in update mode the identifier plays no role). -/
theorem c9_ascii_filtering (data0 dn dl ct out : Str) (u : Bool)
    (hdn : allAscii dn = true) (hdl : allAscii dl = true) (hct : allAscii ct = true)
    (hrun : processXmlData data0 dn dl u ct = some out) :
    List.Sublist (asciiIgnore data0) data0
  ∧ allAscii (asciiIgnore data0) = true
  ∧ allAscii out = true := by
  refine ⟨List.filter_sublist data0, asciiIgnore_ascii data0, ?_⟩
  have hmode : allAscii (modeStage data0 dn dl u) = true := by
    unfold modeStage
    by_cases hu : u = false
    · rw [if_pos hu]
      exact createRewrite_ascii _ _ _ (asciiIgnore_ascii data0) hdn hdl
    · rw [if_neg hu]
      exact asciiIgnore_ascii data0
  have hstamp : allAscii (stampStage (modeStage data0 dn dl u) ct) = true := by
    unfold stampStage
    refine subTagDotAll_ascii _ _ _ _ ?_ (subTagDotAll_ascii _ _ _ _ ?_ hmode)
    · exact allAscii_append _ _ (allAscii_append _ _ (by decide) hct) (by decide)
    · exact allAscii_append _ _ (allAscii_append _ _ (by decide) hct) (by decide)
  exact versionStep_some_ascii _ _ hstamp hrun

/-- Witness for the amended C9: an update run over a descriptor
holding a non-ASCII character drops it and produces pure ASCII. -/
theorem c9_ascii_filtering_witness :
    List.Sublist (asciiIgnore "<v>é</v><version>1</version>".data)
      "<v>é</v><version>1</version>".data
  ∧ allAscii (asciiIgnore "<v>é</v><version>1</version>".data) = true
  ∧ allAscii "<v></v><version>2</version>".data = true :=
  c9_ascii_filtering "<v>é</v><version>1</version>".data
    (mainDriverName "x".data) "x".data "01/05/2022 09:30".data
    "<v></v><version>2</version>".data true
    (by decide) (by decide) (by decide) (by decide)

/-! ## Filesystem and image model

`main` (lines 130-205) works through the filesystem.  Paths are lists
of components (the program only ever joins fixed component names);
the filesystem is an association list of files plus a list of
directories, threaded explicitly through each step. -/

/-- A filesystem path, as a list of components. -/
abbrev FPath := List String

/-- A raster image: dimensions and a pixel matrix. -/
structure Image where
  width : Nat
  height : Nat
  pix : List (List Nat)
deriving DecidableEq

/-- Model of the image library's resize contract (out of scope for the
repository per the spec): the output has exactly the requested
dimensions; the pixel content is nearest-neighbour sampling, a
deterministic function of the source. -/
def resizeImage (im : Image) (w h : Nat) : Image where
  width := w
  height := h
  pix := (List.range h).map (fun y => (List.range w).map (fun x =>
    (im.pix.getD (y * im.height / h) []).getD (x * im.width / w) 0))

/-- Contents of a file: an image, text, an opaque blob (e.g. the log),
or a zip archive holding entries and directories. -/
inductive FContent where
  | image : Image → FContent
  | text : Str → FContent
  | blob : Nat → FContent
  | arch : List (FPath × FContent) → List FPath → FContent

/-- The filesystem: an association list of files (later writes are at
the front and shadow nothing — `writeF` removes the old entry) and a
list of directories. -/
structure FS where
  files : List (FPath × FContent)
  dirs : List FPath

/-- Read a file. -/
def FS.readF (fs : FS) (p : FPath) : Option FContent :=
  (fs.files.find? (fun e => decide (e.1 = p))).map Prod.snd

/-- Create or overwrite a file. -/
def FS.writeF (fs : FS) (p : FPath) (c : FContent) : FS :=
  ⟨(p, c) :: fs.files.filter (fun e => decide (e.1 ≠ p)), fs.dirs⟩

/-- `true` when a file exists at `p`. -/
def FS.fileExists (fs : FS) (p : FPath) : Bool :=
  fs.files.any (fun e => decide (e.1 = p))

/-- `true` when `p` is a directory: at or above a recorded directory,
or implied by a file strictly below it. -/
def FS.isDir (fs : FS) (p : FPath) : Bool :=
  fs.dirs.any (fun d => p.isPrefixOf d)
    || fs.files.any (fun e => decide (p ≠ e.1) && p.isPrefixOf e.1)

/-- Model of `os.path.exists`: a file or a directory. -/
def FS.pathExists (fs : FS) (p : FPath) : Bool := fs.fileExists p || fs.isDir p

/-- Model of `os.remove`. -/
def FS.removeF (fs : FS) (p : FPath) : FS :=
  ⟨fs.files.filter (fun e => decide (e.1 ≠ p)), fs.dirs⟩

/-- Model of `shutil.rmtree`: delete every file and directory at or
below `p`. -/
def FS.rmtree (fs : FS) (p : FPath) : FS :=
  ⟨fs.files.filter (fun e => !(p.isPrefixOf e.1)),
   fs.dirs.filter (fun d => !(p.isPrefixOf d))⟩

/-- Model of `Path(p).mkdir(parents=True, exist_ok=True)`. -/
def FS.mkdir (fs : FS) (p : FPath) : FS := ⟨fs.files, p :: fs.dirs⟩

/-! ## The image set generator: `make_image_files` (lines 81-96) -/

/-- The fixed pixel sizes (line 84). -/
def sizelist : List Nat := [16, 32, 70, 90, 300, 512, 1024]

/-- The output file name `<stem>_<size>.png` (line 87); in `main` the
prefix is a path `<dir>/<stem>`, modelled as `outdir ++ [outName stem sz]`. -/
def outName (stem : String) (sz : Nat) : String :=
  stem ++ "_" ++ toString sz ++ ".png"

/-- Model of `make_image_files`: open the source image (a non-image or
missing source is the unhandled `PIL` crash, `Except.error`), then for
each size, unless the output path equals the source path (line 89),
save a square resize.  Disk-level save faults (the `OSError` handler
of lines 93-95) are not modelled: the filesystem always accepts
writes. -/
def make_image_files (fs : FS) (infile : FPath) (outdir : FPath) (stem : String) :
    Except Unit FS :=
  match fs.readF infile with
  | some (FContent.image im) =>
    Except.ok (sizelist.foldl (fun acc sz =>
      if infile ≠ outdir ++ [outName stem sz] then
        acc.writeF (outdir ++ [outName stem sz]) (FContent.image (resizeImage im sz sz))
      else acc) fs)
  | _ => Except.error ()

/-- The written files of one generator run, as explicit writes. -/
def genResult (fs : FS) (outdir : FPath) (stem : String) (im : Image) : FS :=
  ((sizelist.map (fun sz =>
      (outdir ++ [outName stem sz], FContent.image (resizeImage im sz sz)))).foldl
    (fun acc e => acc.writeF e.1 e.2) fs)

/-- First stage of the filesystem lemma kit: reading after a write. -/
theorem readF_writeF (fs : FS) (p q : FPath) (c : FContent) :
    (fs.writeF q c).readF p = if p = q then some c else fs.readF p := by
  unfold FS.writeF FS.readF
  by_cases h : p = q
  · subst h
    simp
  · rw [if_neg h]
    rw [List.find?_cons_of_neg _ (by simp only [decide_eq_true_eq]; exact fun he => h he.symm)]
    congr 1
    induction fs.files with
    | nil => rfl
    | cons e t ih =>
      by_cases he : e.1 = q
      · rw [List.filter_cons_of_neg (by simp [he]),
          List.find?_cons_of_neg _ (by simp only [decide_eq_true_eq, he]; exact fun hq => h hq.symm)]
        exact ih
      · rw [List.filter_cons_of_pos (by simp [he])]
        by_cases hp : e.1 = p
        · rw [List.find?_cons_of_pos _ (by simp [hp]),
            List.find?_cons_of_pos _ (by simp [hp])]
        · rw [List.find?_cons_of_neg _ (by simp [hp]),
            List.find?_cons_of_neg _ (by simp [hp])]
          exact ih

theorem readF_writeF_same (fs : FS) (p : FPath) (c : FContent) :
    (fs.writeF p c).readF p = some c := by
  rw [readF_writeF, if_pos rfl]

theorem readF_writeF_ne (fs : FS) (p q : FPath) (c : FContent) (h : p ≠ q) :
    (fs.writeF q c).readF p = fs.readF p := by
  rw [readF_writeF, if_neg h]

/-- Reading after a chain of writes that never touch `p`. -/
theorem readF_foldl_writes_notmem (l : List (FPath × FContent)) (fs : FS) (p : FPath)
    (hp : ∀ e ∈ l, e.1 ≠ p) :
    ((l.foldl (fun acc e => acc.writeF e.1 e.2) fs)).readF p = fs.readF p := by
  induction l generalizing fs with
  | nil => rfl
  | cons e t ih =>
    rw [List.foldl_cons, ih _ (fun x hx => hp x (List.mem_cons_of_mem _ hx)),
      readF_writeF_ne _ _ _ _ (fun he => hp e (List.mem_cons_self e t) he.symm)]

/-- Reading after a chain of writes with distinct paths returns the
written content. -/
theorem readF_foldl_writes_mem (l : List (FPath × FContent)) (fs : FS) (p : FPath)
    (c : FContent) (hmem : (p, c) ∈ l) (hnd : (l.map Prod.fst).Nodup) :
    ((l.foldl (fun acc e => acc.writeF e.1 e.2) fs)).readF p = some c := by
  induction l generalizing fs with
  | nil => exact absurd hmem (List.not_mem_nil _)
  | cons e t ih =>
    obtain ⟨q, d⟩ := e
    rw [List.map_cons, List.nodup_cons] at hnd
    rcases List.mem_cons.mp hmem with he | hmem'
    · injection he with h1 h2
      subst h1
      subst h2
      rw [List.foldl_cons]
      rw [readF_foldl_writes_notmem t _ p ?_, readF_writeF_same]
      intro x hx hxp
      exact absurd (List.mem_map.mpr ⟨x, hx, hxp⟩) hnd.1
    · rw [List.foldl_cons]
      exact ih _ hmem' hnd.2
example : pyTitle "my_button_2x".data = "My_Button_2X".data := by decide
example : pyInt "  42 ".data = some 42 := by decide
example : pyInt "4_2".data = some 42 := by decide
example : pyInt "x42".data = none := by decide
example : intToStr (-7) = "-7".data := by decide
example : natToStr 120 = "120".data := by decide
example : subTagDotAll "<c>".data "</c>".data "R".data "a<c>xx</c>b<c>y</c>z".data
    = "aRz".data := by decide
example : searchLineTag "<v>".data "</v>".data "p<v>8</v>q".data = some (1, 5) := by decide
example :
    processXmlData "<created>x</created><version>3</version>".data
      (mainDriverName "st".data) "st".data true "T".data
    = some "<created>T</created><version>4</version>".data := by decide
example :
    processXmlData "name=\"Scenario\" i/experience-button-scenario/x.png <version>3</version>".data
      (mainDriverName "my_st".data) "my_st".data false "T".data
    = some "name=\"My St\" i/uibutton_my_st/x.png <version>4</version>".data := by decide
example : labelDisplay "my_button".data = "My Button".data := by decide
example : fmtTimeMDYHM ⟨1, 5, 2022, 9, 30⟩ = "01/05/2022 09:30".data := by decide
example : extractNameAttr "a name=\"Foo\" b".data = some "Foo".data := by decide

theorem outName_ne (stem : String) (a b : Nat) (h : toString a ≠ toString b) :
    outName stem a ≠ outName stem b := by
  intro he
  apply h
  unfold outName at he
  have hd := congrArg String.data he
  simp only [String.data_append] at hd
  exact String.ext (List.append_cancel_left (List.append_cancel_right hd))

theorem outPath_ne (outdir : FPath) (stem : String) (a b : Nat)
    (h : toString a ≠ toString b) :
    outdir ++ [outName stem a] ≠ outdir ++ [outName stem b] := by
  intro he
  have h1 := List.append_cancel_left he
  simp only [List.cons.injEq, and_true] at h1
  exact outName_ne stem a b h h1

theorem outPaths_nodup (outdir : FPath) (stem : String) :
    ((sizelist.map (fun sz => outdir ++ [outName stem sz])).Nodup) := by
  refine (List.nodup_map_iff_inj_on (by decide)).mpr ?_
  intro x hx y hy he
  by_contra hxy
  refine absurd he (outPath_ne outdir stem x y ?_)
  simp only [sizelist, List.mem_cons, List.not_mem_nil, or_false] at hx hy
  rcases hx with rfl | rfl | rfl | rfl | rfl | rfl | rfl <;>
    rcases hy with rfl | rfl | rfl | rfl | rfl | rfl | rfl <;>
    first
      | exact absurd rfl hxy
      | decide

theorem make_image_files_eq (fs : FS) (infile outdir : FPath) (stem : String) (im : Image)
    (hread : fs.readF infile = some (FContent.image im))
    (hne : ∀ sz ∈ sizelist, infile ≠ outdir ++ [outName stem sz]) :
    make_image_files fs infile outdir stem = Except.ok (genResult fs outdir stem im) := by
  unfold make_image_files genResult
  rw [hread]
  simp only [sizelist, List.map_cons, List.map_nil, List.foldl_cons, List.foldl_nil]
  rw [if_pos (hne 16 (by decide)), if_pos (hne 32 (by decide)),
    if_pos (hne 70 (by decide)), if_pos (hne 90 (by decide)),
    if_pos (hne 300 (by decide)), if_pos (hne 512 (by decide)),
    if_pos (hne 1024 (by decide))]

/-! ## Claim C2 -/

/-- Projection of a generator result, for stating concrete runs. -/
def exceptFS : Except Unit FS → FS
  | Except.ok fs => fs
  | Except.error _ => ⟨[], []⟩

/-- C2 fails as literally stated: when the source path coincides with
one of the seven output paths, the guard of line 89 skips that size.
Here a 5×7 source named `x_16.png` leaves only six generated files
and the file at the 16-pixel output name is the unresized,
non-square source. -/
theorem c2_counterexample :
    (exceptFS (make_image_files ⟨[(["d", "x_16.png"], FContent.image ⟨5, 7, [[1]]⟩)], []⟩
        ["d", "x_16.png"] ["d"] "x")).readF ["d", "x_16.png"]
      = some (FContent.image ⟨5, 7, [[1]]⟩)
  ∧ (Image.mk 5 7 [[1]]).width ≠ 16
  ∧ (exceptFS (make_image_files ⟨[(["d", "x_16.png"], FContent.image ⟨5, 7, [[1]]⟩)], []⟩
        ["d", "x_16.png"] ["d"] "x")).files.length = 7 :=
  ⟨rfl, by decide, rfl⟩

/-- C2 (amended): for every decodable source image and every output
prefix whose seven output paths all differ from the source path, the
generator succeeds and produces exactly 7 output files, one per size
in `sizelist = [16, 32, 70, 90, 300, 512, 1024]`, each named
`<stem>_<size>.png` in the output directory, each holding the
square-resized image with the requested side length, and it touches no
other path. -/
theorem c2_seven_square_outputs (fs : FS) (infile outdir : FPath) (stem : String) (im : Image)
    (hread : fs.readF infile = some (FContent.image im))
    (hne : ∀ sz ∈ sizelist, infile ≠ outdir ++ [outName stem sz]) :
    make_image_files fs infile outdir stem = Except.ok (genResult fs outdir stem im)
  ∧ sizelist.length = 7
  ∧ ((sizelist.map (fun sz => outdir ++ [outName stem sz])).Nodup)
  ∧ (∀ sz ∈ sizelist,
      (genResult fs outdir stem im).readF (outdir ++ [outName stem sz])
        = some (FContent.image (resizeImage im sz sz))
      ∧ (resizeImage im sz sz).width = sz ∧ (resizeImage im sz sz).height = sz)
  ∧ (∀ p : FPath, (∀ sz ∈ sizelist, p ≠ outdir ++ [outName stem sz]) →
      (genResult fs outdir stem im).readF p = fs.readF p) := by
  refine ⟨make_image_files_eq fs infile outdir stem im hread hne, rfl,
    outPaths_nodup outdir stem, ?_, ?_⟩
  · intro sz hsz
    refine ⟨?_, rfl, rfl⟩
    unfold genResult
    refine readF_foldl_writes_mem _ _ _ _ (List.mem_map.mpr ⟨sz, hsz, rfl⟩) ?_
    rw [List.map_map]
    exact outPaths_nodup outdir stem
  · intro p hp
    unfold genResult
    refine readF_foldl_writes_notmem _ _ _ ?_
    intro e he
    obtain ⟨sz, hsz, rfl⟩ := List.mem_map.mp he
    exact fun h1 => hp sz hsz h1.symm

/-- Witness for the amended C2 on a 2×2 source image. -/
theorem c2_seven_square_outputs_witness :
    make_image_files ⟨[(["img.png"], FContent.image ⟨2, 2, [[1, 2], [3, 4]]⟩)], []⟩
        ["img.png"] ["d"] "default"
      = Except.ok (genResult ⟨[(["img.png"], FContent.image ⟨2, 2, [[1, 2], [3, 4]]⟩)], []⟩
          ["d"] "default" ⟨2, 2, [[1, 2], [3, 4]]⟩) :=
  (c2_seven_square_outputs ⟨[(["img.png"], FContent.image ⟨2, 2, [[1, 2], [3, 4]]⟩)], []⟩
    ["img.png"] ["d"] "default" ⟨2, 2, [[1, 2], [3, 4]]⟩ rfl (by decide)).1

/-! ## `main` (lines 130-205)

The run is a function of the command line, the downloaded template (a
parameter standing for the network), the formatted current time, and
the starting filesystem. -/

/-- Outcome of a run: normal completion, `sys.exit` with a message, or
an unhandled exception propagating as a crash. -/
inductive Outcome where
  | ok : Outcome
  | exited : Str → Outcome
  | crashed : Outcome
deriving DecidableEq

/-- `true` exactly for a `sys.exit` with a message. -/
def Outcome.isExit : Outcome → Bool
  | Outcome.exited _ => true
  | _ => false

/-- Result of a run: the outcome and the final filesystem. -/
structure RunResult where
  outcome : Outcome
  fs : FS

/-- Model of `shutil.move` for a file: read the source (missing source
is a crash), delete it, and write the content at the destination —
into the destination when it is a directory. -/
def FS.moveF (fs : FS) (src dst : FPath) : Except Unit FS :=
  match fs.readF src with
  | none => Except.error ()
  | some c =>
    let tgt := if fs.isDir dst then dst ++ [src.getLastD ""] else dst
    Except.ok ((fs.removeF src).writeF tgt c)

/-- Model of `shutil.copy`: like `moveF` but the source stays. -/
def FS.copyF (fs : FS) (src dst : FPath) : Except Unit FS :=
  match fs.readF src with
  | none => Except.error ()
  | some c =>
    let tgt := if fs.isDir dst then dst ++ [src.getLastD ""] else dst
    Except.ok (fs.writeF tgt c)

/-- Model of `glob.glob` for the patterns `<dir>/<pre>*<suf>`: the
files directly inside `dir` whose base name starts with `pre`, ends
with `suf`, and is long enough for both. -/
def FS.globIn (fs : FS) (dir : FPath) (pre suf : String) : List FPath :=
  fs.files.filterMap (fun e =>
    if e.1.dropLast = dir then
      match e.1.getLast? with
      | some b =>
        if pre.data.isPrefixOf b.data && suf.data.isSuffixOf b.data
            && decide (pre.data.length + suf.data.length ≤ b.data.length) then
          some e.1
        else none
      | none => none
    else none)

/-- Model of `zipfile.ZipFile(...).extractall(path=root)`: write every
entry under `root` (later archive entries overwrite earlier ones) and
record the archive's directories under `root`. -/
def extractInto (fs : FS) (root : FPath) (entries : List (FPath × FContent))
    (adirs : List FPath) : FS :=
  (entries.map (fun e => (root ++ e.1, e.2))).foldl (fun acc e => acc.writeF e.1 e.2)
    ⟨fs.files, root :: (adirs.map (fun d => root ++ d)) ++ fs.dirs⟩

/-- Model of `shutil.make_archive(..., root_dir)`: the files and
directories strictly below `root`, with `root`-relative paths. -/
def FS.archiveOf (fs : FS) (root : FPath) : FContent :=
  FContent.arch
    (fs.files.filterMap (fun e =>
      if root.isPrefixOf e.1 && decide (e.1 ≠ root) then
        some (e.1.drop root.length, e.2)
      else none))
    (fs.dirs.filterMap (fun d =>
      if root.isPrefixOf d && decide (d ≠ root) then some (d.drop root.length) else none))

/-- `configure_logging` (lines 71-78, called at line 148): the
`FileHandler` creates the log file when absent and appends otherwise;
the log text is not modelled. -/
def ensureLog (fs : FS) (p : FPath) : FS :=
  if fs.fileExists p then fs else fs.writeF p (FContent.blob 0)

/-- The template archive file name (line 63). -/
def TEMPLATE_DRIVER_FILE : String := "experience-button-scenario.c4z"

/-- The extracted `icons-old` folder (line 185). -/
def iconsOldP : FPath := ["tempdir", "www", "icons-old"]

/-- Lines 185-187: remove `tempdir/www/icons-old` when present;
`shutil.rmtree` on a plain file raises (crash). -/
def stageIconsOld (fs : FS) : Except Unit FS :=
  if fs.pathExists iconsOldP then
    if fs.isDir iconsOldP then Except.ok (fs.rmtree iconsOldP) else Except.error ()
  else Except.ok fs

/-- Lines 188-191: move the 16/32 default outputs to the fixed icon
names and delete the 16/32 selected outputs (`os.remove` on a missing
file raises). -/
def stageMoves (fs : FS) : Except Unit FS :=
  match fs.moveF ["temp_image", "default_16.png"] ["tempdir", "www", "icons", "device_sm.png"] with
  | Except.error _ => Except.error ()
  | Except.ok fs1 =>
  match fs1.moveF ["temp_image", "default_32.png"] ["tempdir", "www", "icons", "device_lg.png"] with
  | Except.error _ => Except.error ()
  | Except.ok fs2 =>
    if fs2.fileExists ["temp_image", "selected_16.png"] then
      let fs3 := fs2.removeF ["temp_image", "selected_16.png"]
      if fs3.fileExists ["temp_image", "selected_32.png"] then
        Except.ok (fs3.removeF ["temp_image", "selected_32.png"])
      else Except.error ()
    else Except.error ()

/-- Lines 192-195: glob the remaining default and selected outputs and
copy them into `tempdir/www/icons/device`. -/
def stageCopies (fs : FS) : Except Unit FS :=
  ((fs.globIn ["temp_image"] "default_" ".png")
      ++ (fs.globIn ["temp_image"] "selected" ".png")).foldlM
    (fun acc p => acc.copyF p ["tempdir", "www", "icons", "device"]) fs

/-- Lines 196-205: delete the image directory, archive the working
directory, delete it, rename the zip to the final driver name, and in
create mode delete the downloaded template. -/
def stagePack (name : String) (upd : Bool) (fs : FS) : RunResult :=
  let fs1 := fs.rmtree ["temp_image"]
  let zipP : FPath := ["uibutton_" ++ name ++ ".zip"]
  let finalP : FPath := ["uibutton_" ++ name ++ ".c4z"]
  let fs2 := fs1.writeF zipP (fs1.archiveOf ["tempdir"])
  let fs3 := fs2.rmtree ["tempdir"]
  match fs3.moveF zipP finalP with
  | Except.error _ => ⟨Outcome.crashed, fs3⟩
  | Except.ok fs4 =>
    if upd then ⟨Outcome.ok, fs4⟩
    else if fs4.fileExists [TEMPLATE_DRIVER_FILE] then
      ⟨Outcome.ok, fs4.removeF [TEMPLATE_DRIVER_FILE]⟩
    else ⟨Outcome.crashed, fs4⟩

/-- Lines 171-205 of `main`, after template resolution: `origDriver`
is the extraction source and `upd` the mode. -/
def pipelineRest (name : String) (origDriver : FPath) (upd : Bool) (ct : Str)
    (fs : FS) : RunResult :=
  let imgP : FPath := [name ++ ".png"]
  let selP : FPath := [name ++ "_selected.png"]
  let selSrc := if fs.pathExists selP then selP else imgP
  let fs1 := fs.mkdir ["temp_image"]
  match make_image_files fs1 imgP ["temp_image"] "default" with
  | Except.error _ => ⟨Outcome.crashed, fs1⟩
  | Except.ok fs2 =>
  match make_image_files fs2 selSrc ["temp_image"] "selected" with
  | Except.error _ => ⟨Outcome.crashed, fs2⟩
  | Except.ok fs3 =>
  match fs3.readF origDriver with
  | some (FContent.arch entries adirs) =>
    (let fs4 := extractInto fs3 ["tempdir"] entries adirs
     match fs4.readF ["tempdir", "driver.xml"] with
     | some (FContent.text xml) =>
       (match processXmlData xml ("uibutton_" ++ name).data name.data upd ct with
        | none => ⟨Outcome.crashed, fs4⟩
        | some xml2 =>
          let fs5 := fs4.writeF ["tempdir", "driver.xml"] (FContent.text xml2)
          (match stageIconsOld fs5 with
           | Except.error _ => ⟨Outcome.crashed, fs5⟩
           | Except.ok fs6 =>
             (match stageMoves fs6 with
              | Except.error _ => ⟨Outcome.crashed, fs6⟩
              | Except.ok fs7 =>
                (match stageCopies fs7 with
                 | Except.error _ => ⟨Outcome.crashed, fs7⟩
                 | Except.ok fs8 => stagePack name upd fs8))))
     | _ => ⟨Outcome.crashed, fs4⟩)
  | _ => ⟨Outcome.crashed, fs3⟩

/-- `main` (lines 130-205); named `mainRun` because Lean reserves
`main` for entry points.  `argv` is the full `sys.argv` including
the script name; `download` is what one `wget` of the fixed template
URL materializes (`none`: no file appears); `ct` is the formatted
current time consumed by the descriptor patch. -/
def mainRun (argv : List String) (download : Option FContent) (ct : Str)
    (fs0 : FS) : RunResult :=
  if argv.length < 2 then
    ⟨Outcome.exited "No filename provided for image file. Please provide an image name as an argument.  Aborting.".data, fs0⟩
  else
    let name := argv.getD 1 ""
    let fs1 := ensureLog fs0 ["uibutton_" ++ name ++ ".log"]
    if ¬ fs1.pathExists [name ++ ".png"] then
      ⟨Outcome.exited ("No image file called '" ++ name ++ ".png' in current directory.  Aborting.").data, fs1⟩
    else
      if fs1.pathExists ["uibutton_" ++ name ++ ".c4z"] then
        pipelineRest name ["uibutton_" ++ name ++ ".c4z"] true ct fs1
      else
        match download with
        | none =>
          ⟨Outcome.exited "No file called experience-button-scenario.c4z in current directory.  Aborting.".data, fs1⟩
        | some t =>
          pipelineRest name [TEMPLATE_DRIVER_FILE] false ct
            (fs1.writeF [TEMPLATE_DRIVER_FILE] t)

/-- The entries of the archive stored at `p`, if any. -/
def archEntriesAt (fs : FS) (p : FPath) : List (FPath × FContent) :=
  match fs.readF p with
  | some (FContent.arch es _) => es
  | _ => []

/-- The directories of the archive stored at `p`, if any. -/
def archDirsAt (fs : FS) (p : FPath) : List FPath :=
  match fs.readF p with
  | some (FContent.arch _ ds) => ds
  | _ => []

/-- Lookup of an entry in an archive entry list (first match). -/
def archLookup (es : List (FPath × FContent)) (q : FPath) : Option FContent :=
  (es.find? (fun e => decide (e.1 = q))).map Prod.snd

example :
    (mainRun ["c4driver.py", "x"]
      (some (FContent.arch
        [(["driver.xml"], FContent.text "<version>1</version>".data),
         (["www", "icons", "device_sm.png"], FContent.blob 1)]
        [["www"], ["www", "icons"], ["www", "icons", "device"]]))
      "T".data
      ⟨[(["x.png"], FContent.image ⟨1, 1, [[5]]⟩)], []⟩).outcome = Outcome.ok := by decide

example :
    archLookup (archEntriesAt
      (mainRun ["c4driver.py", "x"]
        (some (FContent.arch
          [(["driver.xml"], FContent.text "<version>1</version>".data),
           (["www", "icons", "device_sm.png"], FContent.blob 1)]
          [["www"], ["www", "icons"], ["www", "icons", "device"]]))
        "T".data
        ⟨[(["x.png"], FContent.image ⟨1, 1, [[5]]⟩)], []⟩).fs
      ["uibutton_x.c4z"])
      ["driver.xml"]
    = some (FContent.text "<version>2</version>".data) := rfl

/-! ## Filesystem lemma kit for `mainRun` -/

theorem append_suffix_ne {α : Type} (a b s1 s2 : List α) (hl : s1.length = s2.length)
    (hne : s1 ≠ s2) : a ++ s1 ≠ b ++ s2 := by
  intro he
  apply hne
  have hlen := congrArg List.length he
  simp only [List.length_append] at hlen
  have hab : b.length = a.length := by omega
  have hdrop := congrArg (List.drop a.length) he
  rw [List.drop_left] at hdrop
  rw [List.drop_left' hab] at hdrop
  exact hdrop

theorem str_suffix_ne (x y s1 s2 : String) (hl : s1.data.length = s2.data.length)
    (hne : s1.data ≠ s2.data) : x ++ s1 ≠ y ++ s2 := by
  intro he
  have hd := congrArg String.data he
  simp only [String.data_append] at hd
  exact append_suffix_ne _ _ _ _ hl hne hd

theorem fileExists_eq_isSome_readF (fs : FS) (p : FPath) :
    fs.fileExists p = (fs.readF p).isSome := by
  unfold FS.fileExists FS.readF
  induction fs.files with
  | nil => rfl
  | cons e t ih =>
    by_cases he : e.1 = p
    · rw [List.any_cons, List.find?_cons_of_pos _ (by simp [he])]
      simp [he]
    · rw [List.any_cons, List.find?_cons_of_neg _ (by simp [he])]
      have hd : decide (e.1 = p) = false := by simp [he]
      rw [hd]
      simp only [Bool.false_or]
      exact ih

theorem mem_files_writeF (fs : FS) (q : FPath) (c : FContent) (e : FPath × FContent) :
    e ∈ (fs.writeF q c).files ↔ e = (q, c) ∨ (e ∈ fs.files ∧ e.1 ≠ q) := by
  unfold FS.writeF
  constructor
  · intro he
    rcases List.mem_cons.mp he with rfl | hmem
    · exact Or.inl rfl
    · have hm := List.mem_filter.mp hmem
      exact Or.inr ⟨hm.1, by simpa using hm.2⟩
  · rintro (rfl | ⟨hmem, hne⟩)
    · exact List.mem_cons_self _ _
    · exact List.mem_cons_of_mem _ (List.mem_filter.mpr ⟨hmem, by simpa using hne⟩)

theorem dirs_writeF (fs : FS) (q : FPath) (c : FContent) :
    (fs.writeF q c).dirs = fs.dirs := rfl

theorem isDir_iff (fs : FS) (p : FPath) :
    fs.isDir p = true ↔ (∃ d ∈ fs.dirs, p <+: d) ∨ ∃ e ∈ fs.files, p ≠ e.1 ∧ p <+: e.1 := by
  unfold FS.isDir
  rw [Bool.or_eq_true, List.any_eq_true, List.any_eq_true]
  constructor
  · rintro (⟨d, hd, hde⟩ | ⟨e, he, hee⟩)
    · rw [List.isPrefixOf_iff_prefix] at hde
      exact Or.inl ⟨d, hd, hde⟩
    · rw [Bool.and_eq_true, decide_eq_true_eq, List.isPrefixOf_iff_prefix] at hee
      exact Or.inr ⟨e, he, hee.1, hee.2⟩
  · rintro (⟨d, hd, hde⟩ | ⟨e, he, h1, h2⟩)
    · exact Or.inl ⟨d, hd, by rwa [List.isPrefixOf_iff_prefix]⟩
    · exact Or.inr ⟨e, he, by rw [Bool.and_eq_true, decide_eq_true_eq, List.isPrefixOf_iff_prefix]; exact ⟨h1, h2⟩⟩

theorem single_prefix_single {x y : String} (h : [x] <+: [y]) : x = y := by
  rcases h with ⟨t, ht⟩
  simp only [List.cons_append, List.nil_append, List.cons.injEq] at ht
  exact ht.1

theorem isDir_writeF_single (fs : FS) (x y : String) (c : FContent) (h : x ≠ y) :
    (fs.writeF [y] c).isDir [x] = fs.isDir [x] := by
  apply Bool.coe_iff_coe.mp
  rw [isDir_iff, isDir_iff, dirs_writeF]
  constructor
  · rintro (hd | ⟨e, he, hne, hpre⟩)
    · exact Or.inl hd
    · rcases (mem_files_writeF fs [y] c e).mp he with rfl | ⟨hmem, -⟩
      · exact absurd (single_prefix_single hpre) h
      · exact Or.inr ⟨e, hmem, hne, hpre⟩
  · rintro (hd | ⟨e, he, hne, hpre⟩)
    · exact Or.inl hd
    · by_cases hey : e.1 = [y]
      · exact absurd (single_prefix_single (hey ▸ hpre)) h
      · exact Or.inr ⟨e, (mem_files_writeF fs [y] c e).mpr (Or.inr ⟨he, hey⟩), hne, hpre⟩

theorem pathExists_writeF_single (fs : FS) (x y : String) (c : FContent) (h : x ≠ y) :
    (fs.writeF [y] c).pathExists [x] = fs.pathExists [x] := by
  unfold FS.pathExists
  rw [isDir_writeF_single fs x y c h, fileExists_eq_isSome_readF,
    fileExists_eq_isSome_readF, readF_writeF_ne _ _ _ _ (by simp [h])]

theorem pathExists_ensureLog_single (fs : FS) (x y : String) (h : x ≠ y) :
    (ensureLog fs [y]).pathExists [x] = fs.pathExists [x] := by
  unfold ensureLog
  split
  · rfl
  · exact pathExists_writeF_single fs x y _ h

theorem readF_ensureLog_ne (fs : FS) (p q : FPath) (h : p ≠ q) :
    (ensureLog fs q).readF p = fs.readF p := by
  unfold ensureLog
  split
  · rfl
  · exact readF_writeF_ne _ _ _ _ h

theorem stagePack_not_exit (name : String) (upd : Bool) (fs : FS) :
    (stagePack name upd fs).outcome.isExit = false := by
  unfold stagePack
  dsimp only
  repeat' split
  all_goals rfl

theorem pipelineRest_not_exit (name : String) (origDriver : FPath) (upd : Bool)
    (ct : Str) (fs : FS) :
    (pipelineRest name origDriver upd ct fs).outcome.isExit = false := by
  unfold pipelineRest
  dsimp only
  repeat' split
  all_goals first
    | rfl
    | apply stagePack_not_exit

/-! ## Claim C6 -/

/-- C6: the program exits via `sys.exit` with a human-readable message
in exactly three startup cases — no command-line argument, missing
source image `<name>.png`, or (create mode) a template download that
does not materialize the archive — and in each such case it exits
without producing an output archive: at most the log file has been
created, every other path (in particular `uibutton_<name>.c4z`) is
untouched.  All later failures are unhandled crashes, not
message-exits. -/
theorem c6_startup_exit_cases (argv : List String) (download : Option FContent)
    (ct : Str) (fs0 : FS) :
    ((mainRun argv download ct fs0).outcome.isExit = true
      ↔ (argv.length < 2
        ∨ (2 ≤ argv.length ∧ fs0.pathExists [argv.getD 1 "" ++ ".png"] = false)
        ∨ (2 ≤ argv.length ∧ fs0.pathExists [argv.getD 1 "" ++ ".png"] = true
            ∧ fs0.pathExists ["uibutton_" ++ argv.getD 1 "" ++ ".c4z"] = false
            ∧ download = none)))
  ∧ (argv.length < 2 →
      (mainRun argv download ct fs0).outcome
        = Outcome.exited "No filename provided for image file. Please provide an image name as an argument.  Aborting.".data)
  ∧ (2 ≤ argv.length → fs0.pathExists [argv.getD 1 "" ++ ".png"] = false →
      (mainRun argv download ct fs0).outcome
        = Outcome.exited ("No image file called '" ++ argv.getD 1 "" ++ ".png' in current directory.  Aborting.").data)
  ∧ (2 ≤ argv.length → fs0.pathExists [argv.getD 1 "" ++ ".png"] = true →
      fs0.pathExists ["uibutton_" ++ argv.getD 1 "" ++ ".c4z"] = false →
      download = none →
      (mainRun argv download ct fs0).outcome
        = Outcome.exited "No file called experience-button-scenario.c4z in current directory.  Aborting.".data)
  ∧ ((mainRun argv download ct fs0).outcome.isExit = true →
      (mainRun argv download ct fs0).fs.readF ["uibutton_" ++ argv.getD 1 "" ++ ".c4z"]
        = fs0.readF ["uibutton_" ++ argv.getD 1 "" ++ ".c4z"]
      ∧ ∀ p : FPath, p ≠ ["uibutton_" ++ argv.getD 1 "" ++ ".log"] →
          (mainRun argv download ct fs0).fs.readF p = fs0.readF p) := by
  by_cases h1 : argv.length < 2
  · have hrun : mainRun argv download ct fs0
        = ⟨Outcome.exited "No filename provided for image file. Please provide an image name as an argument.  Aborting.".data, fs0⟩ := by
      unfold mainRun
      rw [if_pos h1]
    rw [hrun]
    refine ⟨?_, fun _ => rfl, ?_, ?_, ?_⟩
    · simp [Outcome.isExit, h1]
    · intro h2; omega
    · intro h2; omega
    · intro _; exact ⟨rfl, fun p _ => rfl⟩
  · have h1' : 2 ≤ argv.length := by omega
    have hpng : (ensureLog fs0 ["uibutton_" ++ argv.getD 1 "" ++ ".log"]).pathExists
          [argv.getD 1 "" ++ ".png"]
        = fs0.pathExists [argv.getD 1 "" ++ ".png"] :=
      pathExists_ensureLog_single fs0 _ _
        (str_suffix_ne (argv.getD 1 "") ("uibutton_" ++ argv.getD 1 "")
          ".png" ".log" (by decide) (by decide))
    have hc4z : (ensureLog fs0 ["uibutton_" ++ argv.getD 1 "" ++ ".log"]).pathExists
          ["uibutton_" ++ argv.getD 1 "" ++ ".c4z"]
        = fs0.pathExists ["uibutton_" ++ argv.getD 1 "" ++ ".c4z"] :=
      pathExists_ensureLog_single fs0 _ _
        (str_suffix_ne ("uibutton_" ++ argv.getD 1 "") ("uibutton_" ++ argv.getD 1 "")
          ".c4z" ".log" (by decide) (by decide))
    have hc4zlog : (["uibutton_" ++ argv.getD 1 "" ++ ".c4z"] : FPath)
        ≠ ["uibutton_" ++ argv.getD 1 "" ++ ".log"] := by
      simp only [ne_eq, List.cons.injEq, and_true]
      exact str_suffix_ne ("uibutton_" ++ argv.getD 1 "") ("uibutton_" ++ argv.getD 1 "")
        ".c4z" ".log" (by decide) (by decide)
    by_cases h2 : fs0.pathExists [argv.getD 1 "" ++ ".png"] = true
    · by_cases h3 : fs0.pathExists ["uibutton_" ++ argv.getD 1 "" ++ ".c4z"] = true
      · have hrun : mainRun argv download ct fs0
            = pipelineRest (argv.getD 1 "") ["uibutton_" ++ argv.getD 1 "" ++ ".c4z"]
                true ct (ensureLog fs0 ["uibutton_" ++ argv.getD 1 "" ++ ".log"]) := by
          unfold mainRun
          rw [if_neg h1]
          dsimp only
          rw [if_neg (by rw [hpng, h2]; simp), if_pos (by rw [hc4z]; exact h3)]
        rw [hrun]
        have hne := pipelineRest_not_exit (argv.getD 1 "")
          ["uibutton_" ++ argv.getD 1 "" ++ ".c4z"] true ct
          (ensureLog fs0 ["uibutton_" ++ argv.getD 1 "" ++ ".log"])
        refine ⟨?_, ?_, ?_, ?_, ?_⟩
        · rw [hne]
          constructor
          · intro hx; exact absurd hx (by simp)
          · rintro (ha | ⟨-, hf⟩ | ⟨-, -, hf, -⟩)
            · omega
            · exact absurd (h2.symm.trans hf) (by simp)
            · exact absurd (h3.symm.trans hf) (by simp)
        · intro h; omega
        · intro _ hf; rw [h2] at hf; exact absurd hf (by simp)
        · intro _ _ hf _; rw [h3] at hf; exact absurd hf (by simp)
        · intro hx; rw [hne] at hx; exact absurd hx (by simp)
      · cases download with
        | none =>
          have hrun : mainRun argv none ct fs0
              = ⟨Outcome.exited "No file called experience-button-scenario.c4z in current directory.  Aborting.".data,
                  ensureLog fs0 ["uibutton_" ++ argv.getD 1 "" ++ ".log"]⟩ := by
            unfold mainRun
            rw [if_neg h1]
            dsimp only
            rw [if_neg (by rw [hpng, h2]; simp), if_neg (by rw [hc4z]; simpa using h3)]
          rw [hrun]
          refine ⟨?_, ?_, ?_, ?_, ?_⟩
          · simp only [Outcome.isExit, true_iff]
            exact Or.inr (Or.inr ⟨h1', h2, by simpa using h3, trivial⟩)
          · intro h; omega
          · intro _ hf; rw [h2] at hf; exact absurd hf (by simp)
          · intro _ _ _ _; rfl
          · intro _
            refine ⟨readF_ensureLog_ne fs0 _ _ hc4zlog, fun p hp => readF_ensureLog_ne fs0 _ _ hp⟩
        | some t =>
          have hrun : mainRun argv (some t) ct fs0
              = pipelineRest (argv.getD 1 "") [TEMPLATE_DRIVER_FILE] false ct
                  ((ensureLog fs0 ["uibutton_" ++ argv.getD 1 "" ++ ".log"]).writeF
                    [TEMPLATE_DRIVER_FILE] t) := by
            unfold mainRun
            rw [if_neg h1]
            dsimp only
            rw [if_neg (by rw [hpng, h2]; simp), if_neg (by rw [hc4z]; simpa using h3)]
          rw [hrun]
          have hne := pipelineRest_not_exit (argv.getD 1 "") [TEMPLATE_DRIVER_FILE] false ct
            ((ensureLog fs0 ["uibutton_" ++ argv.getD 1 "" ++ ".log"]).writeF
              [TEMPLATE_DRIVER_FILE] t)
          refine ⟨?_, ?_, ?_, ?_, ?_⟩
          · rw [hne]
            constructor
            · intro hx; exact absurd hx (by simp)
            · rintro (ha | ⟨-, hf⟩ | ⟨-, -, -, hd⟩)
              · omega
              · exact absurd (h2.symm.trans hf) (by simp)
              · exact absurd hd (by simp)
          · intro h; omega
          · intro _ hf; rw [h2] at hf; exact absurd hf (by simp)
          · intro _ _ _ hd; exact absurd hd (by simp)
          · intro hx; rw [hne] at hx; exact absurd hx (by simp)
    · have hrun : mainRun argv download ct fs0
          = ⟨Outcome.exited ("No image file called '" ++ argv.getD 1 ""
                ++ ".png' in current directory.  Aborting.").data,
              ensureLog fs0 ["uibutton_" ++ argv.getD 1 "" ++ ".log"]⟩ := by
        unfold mainRun
        rw [if_neg h1]
        dsimp only
        rw [if_pos (by rw [hpng]; simpa using h2)]
      rw [hrun]
      refine ⟨?_, ?_, ?_, ?_, ?_⟩
      · simp only [Outcome.isExit, true_iff]
        exact Or.inr (Or.inl ⟨h1', by simpa using h2⟩)
      · intro h; omega
      · intro _ _; rfl
      · intro _ hf; exact absurd hf h2
      · intro _
        refine ⟨readF_ensureLog_ne fs0 _ _ hc4zlog, fun p hp => readF_ensureLog_ne fs0 _ _ hp⟩

theorem readF_removeF (fs : FS) (q p : FPath) :
    (fs.removeF q).readF p = if p = q then none else fs.readF p := by
  unfold FS.removeF FS.readF
  by_cases h : p = q
  · subst h
    rw [if_pos rfl]
    have hnone : (fs.files.filter (fun e => decide (e.1 ≠ p))).find?
        (fun e => decide (e.1 = p)) = none := by
      rw [List.find?_eq_none]
      intro e he
      have h2 := (List.mem_filter.mp he).2
      simp only [decide_eq_true_eq] at h2 ⊢
      exact h2
    rw [hnone]
    rfl
  · rw [if_neg h]
    congr 1
    induction fs.files with
    | nil => rfl
    | cons e t ih =>
      by_cases he : e.1 = q
      · rw [List.filter_cons_of_neg (by simp [he]),
          List.find?_cons_of_neg _ (by simp only [decide_eq_true_eq, he]; exact fun hq => h hq.symm)]
        exact ih
      · rw [List.filter_cons_of_pos (by simp [he])]
        by_cases hp : e.1 = p
        · rw [List.find?_cons_of_pos _ (by simp [hp]),
            List.find?_cons_of_pos _ (by simp [hp])]
        · rw [List.find?_cons_of_neg _ (by simp [hp]),
            List.find?_cons_of_neg _ (by simp [hp])]
          exact ih

theorem readF_rmtree (fs : FS) (r p : FPath) :
    (fs.rmtree r).readF p = if r <+: p then none else fs.readF p := by
  unfold FS.rmtree FS.readF
  by_cases h : r <+: p
  · rw [if_pos h]
    have hnone : (fs.files.filter (fun e => !(r.isPrefixOf e.1))).find?
        (fun e => decide (e.1 = p)) = none := by
      rw [List.find?_eq_none]
      intro e he
      have h2 := (List.mem_filter.mp he).2
      simp only [Bool.not_eq_true', ← Bool.not_eq_true, List.isPrefixOf_iff_prefix] at h2
      simp only [decide_eq_true_eq]
      intro hc
      exact h2 (hc ▸ h)
    rw [hnone]
    rfl
  · rw [if_neg h]
    congr 1
    induction fs.files with
    | nil => rfl
    | cons e t ih =>
      by_cases he : r <+: e.1
      · have hb : r.isPrefixOf e.1 = true := List.isPrefixOf_iff_prefix.mpr he
        rw [List.filter_cons_of_neg (by rw [hb]; simp),
          List.find?_cons_of_neg _ (by
            simp only [decide_eq_true_eq]
            intro hp
            exact h (hp ▸ he))]
        exact ih
      · have hb : r.isPrefixOf e.1 = false := by
          rw [← Bool.not_eq_true, List.isPrefixOf_iff_prefix]
          exact he
        rw [List.filter_cons_of_pos (by rw [hb]; simp)]
        by_cases hp : e.1 = p
        · rw [List.find?_cons_of_pos _ (by simp [hp]),
            List.find?_cons_of_pos _ (by simp [hp])]
        · rw [List.find?_cons_of_neg _ (by simp [hp]),
            List.find?_cons_of_neg _ (by simp [hp])]
          exact ih

theorem readF_foldl_writes (l : List (FPath × FContent)) (fs : FS) (p : FPath) :
    ((l.foldl (fun acc e => acc.writeF e.1 e.2) fs)).readF p
      = match l.reverse.find? (fun e => decide (e.1 = p)) with
        | some en => some en.2
        | none => fs.readF p := by
  induction l generalizing fs with
  | nil => rfl
  | cons e t ih =>
    rw [List.foldl_cons, ih, List.reverse_cons, List.find?_append]
    cases hf : t.reverse.find? (fun e => decide (e.1 = p)) with
    | some en => rfl
    | none =>
      simp only [Option.none_or]
      by_cases he : e.1 = p
      · rw [List.find?_cons_of_pos _ (by simp [he]), readF_writeF, if_pos he.symm]
      · rw [List.find?_cons_of_neg _ (by simp [he]), readF_writeF,
          if_neg (fun hc => he hc.symm)]
        rfl

theorem dirs_foldl_writes (l : List (FPath × FContent)) (fs : FS) :
    ((l.foldl (fun acc e => acc.writeF e.1 e.2) fs)).dirs = fs.dirs := by
  induction l generalizing fs with
  | nil => rfl
  | cons e t ih => rw [List.foldl_cons, ih]; rfl

theorem mem_files_foldl_writes (l : List (FPath × FContent)) (fs : FS)
    (e : FPath × FContent) (he : e ∈ ((l.foldl (fun acc e => acc.writeF e.1 e.2) fs)).files) :
    e ∈ l ∨ e ∈ fs.files := by
  induction l generalizing fs with
  | nil => exact Or.inr he
  | cons a t ih =>
    rw [List.foldl_cons] at he
    rcases ih _ he with hm | hm
    · exact Or.inl (List.mem_cons_of_mem _ hm)
    · rcases (mem_files_writeF fs a.1 a.2 e).mp hm with hq | ⟨hmem, -⟩
      · exact Or.inl (by rw [hq]; exact List.mem_cons_self _ _)
      · exact Or.inr hmem

theorem readF_extractInto (fs : FS) (root : FPath) (E : List (FPath × FContent))
    (D : List FPath) (p : FPath) :
    (extractInto fs root E D).readF p
      = match (E.map (fun e => (root ++ e.1, e.2))).reverse.find?
            (fun e => decide (e.1 = p)) with
        | some en => some en.2
        | none => fs.readF p := by
  unfold extractInto
  rw [readF_foldl_writes]
  rfl

theorem dirs_extractInto (fs : FS) (root : FPath) (E : List (FPath × FContent))
    (D : List FPath) :
    (extractInto fs root E D).dirs = root :: (D.map (fun d => root ++ d)) ++ fs.dirs := by
  unfold extractInto
  rw [dirs_foldl_writes]

theorem mem_files_extractInto (fs : FS) (root : FPath) (E : List (FPath × FContent))
    (D : List FPath) (e : FPath × FContent)
    (he : e ∈ (extractInto fs root E D).files) :
    (∃ e0 ∈ E, e = (root ++ e0.1, e0.2)) ∨ e ∈ fs.files := by
  unfold extractInto at he
  rcases mem_files_foldl_writes _ _ _ he with hm | hm
  · obtain ⟨e0, he0, heq⟩ := List.mem_map.mp hm
    exact Or.inl ⟨e0, he0, heq.symm⟩
  · exact Or.inr hm

theorem isDir_of_mem_dirs (fs : FS) (p d : FPath) (hd : d ∈ fs.dirs) (hp : p <+: d) :
    fs.isDir p = true := by
  unfold FS.isDir
  rw [Bool.or_eq_true, List.any_eq_true]
  exact Or.inl ⟨d, hd, by rwa [List.isPrefixOf_iff_prefix]⟩

theorem isDir_eq_false (fs : FS) (p : FPath)
    (hd : ∀ d ∈ fs.dirs, ¬ p <+: d)
    (hf : ∀ e ∈ fs.files, p <+: e.1 → p = e.1) : fs.isDir p = false := by
  rw [← Bool.not_eq_true, isDir_iff]
  rintro (⟨d, hdm, hdp⟩ | ⟨e, he, hne, hp⟩)
  · exact hd d hdm hdp
  · exact hne (hf e he hp)

theorem head?_eq_of_pfx {p d : FPath} (h : p <+: d) (hne : p ≠ []) :
    d.head? = p.head? := by
  obtain ⟨t, ht⟩ := h
  subst ht
  match p, hne with
  | x :: xs, _ => rfl

theorem moveF_eq (fs : FS) (src dst : FPath) (c : FContent)
    (h : fs.readF src = some c) (hdir : fs.isDir dst = false) :
    fs.moveF src dst = Except.ok ((fs.removeF src).writeF dst c) := by
  unfold FS.moveF
  rw [h]
  simp only [hdir]
  rfl

theorem copyF_eq_into (fs : FS) (src dst : FPath) (c : FContent)
    (h : fs.readF src = some c) (hdir : fs.isDir dst = true) :
    fs.copyF src dst = Except.ok (fs.writeF (dst ++ [src.getLastD ""]) c) := by
  unfold FS.copyF
  rw [h]
  simp only [hdir]
  rfl

/-! ## Path and string disequality helpers -/

theorem str_ne_of_last (a b : String) (h : a.data.getLast? ≠ b.data.getLast?) : a ≠ b :=
  fun he => h (by rw [he])

theorem data_getLast_append (x s : String) (c : Char) (hs : s.data ≠ [])
    (h : s.data.getLast? = some c) : (x ++ s).data.getLast? = some c := by
  rw [String.data_append, List.getLast?_append_of_ne_nil _ hs, h]

theorem str_ne_of_head (a b : String) (h : a.data.head? ≠ b.data.head?) : a ≠ b :=
  fun he => h (by rw [he])

theorem data_head_append (x s : String) (c : Char) (h : x.data.head? = some c) :
    (x ++ s).data.head? = some c := by
  rw [String.data_append, List.head?_append, h]
  rfl

theorem not_prefix_of_head_ne {p d : FPath} {x : String} (hp : p.head? = some x)
    (hd : d.head? ≠ some x) : ¬ p <+: d := by
  intro hpre
  have hne : p ≠ [] := by
    intro he
    rw [he] at hp
    cases hp
  exact hd ((head?_eq_of_pfx hpre hne).trans hp)

theorem not_single_pfx {x : String} {d : FPath} (h : d.head? ≠ some x) :
    ¬ [x] <+: d :=
  not_prefix_of_head_ne rfl h

theorem getLastD_of_getLast? {l : FPath} {b : String} (h : l.getLast? = some b) :
    l.getLastD "" = b := by
  rw [List.getLastD_eq_getLast?, h]
  rfl

/-! ## More filesystem transfer lemmas -/

theorem readF_mkdir (fs : FS) (d p : FPath) : (fs.mkdir d).readF p = fs.readF p := rfl

theorem dirs_mkdir (fs : FS) (d : FPath) : (fs.mkdir d).dirs = d :: fs.dirs := rfl

theorem dirs_removeF (fs : FS) (q : FPath) : (fs.removeF q).dirs = fs.dirs := rfl

theorem mem_files_removeF (fs : FS) (q : FPath) (e : FPath × FContent) :
    e ∈ (fs.removeF q).files ↔ e ∈ fs.files ∧ e.1 ≠ q := by
  unfold FS.removeF
  rw [List.mem_filter]
  simp only [decide_eq_true_eq]

theorem mem_files_rmtree (fs : FS) (r : FPath) (e : FPath × FContent) :
    e ∈ (fs.rmtree r).files ↔ e ∈ fs.files ∧ ¬ r <+: e.1 := by
  unfold FS.rmtree
  rw [List.mem_filter]
  constructor
  · rintro ⟨hm, hb⟩
    refine ⟨hm, fun hp => ?_⟩
    rw [← List.isPrefixOf_iff_prefix] at hp
    rw [hp] at hb
    exact absurd hb (by decide)
  · rintro ⟨hm, hp⟩
    refine ⟨hm, ?_⟩
    rw [← List.isPrefixOf_iff_prefix] at hp
    cases hh : List.isPrefixOf r e.1
    · rfl
    · exact absurd hh hp

theorem mem_dirs_rmtree (fs : FS) (r : FPath) (d : FPath) :
    d ∈ (fs.rmtree r).dirs ↔ d ∈ fs.dirs ∧ ¬ r <+: d := by
  unfold FS.rmtree
  rw [List.mem_filter]
  constructor
  · rintro ⟨hm, hb⟩
    refine ⟨hm, fun hp => ?_⟩
    rw [← List.isPrefixOf_iff_prefix] at hp
    rw [hp] at hb
    exact absurd hb (by decide)
  · rintro ⟨hm, hp⟩
    refine ⟨hm, ?_⟩
    rw [← List.isPrefixOf_iff_prefix] at hp
    cases hh : List.isPrefixOf r d
    · rfl
    · exact absurd hh hp

theorem readF_none_of_no_entry (fs : FS) (p : FPath)
    (h : ∀ e ∈ fs.files, e.1 ≠ p) : fs.readF p = none := by
  unfold FS.readF
  have hnone : fs.files.find? (fun e => decide (e.1 = p)) = none := by
    rw [List.find?_eq_none]
    intro e he
    simp only [decide_eq_true_eq]
    exact h e he
  rw [hnone]
  rfl

theorem readF_isSome_elim (fs : FS) (p : FPath) (h : (fs.readF p).isSome = true) :
    ∃ c, (p, c) ∈ fs.files := by
  by_cases hn : ∀ e ∈ fs.files, e.1 ≠ p
  · rw [readF_none_of_no_entry fs p hn] at h
    cases h
  · push_neg at hn
    obtain ⟨e, he, heq⟩ := hn
    exact ⟨e.2, by rw [← heq]; exact he⟩

/-! ## Path-uniqueness invariant -/

theorem pathsND_writeF (fs : FS) (q : FPath) (c : FContent)
    (h : (fs.files.map Prod.fst).Nodup) :
    (((fs.writeF q c).files).map Prod.fst).Nodup := by
  unfold FS.writeF
  rw [List.map_cons, List.nodup_cons]
  constructor
  · intro hq
    obtain ⟨e, he, heq⟩ := List.mem_map.mp hq
    exact absurd heq (by simpa using (List.mem_filter.mp he).2)
  · exact h.sublist ((List.filter_sublist _).map _)

theorem pathsND_filter (l : List (FPath × FContent)) (p : FPath × FContent → Bool)
    (h : (l.map Prod.fst).Nodup) : ((l.filter p).map Prod.fst).Nodup :=
  h.sublist ((List.filter_sublist _).map _)

theorem pathsND_foldl_writes (l : List (FPath × FContent)) (fs : FS)
    (h : (fs.files.map Prod.fst).Nodup) :
    (((l.foldl (fun acc e => acc.writeF e.1 e.2) fs)).files.map Prod.fst).Nodup := by
  induction l generalizing fs with
  | nil => exact h
  | cons e t ih =>
    rw [List.foldl_cons]
    exact ih _ (pathsND_writeF fs e.1 e.2 h)

/-! ## genResult helper lemmas -/

theorem readF_genResult_ne (fs : FS) (outdir : FPath) (stem : String) (im : Image)
    (p : FPath) (hp : ∀ sz ∈ sizelist, outdir ++ [outName stem sz] ≠ p) :
    (genResult fs outdir stem im).readF p = fs.readF p := by
  unfold genResult
  refine readF_foldl_writes_notmem _ _ _ ?_
  intro e he
  obtain ⟨sz, hsz, rfl⟩ := List.mem_map.mp he
  exact hp sz hsz

theorem readF_genResult_mem (fs : FS) (outdir : FPath) (stem : String) (im : Image)
    (sz : Nat) (hsz : sz ∈ sizelist) (hnd : ((sizelist.map (fun sz => outdir ++ [outName stem sz]))).Nodup) :
    (genResult fs outdir stem im).readF (outdir ++ [outName stem sz])
      = some (FContent.image (resizeImage im sz sz)) := by
  unfold genResult
  refine readF_foldl_writes_mem _ _ _ _ (List.mem_map.mpr ⟨sz, hsz, rfl⟩) ?_
  rw [List.map_map]
  exact hnd

theorem mem_files_genResult (fs : FS) (outdir : FPath) (stem : String) (im : Image)
    (e : FPath × FContent) (he : e ∈ (genResult fs outdir stem im).files) :
    (∃ sz ∈ sizelist, e = (outdir ++ [outName stem sz], FContent.image (resizeImage im sz sz)))
      ∨ e ∈ fs.files := by
  unfold genResult at he
  rcases mem_files_foldl_writes _ _ _ he with hm | hm
  · obtain ⟨sz, hsz, heq⟩ := List.mem_map.mp hm
    exact Or.inl ⟨sz, hsz, heq.symm⟩
  · exact Or.inr hm

theorem dirs_genResult (fs : FS) (outdir : FPath) (stem : String) (im : Image) :
    (genResult fs outdir stem im).dirs = fs.dirs :=
  dirs_foldl_writes _ _

theorem pathsND_genResult (fs : FS) (outdir : FPath) (stem : String) (im : Image)
    (h : (fs.files.map Prod.fst).Nodup) :
    ((genResult fs outdir stem im).files.map Prod.fst).Nodup :=
  pathsND_foldl_writes _ _ h

/-! ## outName helpers -/

theorem outName_head (stem : String) (sz : Nat) (c : Char)
    (h : stem.data.head? = some c) : (outName stem sz).data.head? = some c := by
  unfold outName
  exact data_head_append _ _ _ (data_head_append _ _ _ (data_head_append _ _ _ h))

theorem outName_stems_ne (a b : Nat) : outName "default" a ≠ outName "selected" b := by
  apply str_ne_of_head
  rw [outName_head "default" a 'd' rfl, outName_head "selected" b 's' rfl]
  decide

/-! ## glob characterization -/

theorem mem_globIn (fs : FS) (dir : FPath) (pre suf : String) (p : FPath) :
    p ∈ fs.globIn dir pre suf
      ↔ ∃ c, (p, c) ∈ fs.files ∧ p.dropLast = dir
          ∧ ∃ b, p.getLast? = some b
            ∧ (pre.data.isPrefixOf b.data && suf.data.isSuffixOf b.data
                && decide (pre.data.length + suf.data.length ≤ b.data.length)) = true := by
  unfold FS.globIn
  rw [List.mem_filterMap]
  constructor
  · rintro ⟨⟨p1, c⟩, he, heq⟩
    dsimp only at heq
    by_cases h1 : p1.dropLast = dir
    · rw [if_pos h1] at heq
      cases hlast : p1.getLast? with
      | none => rw [hlast] at heq; cases heq
      | some b =>
        rw [hlast] at heq
        dsimp only at heq
        by_cases h3 : (pre.data.isPrefixOf b.data && suf.data.isSuffixOf b.data
            && decide (pre.data.length + suf.data.length ≤ b.data.length)) = true
        · rw [if_pos h3] at heq
          have hp1 : p1 = p := Option.some.inj heq
          subst hp1
          exact ⟨c, he, h1, b, hlast, h3⟩
        · rw [if_neg h3] at heq; cases heq
    · rw [if_neg h1] at heq; cases heq
  · rintro ⟨c, hm, h1, b, h2, h3⟩
    refine ⟨(p, c), hm, ?_⟩
    dsimp only
    rw [if_pos h1, h2]
    dsimp only
    rw [if_pos h3]

theorem globIn_sublist (fs : FS) (dir : FPath) (pre suf : String) :
    List.Sublist (fs.globIn dir pre suf) (fs.files.map Prod.fst) := by
  unfold FS.globIn
  induction fs.files with
  | nil => exact List.Sublist.refl _
  | cons e t ih =>
    rw [List.filterMap_cons, List.map_cons]
    cases hf : (if e.1.dropLast = dir then
        match e.1.getLast? with
        | some b =>
          if pre.data.isPrefixOf b.data && suf.data.isSuffixOf b.data
              && decide (pre.data.length + suf.data.length ≤ b.data.length) then
            some e.1
          else none
        | none => none
      else none) with
    | none => exact ih.cons e.1
    | some q =>
      have hq : q = e.1 := by
        by_cases h1 : e.1.dropLast = dir
        · rw [if_pos h1] at hf
          cases hlast : e.1.getLast? with
          | none => rw [hlast] at hf; cases hf
          | some b =>
            rw [hlast] at hf
            dsimp only at hf
            by_cases h3 : (pre.data.isPrefixOf b.data && suf.data.isSuffixOf b.data
                && decide (pre.data.length + suf.data.length ≤ b.data.length)) = true
            · rw [if_pos h3] at hf
              exact (Option.some.inj hf).symm
            · rw [if_neg h3] at hf; cases hf
        · rw [if_neg h1] at hf; cases hf
      rw [hq]
      exact ih.cons₂ e.1

theorem globIn_lasts_nodup (fs : FS) (dir : FPath) (pre suf : String)
    (hnd : (fs.files.map Prod.fst).Nodup) :
    ((fs.globIn dir pre suf).map (fun s => s.getLastD "")).Nodup := by
  have hg : (fs.globIn dir pre suf).Nodup := hnd.sublist (globIn_sublist fs dir pre suf)
  refine (List.nodup_map_iff_inj_on hg).mpr ?_
  intro x hx y hy hxy
  obtain ⟨_, -, hx1, bx, hx2, -⟩ := (mem_globIn fs dir pre suf x).mp hx
  obtain ⟨_, -, hy1, by', hy2, -⟩ := (mem_globIn fs dir pre suf y).mp hy
  have hxe : x ≠ [] := by intro he; rw [he] at hx2; cases hx2
  have hye : y ≠ [] := by intro he; rw [he] at hy2; cases hy2
  rw [← List.dropLast_concat_getLast hxe, ← List.dropLast_concat_getLast hye, hx1, hy1]
  have hbx : x.getLast hxe = x.getLastD "" := by
    rw [getLastD_of_getLast? hx2, ← Option.some.inj ((List.getLast?_eq_getLast x hxe).symm.trans hx2)]
  have hby : y.getLast hye = y.getLastD "" := by
    rw [getLastD_of_getLast? hy2, ← Option.some.inj ((List.getLast?_eq_getLast y hye).symm.trans hy2)]
  rw [hbx, hby, hxy]

/-! ## extraction lookup lemmas -/

theorem find?_shift (l : List (FPath × FContent)) (root q : FPath) :
    (l.map (fun e => (root ++ e.1, e.2))).find? (fun e => decide (e.1 = root ++ q))
      = (l.find? (fun e => decide (e.1 = q))).map (fun e => (root ++ e.1, e.2)) := by
  induction l with
  | nil => rfl
  | cons e t ih =>
    rw [List.map_cons]
    by_cases he : e.1 = q
    · rw [List.find?_cons_of_pos _ (by simp [he]), List.find?_cons_of_pos _ (by simp [he])]
      rfl
    · rw [List.find?_cons_of_neg _ (by
        simp only [decide_eq_true_eq]
        intro hc
        exact he (List.append_cancel_left hc)),
        List.find?_cons_of_neg _ (by simp [he])]
      exact ih

theorem readF_extractInto_lookup (fs : FS) (root : FPath) (E : List (FPath × FContent))
    (D : List FPath) (q : FPath) :
    (extractInto fs root E D).readF (root ++ q)
      = match archLookup E.reverse q with
        | some c => some c
        | none => fs.readF (root ++ q) := by
  rw [readF_extractInto, ← List.map_reverse, find?_shift]
  unfold archLookup
  cases E.reverse.find? (fun e => decide (e.1 = q)) with
  | none => rfl
  | some e => rfl

theorem readF_extractInto_out (fs : FS) (root : FPath) (E : List (FPath × FContent))
    (D : List FPath) (p : FPath) (hp : ¬ root <+: p) :
    (extractInto fs root E D).readF p = fs.readF p := by
  rw [readF_extractInto]
  have hnone : (E.map (fun e => (root ++ e.1, e.2))).reverse.find?
      (fun e => decide (e.1 = p)) = none := by
    rw [List.find?_eq_none]
    intro e he
    obtain ⟨e0, -, heq⟩ := List.mem_map.mp (List.mem_reverse.mp he)
    simp only [decide_eq_true_eq]
    intro hc
    rw [← heq] at hc
    exact hp (hc ▸ List.prefix_append root e0.1)
  rw [hnone]

/-! ## archive content lemmas -/

theorem find?_archive_entries (l : List (FPath × FContent)) (root q : FPath) (hq : q ≠ []) :
    ((l.filterMap (fun e =>
        if root.isPrefixOf e.1 && decide (e.1 ≠ root) then some (e.1.drop root.length, e.2)
        else none)).find? (fun e => decide (e.1 = q))).map Prod.snd
      = (l.find? (fun e => decide (e.1 = root ++ q))).map Prod.snd := by
  induction l with
  | nil => rfl
  | cons e t ih =>
    rw [List.filterMap_cons]
    by_cases hp : root <+: e.1 ∧ e.1 ≠ root
    · have hcond : (root.isPrefixOf e.1 && decide (e.1 ≠ root)) = true := by
        rw [Bool.and_eq_true, List.isPrefixOf_iff_prefix]
        exact ⟨hp.1, by simp [hp.2]⟩
      rw [if_pos hcond]
      dsimp only
      obtain ⟨t0, ht0⟩ := hp.1
      have hdrop : e.1.drop root.length = t0 := by rw [← ht0, List.drop_left]
      by_cases he1 : e.1 = root ++ q
      · have ht0q : t0 = q := by
          rw [← ht0] at he1
          exact List.append_cancel_left he1
        rw [List.find?_cons_of_pos _ (by simp [hdrop, ht0q]),
          List.find?_cons_of_pos _ (by simp [he1])]
        rfl
      · rw [List.find?_cons_of_neg _ (by
          simp only [decide_eq_true_eq]
          intro hc
          apply he1
          rw [hdrop] at hc
          rw [← ht0, hc]),
          List.find?_cons_of_neg _ (by simp [he1])]
        exact ih
    · have hcond : ¬ ((root.isPrefixOf e.1 && decide (e.1 ≠ root)) = true) := by
        rw [Bool.and_eq_true, List.isPrefixOf_iff_prefix]
        intro hc
        exact hp ⟨hc.1, by simpa using hc.2⟩
      rw [if_neg hcond]
      dsimp only
      rw [List.find?_cons_of_neg _ (by
        simp only [decide_eq_true_eq]
        intro hc
        refine hp ⟨hc ▸ List.prefix_append root q, ?_⟩
        rw [hc]
        intro hc2
        have hlen := congrArg List.length hc2
        rw [List.length_append] at hlen
        have hq2 : q.length ≠ 0 := fun h0 => hq (List.length_eq_zero.mp h0)
        omega)]
      exact ih

theorem archLookup_archiveOf (fs : FS) (root q : FPath) (hq : q ≠ [])
    (es : List (FPath × FContent)) (ds : List FPath)
    (he : fs.archiveOf root = FContent.arch es ds) :
    archLookup es q = fs.readF (root ++ q) := by
  unfold FS.archiveOf at he
  injection he with he1 he2
  subst he1
  unfold archLookup FS.readF
  exact find?_archive_entries fs.files root q hq

theorem mem_archiveOf_dirs (fs : FS) (root : FPath)
    (es : List (FPath × FContent)) (ds : List FPath)
    (he : fs.archiveOf root = FContent.arch es ds) (q : FPath) (hq : q ∈ ds) :
    (root ++ q) ∈ fs.dirs := by
  unfold FS.archiveOf at he
  injection he with he1 he2
  subst he2
  obtain ⟨d, hd, hdq⟩ := List.mem_filterMap.mp hq
  by_cases hc : (root.isPrefixOf d && decide (d ≠ root)) = true
  · rw [if_pos hc] at hdq
    rw [Bool.and_eq_true, List.isPrefixOf_iff_prefix] at hc
    obtain ⟨t0, ht0⟩ := hc.1
    have hdrop : d.drop root.length = t0 := by rw [← ht0, List.drop_left]
    have hq' : q = t0 := by rw [← Option.some.inj hdq, hdrop]
    rw [hq', ht0]
    exact hd
  · rw [if_neg hc] at hdq
    cases hdq

/-! ## The copy fold of `stageCopies` -/

theorem copyFold_spec (srcs : List FPath) (fs : FS) (dst : FPath)
    (hdst : dst ∈ fs.dirs)
    (hsrc : ∀ s ∈ srcs, (fs.readF s).isSome = true ∧ ¬ dst <+: s)
    (hnd : (srcs.map (fun s => s.getLastD "")).Nodup) :
    ∃ fs8, srcs.foldlM (fun acc p => acc.copyF p dst) fs = Except.ok fs8
      ∧ fs8.dirs = fs.dirs
      ∧ (∀ q : FPath, (∀ s ∈ srcs, q ≠ dst ++ [s.getLastD ""]) → fs8.readF q = fs.readF q)
      ∧ (∀ s ∈ srcs, fs8.readF (dst ++ [s.getLastD ""]) = fs.readF s)
      ∧ (∀ e ∈ fs8.files, (∃ s ∈ srcs, e.1 = dst ++ [s.getLastD ""]) ∨ e ∈ fs.files) := by
  induction srcs generalizing fs with
  | nil =>
    exact ⟨fs, rfl, rfl, fun q _ => rfl, fun s hs => absurd hs (List.not_mem_nil s),
      fun e he => Or.inr he⟩
  | cons s t ih =>
    obtain ⟨hi, hds⟩ := hsrc s (List.mem_cons_self s t)
    obtain ⟨c, hc⟩ := Option.isSome_iff_exists.mp hi
    have hcopy : fs.copyF s dst = Except.ok (fs.writeF (dst ++ [s.getLastD ""]) c) :=
      copyF_eq_into fs s dst c hc (isDir_of_mem_dirs fs dst dst hdst (List.prefix_refl dst))
    have hdst1 : dst ∈ (fs.writeF (dst ++ [s.getLastD ""]) c).dirs := by
      rw [dirs_writeF]; exact hdst
    have hsrc1 : ∀ s' ∈ t, ((fs.writeF (dst ++ [s.getLastD ""]) c).readF s').isSome = true
        ∧ ¬ dst <+: s' := by
      intro s' hs'
      obtain ⟨hi', hd'⟩ := hsrc s' (List.mem_cons_of_mem _ hs')
      refine ⟨?_, hd'⟩
      rw [readF_writeF_ne _ _ _ _ (fun he => hd' (by rw [he]; exact List.prefix_append dst _))]
      exact hi'
    obtain ⟨fs8, hfold, hdirs, hframe, hcontent, hmem⟩ :=
      ih (fs.writeF (dst ++ [s.getLastD ""]) c) hdst1 hsrc1 (List.nodup_cons.mp hnd).2
    refine ⟨fs8, ?_, ?_, ?_, ?_, ?_⟩
    · rw [List.foldlM_cons, hcopy]
      exact hfold
    · rw [hdirs, dirs_writeF]
    · intro q hq
      rw [hframe q (fun s' hs' => hq s' (List.mem_cons_of_mem _ hs')),
        readF_writeF_ne _ _ _ _ (hq s (List.mem_cons_self s t))]
    · intro s' hs'
      rcases List.mem_cons.mp hs' with rfl | hs'
      · have hx : ∀ s'' ∈ t, dst ++ [s'.getLastD ""] ≠ dst ++ [s''.getLastD ""] := by
          intro s'' hs'' he
          have h1 := List.append_cancel_left he
          have h2 : s'.getLastD "" = s''.getLastD "" := by
            injection h1
          exact (List.nodup_cons.mp hnd).1
            (List.mem_map.mpr ⟨s'', hs'', h2.symm⟩)
        rw [hframe _ hx, readF_writeF_same, hc]
      · rw [hcontent s' hs',
          readF_writeF_ne _ _ _ _
            (fun he => (hsrc s' (List.mem_cons_of_mem _ hs')).2
              (by rw [he]; exact List.prefix_append dst _))]
    · intro e he
      rcases hmem e he with ⟨s', hs', he1⟩ | he1
      · exact Or.inl ⟨s', List.mem_cons_of_mem _ hs', he1⟩
      · rcases (mem_files_writeF _ _ _ _).mp he1 with rfl | ⟨hm, -⟩
        · exact Or.inl ⟨s, List.mem_cons_self s t, rfl⟩
        · exact Or.inr hm

/-! ## `stageIconsOld` in canonical `rmtree` form -/

theorem stageIconsOld_eq (fs : FS)
    (hok : fs.fileExists iconsOldP = true → fs.isDir iconsOldP = true) :
    stageIconsOld fs = Except.ok (fs.rmtree iconsOldP) := by
  unfold stageIconsOld
  by_cases hp : fs.pathExists iconsOldP = true
  · rw [if_pos hp]
    by_cases hd : fs.isDir iconsOldP = true
    · rw [if_pos hd]
    · unfold FS.pathExists at hp
      rw [Bool.or_eq_true] at hp
      rcases hp with hfe | hdt
      · exact absurd (hok hfe) hd
      · exact absurd hdt hd
  · rw [if_neg hp]
    have hp' : ¬ (fs.fileExists iconsOldP = true ∨ fs.isDir iconsOldP = true) := by
      intro hc
      apply hp
      unfold FS.pathExists
      rw [Bool.or_eq_true]
      exact hc
    have hf : fs.fileExists iconsOldP = false := by
      cases h : fs.fileExists iconsOldP
      · rfl
      · exact absurd (Or.inl h) hp'
    have hd' : fs.isDir iconsOldP = false := by
      cases h : fs.isDir iconsOldP
      · rfl
      · exact absurd (Or.inr h) hp'
    have hnof : ∀ e ∈ fs.files, ¬ iconsOldP <+: e.1 := by
      intro e he hpre
      by_cases heq : iconsOldP = e.1
      · have hfe : fs.fileExists iconsOldP = true := by
          unfold FS.fileExists
          rw [List.any_eq_true]
          exact ⟨e, he, by simp [heq.symm]⟩
        rw [hfe] at hf
        cases hf
      · have hdt : fs.isDir iconsOldP = true := (isDir_iff fs iconsOldP).mpr
          (Or.inr ⟨e, he, heq, hpre⟩)
        rw [hdt] at hd'
        cases hd'
    have hnod : ∀ d ∈ fs.dirs, ¬ iconsOldP <+: d := by
      intro d hd2 hpre
      have hdt := isDir_of_mem_dirs fs iconsOldP d hd2 hpre
      rw [hdt] at hd'
      cases hd'
    congr 1
    unfold FS.rmtree
    cases fs with
    | mk fl dl =>
      dsimp only
      congr 1
      · symm
        rw [List.filter_eq_self]
        intro e he
        have hpre := hnof e he
        have h3 : List.isPrefixOf iconsOldP e.1 = false := by
          cases h2 : List.isPrefixOf iconsOldP e.1
          · rfl
          · exact absurd (List.isPrefixOf_iff_prefix.mp h2) hpre
        simp [h3]
      · symm
        rw [List.filter_eq_self]
        intro d hd2
        have hpre := hnod d hd2
        have h3 : List.isPrefixOf iconsOldP d = false := by
          cases h2 : List.isPrefixOf iconsOldP d
          · rfl
          · exact absurd (List.isPrefixOf_iff_prefix.mp h2) hpre
        simp [h3]

/-! ## isDir through writes and removals -/

theorem isDir_removeF_of_false (fs : FS) (q p : FPath) (h : fs.isDir p = false) :
    (fs.removeF q).isDir p = false := by
  apply isDir_eq_false
  · intro d hd hp
    rw [dirs_removeF] at hd
    exact absurd (isDir_of_mem_dirs fs p d hd hp) (by simp [h])
  · intro e he hp
    obtain ⟨he', -⟩ := (mem_files_removeF fs q e).mp he
    by_cases heq : p = e.1
    · exact heq
    · exact absurd ((isDir_iff fs p).mpr (Or.inr ⟨e, he', heq, hp⟩)) (by simp [h])

theorem isDir_writeF_of_false (fs : FS) (q : FPath) (c : FContent) (p : FPath)
    (h : fs.isDir p = false) (hq : p <+: q → p = q) :
    (fs.writeF q c).isDir p = false := by
  apply isDir_eq_false
  · intro d hd hp
    rw [dirs_writeF] at hd
    exact absurd (isDir_of_mem_dirs fs p d hd hp) (by simp [h])
  · intro e he hp
    rcases (mem_files_writeF fs q c e).mp he with rfl | ⟨he', -⟩
    · exact hq hp
    · by_cases heq : p = e.1
      · exact heq
      · exact absurd ((isDir_iff fs p).mpr (Or.inr ⟨e, he', heq, hp⟩)) (by simp [h])

/-! ## `stageMoves` in explicit form -/

theorem stageMoves_eq (fs : FS) (c16 c32 s16c s32c : FContent)
    (h16 : fs.readF ["temp_image", "default_16.png"] = some c16)
    (h32 : fs.readF ["temp_image", "default_32.png"] = some c32)
    (hs16 : fs.readF ["temp_image", "selected_16.png"] = some s16c)
    (hs32 : fs.readF ["temp_image", "selected_32.png"] = some s32c)
    (hdsm : fs.isDir ["tempdir", "www", "icons", "device_sm.png"] = false)
    (hdlg : fs.isDir ["tempdir", "www", "icons", "device_lg.png"] = false) :
    stageMoves fs = Except.ok ((((((fs.removeF ["temp_image", "default_16.png"]).writeF
        ["tempdir", "www", "icons", "device_sm.png"] c16).removeF
        ["temp_image", "default_32.png"]).writeF
        ["tempdir", "www", "icons", "device_lg.png"] c32).removeF
        ["temp_image", "selected_16.png"]).removeF ["temp_image", "selected_32.png"]) := by
  unfold stageMoves
  rw [moveF_eq fs _ _ c16 h16 hdsm]
  dsimp only
  have hr32 : ((fs.removeF ["temp_image", "default_16.png"]).writeF
      ["tempdir", "www", "icons", "device_sm.png"] c16).readF ["temp_image", "default_32.png"]
      = some c32 := by
    rw [readF_writeF_ne _ _ _ _ (by decide), readF_removeF, if_neg (by decide)]
    exact h32
  have hdlg1 : ((fs.removeF ["temp_image", "default_16.png"]).writeF
      ["tempdir", "www", "icons", "device_sm.png"] c16).isDir
      ["tempdir", "www", "icons", "device_lg.png"] = false :=
    isDir_writeF_of_false _ _ _ _ (isDir_removeF_of_false fs _ _ hdlg) (by decide)
  rw [moveF_eq _ _ _ c32 hr32 hdlg1]
  dsimp only
  have hfe1 : ((((fs.removeF ["temp_image", "default_16.png"]).writeF
      ["tempdir", "www", "icons", "device_sm.png"] c16).removeF
      ["temp_image", "default_32.png"]).writeF
      ["tempdir", "www", "icons", "device_lg.png"] c32).fileExists
      ["temp_image", "selected_16.png"] = true := by
    rw [fileExists_eq_isSome_readF, readF_writeF_ne _ _ _ _ (by decide),
      readF_removeF, if_neg (by decide), readF_writeF_ne _ _ _ _ (by decide),
      readF_removeF, if_neg (by decide), hs16]
    rfl
  rw [if_pos hfe1]
  have hfe2 : (((((fs.removeF ["temp_image", "default_16.png"]).writeF
      ["tempdir", "www", "icons", "device_sm.png"] c16).removeF
      ["temp_image", "default_32.png"]).writeF
      ["tempdir", "www", "icons", "device_lg.png"] c32).removeF
      ["temp_image", "selected_16.png"]).fileExists
      ["temp_image", "selected_32.png"] = true := by
    rw [fileExists_eq_isSome_readF, readF_removeF, if_neg (by decide),
      readF_writeF_ne _ _ _ _ (by decide),
      readF_removeF, if_neg (by decide), readF_writeF_ne _ _ _ _ (by decide),
      readF_removeF, if_neg (by decide), hs32]
    rfl
  rw [if_pos hfe2]

theorem readF_isSome_of_mem (fs : FS) (p : FPath) (c : FContent)
    (h : (p, c) ∈ fs.files) : (fs.readF p).isSome = true := by
  have hx : (fs.files.find? (fun e => decide (e.1 = p))).isSome = true :=
    List.find?_isSome.mpr ⟨(p, c), h, by simp⟩
  unfold FS.readF
  cases hf : fs.files.find? (fun e => decide (e.1 = p)) with
  | some e => rfl
  | none => rw [hf] at hx; cases hx

/-! ## `stageCopies` specification -/

theorem stageCopies_spec (fs : FS)
    (hnd : (fs.files.map Prod.fst).Nodup)
    (hdev : ["tempdir", "www", "icons", "device"] ∈ fs.dirs) :
    ∃ fs8, stageCopies fs = Except.ok fs8
      ∧ fs8.dirs = fs.dirs
      ∧ (∀ q : FPath, (∀ b : String, q ≠ ["tempdir", "www", "icons", "device", b]) →
          fs8.readF q = fs.readF q)
      ∧ (∀ s ∈ fs.globIn ["temp_image"] "default_" ".png"
            ++ fs.globIn ["temp_image"] "selected" ".png",
          fs8.readF (["tempdir", "www", "icons", "device"] ++ [s.getLastD ""]) = fs.readF s)
      ∧ (∀ e ∈ fs8.files, (∃ b : String, e.1 = ["tempdir", "www", "icons", "device", b])
          ∨ e ∈ fs.files)
      ∧ (∀ b : String, (∀ s ∈ fs.globIn ["temp_image"] "default_" ".png"
            ++ fs.globIn ["temp_image"] "selected" ".png", s.getLastD "" ≠ b) →
          fs8.readF ["tempdir", "www", "icons", "device", b]
            = fs.readF ["tempdir", "www", "icons", "device", b]) := by
  have hshape : ∀ s ∈ fs.globIn ["temp_image"] "default_" ".png"
      ++ fs.globIn ["temp_image"] "selected" ".png", ∃ b, s = ["temp_image", b] := by
    intro s hs
    have hmg : s.dropLast = ["temp_image"] ∧ (∃ b, s.getLast? = some b) := by
      rcases List.mem_append.mp hs with h | h
      · obtain ⟨c, -, h1, b, h2, -⟩ := (mem_globIn _ _ _ _ s).mp h
        exact ⟨h1, b, h2⟩
      · obtain ⟨c, -, h1, b, h2, -⟩ := (mem_globIn _ _ _ _ s).mp h
        exact ⟨h1, b, h2⟩
    obtain ⟨h1, b, h2⟩ := hmg
    have hne : s ≠ [] := by intro he; rw [he] at h2; cases h2
    refine ⟨b, ?_⟩
    have hlast : s.getLast hne = b :=
      Option.some.inj ((List.getLast?_eq_getLast s hne).symm.trans h2)
    rw [← List.dropLast_concat_getLast hne, h1, hlast]
    rfl
  have hsrc : ∀ s ∈ fs.globIn ["temp_image"] "default_" ".png"
      ++ fs.globIn ["temp_image"] "selected" ".png",
      (fs.readF s).isSome = true ∧ ¬ ["tempdir", "www", "icons", "device"] <+: s := by
    intro s hs
    constructor
    · rcases List.mem_append.mp hs with h | h
      · obtain ⟨c, hm, -, -, -, -⟩ := (mem_globIn _ _ _ _ s).mp h
        exact readF_isSome_of_mem fs s c hm
      · obtain ⟨c, hm, -, -, -, -⟩ := (mem_globIn _ _ _ _ s).mp h
        exact readF_isSome_of_mem fs s c hm
    · obtain ⟨b, rfl⟩ := hshape s hs
      intro hp
      have := hp.length_le
      simp at this
  have hnd2 : ((fs.globIn ["temp_image"] "default_" ".png"
      ++ fs.globIn ["temp_image"] "selected" ".png").map (fun s => s.getLastD "")).Nodup := by
    rw [List.map_append, List.nodup_append]
    refine ⟨globIn_lasts_nodup fs _ _ _ hnd, globIn_lasts_nodup fs _ _ _ hnd, ?_⟩
    intro x hx hy
    obtain ⟨s1, hs1, hx1⟩ := List.mem_map.mp hx
    obtain ⟨s2, hs2, hx2⟩ := List.mem_map.mp hy
    obtain ⟨-, -, -, b1, hb1, hcond1⟩ := (mem_globIn _ _ _ _ s1).mp hs1
    obtain ⟨-, -, -, b2, hb2, hcond2⟩ := (mem_globIn _ _ _ _ s2).mp hs2
    simp only [Bool.and_eq_true] at hcond1 hcond2
    obtain ⟨t1, ht1⟩ := List.isPrefixOf_iff_prefix.mp hcond1.1.1
    obtain ⟨t2, ht2⟩ := List.isPrefixOf_iff_prefix.mp hcond2.1.1
    have hh1 : b1.data.head? = some 'd' := by
      rw [← ht1, List.head?_append]
      rfl
    have hh2 : b2.data.head? = some 's' := by
      rw [← ht2, List.head?_append]
      rfl
    rw [getLastD_of_getLast? hb1] at hx1
    rw [getLastD_of_getLast? hb2] at hx2
    have hbeq : b1 = b2 := by rw [hx1, hx2]
    rw [hbeq, hh2] at hh1
    cases hh1
  obtain ⟨fs8, hfold, hdirs, hframe, hcontent, hmem⟩ :=
    copyFold_spec _ fs _ hdev hsrc hnd2
  refine ⟨fs8, ?_, hdirs, ?_, hcontent, ?_, ?_⟩
  · unfold stageCopies
    exact hfold
  · intro q hq
    refine hframe q ?_
    intro s hs
    obtain ⟨b, rfl⟩ := hshape s hs
    exact fun hc => (hq b) (by rw [hc]; rfl)
  · intro e he
    rcases hmem e he with ⟨s, hs, he1⟩ | h
    · obtain ⟨b, rfl⟩ := hshape s hs
      exact Or.inl ⟨b, he1⟩
    · exact Or.inr h
  · intro b hb
    refine hframe _ ?_
    intro s hs hc
    obtain ⟨b2, rfl⟩ := hshape s hs
    have hbb : b = b2 := by
      have h5 : (["tempdir", "www", "icons", "device", b] : FPath)
          = ["tempdir", "www", "icons", "device", b2] := hc
      simpa using h5
    exact (hb _ hs) hbb.symm

theorem dirs_rmtree (fs : FS) (r : FPath) :
    (fs.rmtree r).dirs = fs.dirs.filter (fun d => !(List.isPrefixOf r d)) := rfl

theorem uibc4z_ne_template (name : String) :
    ("uibutton_" ++ name ++ ".c4z" : String) ≠ TEMPLATE_DRIVER_FILE := by
  intro he
  have h9 := congrArg (fun s => s.data.take 9) he
  simp only [String.data_append] at h9
  rw [List.take_append_of_le_length (by simp),
      List.take_append_of_le_length (by simp)] at h9
  exact absurd h9 (by decide)

theorem zip_ne_c4z (name : String) :
    ("uibutton_" ++ name ++ ".zip" : String) ≠ "uibutton_" ++ name ++ ".c4z" := by
  apply str_ne_of_last
  rw [data_getLast_append _ ".zip" 'p' (by decide) (by decide),
    data_getLast_append _ ".c4z" 'z' (by decide) (by decide)]
  decide

theorem zip_ne_template (name : String) :
    ("uibutton_" ++ name ++ ".zip" : String) ≠ TEMPLATE_DRIVER_FILE := by
  apply str_ne_of_last
  rw [data_getLast_append _ ".zip" 'p' (by decide) (by decide)]
  decide

theorem uib_head_ne_tempdir (name : String) (s : String) (c : Char)
    (hs : s.data ≠ []) (hc : s.data.getLast? = some c) (hne : some c ≠ some 'r') :
    ("uibutton_" ++ name ++ s : String) ≠ "tempdir" := by
  apply str_ne_of_last
  rw [data_getLast_append _ s c hs hc]
  intro he
  exact hne (he.trans (by decide))

theorem uib_head_ne_temp_image (name : String) (s : String) (c : Char)
    (hs : s.data ≠ []) (hc : s.data.getLast? = some c) (hne : some c ≠ some 'e') :
    ("uibutton_" ++ name ++ s : String) ≠ "temp_image" := by
  apply str_ne_of_last
  rw [data_getLast_append _ s c hs hc]
  intro he
  exact hne (he.trans (by decide))

/-! ## `stagePack` specification -/

theorem stagePack_spec (name : String) (upd : Bool) (fs : FS)
    (hfin : fs.isDir ["uibutton_" ++ name ++ ".c4z"] = false)
    (htpl : upd = false → (fs.readF [TEMPLATE_DRIVER_FILE]).isSome = true) :
    (stagePack name upd fs).outcome = Outcome.ok
  ∧ (stagePack name upd fs).fs.dirs
      = ((fs.dirs.filter (fun d => !(List.isPrefixOf ["temp_image"] d))).filter
          (fun d => !(List.isPrefixOf ["tempdir"] d)))
  ∧ (stagePack name upd fs).fs.readF ["uibutton_" ++ name ++ ".c4z"]
      = some ((fs.rmtree ["temp_image"]).archiveOf ["tempdir"])
  ∧ (∀ p : FPath, p ≠ ["uibutton_" ++ name ++ ".c4z"] → p ≠ ["uibutton_" ++ name ++ ".zip"] →
      p ≠ [TEMPLATE_DRIVER_FILE] →
      (stagePack name upd fs).fs.readF p
        = if ["temp_image"] <+: p ∨ ["tempdir"] <+: p then none else fs.readF p)
  ∧ (upd = false → (stagePack name upd fs).fs.readF [TEMPLATE_DRIVER_FILE] = none)
  ∧ (upd = true → (stagePack name upd fs).fs.readF [TEMPLATE_DRIVER_FILE]
      = fs.readF [TEMPLATE_DRIVER_FILE])
  ∧ (∀ e ∈ (stagePack name upd fs).fs.files,
      e.1 = ["uibutton_" ++ name ++ ".c4z"]
        ∨ (e ∈ fs.files ∧ ¬ ["temp_image"] <+: e.1 ∧ ¬ ["tempdir"] <+: e.1)) := by
  have hzc : (["uibutton_" ++ name ++ ".zip"] : FPath) ≠ ["uibutton_" ++ name ++ ".c4z"] := by
    simp only [ne_eq, List.cons.injEq, and_true]
    exact zip_ne_c4z name
  have hzt : (["uibutton_" ++ name ++ ".zip"] : FPath).head? ≠ some "tempdir" := by
    simp only [List.head?_cons, ne_eq, Option.some.injEq]
    exact uib_head_ne_tempdir name ".zip" 'p' (by decide) (by decide) (by decide)
  have hct : (["uibutton_" ++ name ++ ".c4z"] : FPath).head? ≠ some "tempdir" := by
    simp only [List.head?_cons, ne_eq, Option.some.injEq]
    exact uib_head_ne_tempdir name ".c4z" 'z' (by decide) (by decide) (by decide)
  have hrz : (((fs.rmtree ["temp_image"]).writeF ["uibutton_" ++ name ++ ".zip"]
        ((fs.rmtree ["temp_image"]).archiveOf ["tempdir"])).rmtree ["tempdir"]).readF
        ["uibutton_" ++ name ++ ".zip"]
      = some ((fs.rmtree ["temp_image"]).archiveOf ["tempdir"]) := by
    rw [readF_rmtree, if_neg (not_single_pfx hzt), readF_writeF_same]
  have hnotdir : ¬ (fs.isDir ["uibutton_" ++ name ++ ".c4z"] = true) := by simp [hfin]
  have hdirfin : (((fs.rmtree ["temp_image"]).writeF ["uibutton_" ++ name ++ ".zip"]
        ((fs.rmtree ["temp_image"]).archiveOf ["tempdir"])).rmtree ["tempdir"]).isDir
        ["uibutton_" ++ name ++ ".c4z"] = false := by
    apply isDir_eq_false
    · intro d hd hp
      obtain ⟨hd1, -⟩ := (mem_dirs_rmtree _ _ _).mp hd
      rw [dirs_writeF] at hd1
      obtain ⟨hd2, -⟩ := (mem_dirs_rmtree _ _ _).mp hd1
      exact absurd ((isDir_iff fs _).mpr (Or.inl ⟨d, hd2, hp⟩)) hnotdir
    · intro e he hp
      obtain ⟨he1, -⟩ := (mem_files_rmtree _ _ _).mp he
      rcases (mem_files_writeF _ _ _ _).mp he1 with rfl | ⟨he2, -⟩
      · exact absurd (single_prefix_single hp).symm (zip_ne_c4z name)
      · obtain ⟨he3, -⟩ := (mem_files_rmtree _ _ _).mp he2
        by_cases heq : ["uibutton_" ++ name ++ ".c4z"] = e.1
        · exact heq
        · exact absurd ((isDir_iff fs _).mpr (Or.inr ⟨e, he3, heq, hp⟩)) hnotdir
  have hmv : (((fs.rmtree ["temp_image"]).writeF ["uibutton_" ++ name ++ ".zip"]
        ((fs.rmtree ["temp_image"]).archiveOf ["tempdir"])).rmtree ["tempdir"]).moveF
        ["uibutton_" ++ name ++ ".zip"] ["uibutton_" ++ name ++ ".c4z"]
      = Except.ok (((((fs.rmtree ["temp_image"]).writeF ["uibutton_" ++ name ++ ".zip"]
          ((fs.rmtree ["temp_image"]).archiveOf ["tempdir"])).rmtree ["tempdir"]).removeF
          ["uibutton_" ++ name ++ ".zip"]).writeF ["uibutton_" ++ name ++ ".c4z"]
          ((fs.rmtree ["temp_image"]).archiveOf ["tempdir"])) :=
    moveF_eq _ _ _ _ hrz hdirfin
  have hread12 : ∀ p : FPath, p ≠ ["uibutton_" ++ name ++ ".c4z"] →
      p ≠ ["uibutton_" ++ name ++ ".zip"] →
      (((((fs.rmtree ["temp_image"]).writeF ["uibutton_" ++ name ++ ".zip"]
          ((fs.rmtree ["temp_image"]).archiveOf ["tempdir"])).rmtree ["tempdir"]).removeF
          ["uibutton_" ++ name ++ ".zip"]).writeF ["uibutton_" ++ name ++ ".c4z"]
          ((fs.rmtree ["temp_image"]).archiveOf ["tempdir"])).readF p
        = if ["temp_image"] <+: p ∨ ["tempdir"] <+: p then none else fs.readF p := by
    intro p h1 h2
    rw [readF_writeF_ne _ _ _ _ h1, readF_removeF, if_neg h2, readF_rmtree]
    by_cases ha : ["tempdir"] <+: p
    · rw [if_pos ha, if_pos (Or.inr ha)]
    · rw [if_neg ha, readF_writeF_ne _ _ _ _ h2, readF_rmtree]
      by_cases hb : ["temp_image"] <+: p
      · rw [if_pos hb, if_pos (Or.inl hb)]
      · rw [if_neg hb, if_neg (by
          rintro (hc | hc)
          · exact hb hc
          · exact ha hc)]
  have hreadfin12 : (((((fs.rmtree ["temp_image"]).writeF ["uibutton_" ++ name ++ ".zip"]
        ((fs.rmtree ["temp_image"]).archiveOf ["tempdir"])).rmtree ["tempdir"]).removeF
        ["uibutton_" ++ name ++ ".zip"]).writeF ["uibutton_" ++ name ++ ".c4z"]
        ((fs.rmtree ["temp_image"]).archiveOf ["tempdir"])).readF
        ["uibutton_" ++ name ++ ".c4z"]
      = some ((fs.rmtree ["temp_image"]).archiveOf ["tempdir"]) :=
    readF_writeF_same _ _ _
  have hdirs12 : (((((fs.rmtree ["temp_image"]).writeF ["uibutton_" ++ name ++ ".zip"]
        ((fs.rmtree ["temp_image"]).archiveOf ["tempdir"])).rmtree ["tempdir"]).removeF
        ["uibutton_" ++ name ++ ".zip"]).writeF ["uibutton_" ++ name ++ ".c4z"]
        ((fs.rmtree ["temp_image"]).archiveOf ["tempdir"])).dirs
      = ((fs.dirs.filter (fun d => !(List.isPrefixOf ["temp_image"] d))).filter
          (fun d => !(List.isPrefixOf ["tempdir"] d))) := by
    rw [dirs_writeF, dirs_removeF, dirs_rmtree, dirs_writeF, dirs_rmtree]
  have hmem12 : ∀ e ∈ (((((fs.rmtree ["temp_image"]).writeF ["uibutton_" ++ name ++ ".zip"]
        ((fs.rmtree ["temp_image"]).archiveOf ["tempdir"])).rmtree ["tempdir"]).removeF
        ["uibutton_" ++ name ++ ".zip"]).writeF ["uibutton_" ++ name ++ ".c4z"]
        ((fs.rmtree ["temp_image"]).archiveOf ["tempdir"])).files,
      e.1 = ["uibutton_" ++ name ++ ".c4z"]
        ∨ (e ∈ fs.files ∧ ¬ ["temp_image"] <+: e.1 ∧ ¬ ["tempdir"] <+: e.1) := by
    intro e he
    rcases (mem_files_writeF _ _ _ _).mp he with rfl | ⟨he1, -⟩
    · exact Or.inl rfl
    · obtain ⟨he2, hz⟩ := (mem_files_removeF _ _ _).mp he1
      obtain ⟨he3, htd⟩ := (mem_files_rmtree _ _ _).mp he2
      rcases (mem_files_writeF _ _ _ _).mp he3 with rfl | ⟨he4, -⟩
      · exact absurd rfl hz
      · obtain ⟨he5, hti⟩ := (mem_files_rmtree _ _ _).mp he4
        exact Or.inr ⟨he5, hti, htd⟩
  have htplne1 : ([TEMPLATE_DRIVER_FILE] : FPath) ≠ ["uibutton_" ++ name ++ ".c4z"] := by
    simp only [ne_eq, List.cons.injEq, and_true]
    exact fun he => uibc4z_ne_template name he.symm
  have htplne2 : ([TEMPLATE_DRIVER_FILE] : FPath) ≠ ["uibutton_" ++ name ++ ".zip"] := by
    simp only [ne_eq, List.cons.injEq, and_true]
    exact fun he => zip_ne_template name he.symm
  have htplread12 : (((((fs.rmtree ["temp_image"]).writeF ["uibutton_" ++ name ++ ".zip"]
        ((fs.rmtree ["temp_image"]).archiveOf ["tempdir"])).rmtree ["tempdir"]).removeF
        ["uibutton_" ++ name ++ ".zip"]).writeF ["uibutton_" ++ name ++ ".c4z"]
        ((fs.rmtree ["temp_image"]).archiveOf ["tempdir"])).readF [TEMPLATE_DRIVER_FILE]
      = fs.readF [TEMPLATE_DRIVER_FILE] := by
    rw [hread12 _ htplne1 htplne2, if_neg (by decide)]
  cases upd with
  | true =>
    have hpack : stagePack name true fs
        = ⟨Outcome.ok, ((((fs.rmtree ["temp_image"]).writeF ["uibutton_" ++ name ++ ".zip"]
            ((fs.rmtree ["temp_image"]).archiveOf ["tempdir"])).rmtree ["tempdir"]).removeF
            ["uibutton_" ++ name ++ ".zip"]).writeF ["uibutton_" ++ name ++ ".c4z"]
            ((fs.rmtree ["temp_image"]).archiveOf ["tempdir"])⟩ := by
      unfold stagePack
      dsimp only
      rw [hmv]
      dsimp only
      rw [if_pos rfl]
    rw [hpack]
    refine ⟨rfl, hdirs12, hreadfin12, fun p h1 h2 _ => hread12 p h1 h2, ?_, fun _ => htplread12, hmem12⟩
    intro h
    exact absurd h (by decide)
  | false =>
    have hfeT : (((((fs.rmtree ["temp_image"]).writeF ["uibutton_" ++ name ++ ".zip"]
          ((fs.rmtree ["temp_image"]).archiveOf ["tempdir"])).rmtree ["tempdir"]).removeF
          ["uibutton_" ++ name ++ ".zip"]).writeF ["uibutton_" ++ name ++ ".c4z"]
          ((fs.rmtree ["temp_image"]).archiveOf ["tempdir"])).fileExists
          [TEMPLATE_DRIVER_FILE] = true := by
      rw [fileExists_eq_isSome_readF, htplread12]
      exact htpl rfl
    have hpack : stagePack name false fs
        = ⟨Outcome.ok, (((((fs.rmtree ["temp_image"]).writeF ["uibutton_" ++ name ++ ".zip"]
            ((fs.rmtree ["temp_image"]).archiveOf ["tempdir"])).rmtree ["tempdir"]).removeF
            ["uibutton_" ++ name ++ ".zip"]).writeF ["uibutton_" ++ name ++ ".c4z"]
            ((fs.rmtree ["temp_image"]).archiveOf ["tempdir"])).removeF
            [TEMPLATE_DRIVER_FILE]⟩ := by
      unfold stagePack
      dsimp only
      rw [hmv]
      dsimp only
      rw [if_neg (by decide), if_pos hfeT]
    rw [hpack]
    refine ⟨rfl, ?_, ?_, ?_, ?_, ?_, ?_⟩
    · rw [dirs_removeF, hdirs12]
    · rw [readF_removeF, if_neg (fun he => htplne1 he.symm), hreadfin12]
    · intro p h1 h2 h3
      rw [readF_removeF, if_neg h3, hread12 p h1 h2]
    · intro _
      rw [readF_removeF, if_pos rfl]
    · intro h
      exact absurd h (by decide)
    · intro e he
      obtain ⟨he1, -⟩ := (mem_files_removeF _ _ _).mp he
      exact hmem12 e he1

theorem archLookup_archEntriesAt (fs : FS) (p : FPath) (src : FS) (root q : FPath)
    (hq : q ≠ []) (h : fs.readF p = some (src.archiveOf root)) :
    archLookup (archEntriesAt fs p) q = src.readF (root ++ q) := by
  unfold archEntriesAt
  rw [h]
  unfold FS.archiveOf
  dsimp only
  unfold archLookup FS.readF
  exact find?_archive_entries src.files root q hq

theorem mem_archDirsAt (fs : FS) (p : FPath) (src : FS) (root : FPath)
    (h : fs.readF p = some (src.archiveOf root)) (q : FPath) (hq : q ∈ archDirsAt fs p) :
    (root ++ q) ∈ src.dirs := by
  unfold archDirsAt at hq
  rw [h] at hq
  unfold FS.archiveOf at hq
  dsimp only at hq
  exact mem_archiveOf_dirs src root _ _ rfl q hq

theorem mem_globIn_shape (fs : FS) (dir : FPath) (pre suf : String) (s : FPath)
    (hs : s ∈ fs.globIn dir pre suf) :
    ∃ b c, s = dir ++ [b] ∧ (s, c) ∈ fs.files := by
  obtain ⟨c, hm, h1, b, h2, -⟩ := (mem_globIn fs dir pre suf s).mp hs
  have hne : s ≠ [] := by intro he; rw [he] at h2; cases h2
  have hlast : s.getLast hne = b :=
    Option.some.inj ((List.getLast?_eq_getLast s hne).symm.trans h2)
  refine ⟨b, c, ?_, hm⟩
  rw [← List.dropLast_concat_getLast hne, h1, hlast]

theorem single_prefix_of_head {p : FPath} {x : String} (h : p.head? = some x) :
    [x] <+: p := by
  cases p with
  | nil => cases h
  | cons a l =>
    have ha : a = x := Option.some.inj h
    exact ⟨l, by rw [ha]; rfl⟩

theorem files_rmtree (fs : FS) (r : FPath) :
    (fs.rmtree r).files = fs.files.filter (fun e => !(List.isPrefixOf r e.1)) := rfl

theorem files_mkdir (fs : FS) (d : FPath) : (fs.mkdir d).files = fs.files := rfl

/-! ## The pipeline master specification (lines 171-205)

Symbolic execution of `pipelineRest` under a well-formedness inventory
of the starting directory and the extracted archive. -/

theorem pipeline_spec
    (name : String) (origDriver : FPath) (upd : Bool) (ct X X2 : Str)
    (fsA : FS) (im simg : Image) (E : List (FPath × FContent)) (D : List FPath)
    (selSrc : FPath)
    (hnd : (fsA.files.map Prod.fst).Nodup)
    (hclean : ∀ e ∈ fsA.files, e.1.head? ≠ some "tempdir" ∧ e.1.head? ≠ some "temp_image")
    (hcleand : ∀ d ∈ fsA.dirs, d.head? ≠ some "tempdir" ∧ d.head? ≠ some "temp_image")
    (himg : fsA.readF [name ++ ".png"] = some (FContent.image im))
    (hselsrc : (if fsA.pathExists [name ++ "_selected.png"] then [name ++ "_selected.png"]
        else [name ++ ".png"]) = selSrc)
    (hsimg : fsA.readF selSrc = some (FContent.image simg))
    (horig : fsA.readF origDriver = some (FContent.arch E D))
    (horigshape : origDriver = ["uibutton_" ++ name ++ ".c4z"]
        ∨ origDriver = [TEMPLATE_DRIVER_FILE])
    (hdrv : archLookup E.reverse ["driver.xml"] = some (FContent.text X))
    (hxml : processXmlData X ("uibutton_" ++ name).data name.data upd ct = some X2)
    (hdev : ["www", "icons", "device"] ∈ D)
    (hEoldf : archLookup E.reverse ["www", "icons-old"] = none)
    (hEsm : ∀ e ∈ E, ["www", "icons", "device_sm.png"] <+: e.1
        → e.1 = ["www", "icons", "device_sm.png"])
    (hElg : ∀ e ∈ E, ["www", "icons", "device_lg.png"] <+: e.1
        → e.1 = ["www", "icons", "device_lg.png"])
    (hDsm : ∀ d ∈ D, ¬ ["www", "icons", "device_sm.png"] <+: d)
    (hDlg : ∀ d ∈ D, ¬ ["www", "icons", "device_lg.png"] <+: d)
    (hEs16 : archLookup E.reverse ["www", "icons", "device", "selected_16.png"] = none)
    (hEs32 : archLookup E.reverse ["www", "icons", "device", "selected_32.png"] = none)
    (hfinDir : fsA.isDir ["uibutton_" ++ name ++ ".c4z"] = false)
    (htpl : upd = false → (fsA.readF [TEMPLATE_DRIVER_FILE]).isSome = true) :
    (pipelineRest name origDriver upd ct fsA).outcome = Outcome.ok
  ∧ archLookup (archEntriesAt (pipelineRest name origDriver upd ct fsA).fs
        ["uibutton_" ++ name ++ ".c4z"]) ["www", "icons", "device_sm.png"]
      = some (FContent.image (resizeImage im 16 16))
  ∧ archLookup (archEntriesAt (pipelineRest name origDriver upd ct fsA).fs
        ["uibutton_" ++ name ++ ".c4z"]) ["www", "icons", "device_lg.png"]
      = some (FContent.image (resizeImage im 32 32))
  ∧ archLookup (archEntriesAt (pipelineRest name origDriver upd ct fsA).fs
        ["uibutton_" ++ name ++ ".c4z"]) ["driver.xml"]
      = some (FContent.text X2)
  ∧ (∀ sz ∈ [70, 90, 300, 512, 1024],
      archLookup (archEntriesAt (pipelineRest name origDriver upd ct fsA).fs
          ["uibutton_" ++ name ++ ".c4z"]) ["www", "icons", "device", outName "default" sz]
        = some (FContent.image (resizeImage im sz sz))
      ∧ archLookup (archEntriesAt (pipelineRest name origDriver upd ct fsA).fs
          ["uibutton_" ++ name ++ ".c4z"]) ["www", "icons", "device", outName "selected" sz]
        = some (FContent.image (resizeImage simg sz sz)))
  ∧ archLookup (archEntriesAt (pipelineRest name origDriver upd ct fsA).fs
        ["uibutton_" ++ name ++ ".c4z"]) ["www", "icons", "device", "selected_16.png"] = none
  ∧ archLookup (archEntriesAt (pipelineRest name origDriver upd ct fsA).fs
        ["uibutton_" ++ name ++ ".c4z"]) ["www", "icons", "device", "selected_32.png"] = none
  ∧ (∀ q : FPath, ["www", "icons-old"] <+: q →
      archLookup (archEntriesAt (pipelineRest name origDriver upd ct fsA).fs
        ["uibutton_" ++ name ++ ".c4z"]) q = none)
  ∧ (∀ d ∈ archDirsAt (pipelineRest name origDriver upd ct fsA).fs
        ["uibutton_" ++ name ++ ".c4z"], ¬ ["www", "icons-old"] <+: d)
  ∧ (pipelineRest name origDriver upd ct fsA).fs.dirs = fsA.dirs
  ∧ (∀ e ∈ (pipelineRest name origDriver upd ct fsA).fs.files,
      e.1 = ["uibutton_" ++ name ++ ".c4z"] ∨ e ∈ fsA.files)
  ∧ (∀ p : FPath, p ≠ ["uibutton_" ++ name ++ ".c4z"] → p ≠ ["uibutton_" ++ name ++ ".zip"] →
      p ≠ [TEMPLATE_DRIVER_FILE] →
      (pipelineRest name origDriver upd ct fsA).fs.readF p = fsA.readF p)
  ∧ (upd = false →
      (pipelineRest name origDriver upd ct fsA).fs.readF [TEMPLATE_DRIVER_FILE] = none)
  ∧ (upd = true →
      (pipelineRest name origDriver upd ct fsA).fs.readF [TEMPLATE_DRIVER_FILE]
        = fsA.readF [TEMPLATE_DRIVER_FILE]) := by
  have hself : selSrc = [name ++ "_selected.png"] ∨ selSrc = [name ++ ".png"] := by
    rw [← hselsrc]
    by_cases h : fsA.pathExists [name ++ "_selected.png"] = true
    · left
      rw [if_pos h]
    · right
      rw [if_neg h]
  set fs1 := fsA.mkdir ["temp_image"] with hfs1
  set fs2 := genResult fs1 ["temp_image"] "default" im with hfs2
  set fs3 := genResult fs2 ["temp_image"] "selected" simg with hfs3
  set fs4 := extractInto fs3 ["tempdir"] E D with hfs4
  set fs5 := fs4.writeF ["tempdir", "driver.xml"] (FContent.text X2) with hfs5
  set fs6 := fs5.rmtree iconsOldP with hfs6
  set fs6a := (fs6.removeF ["temp_image", "default_16.png"]).writeF
      ["tempdir", "www", "icons", "device_sm.png"]
      (FContent.image (resizeImage im 16 16)) with hfs6a
  set fs6b := (fs6a.removeF ["temp_image", "default_32.png"]).writeF
      ["tempdir", "www", "icons", "device_lg.png"]
      (FContent.image (resizeImage im 32 32)) with hfs6b
  set fs7 := (fs6b.removeF ["temp_image", "selected_16.png"]).removeF
      ["temp_image", "selected_32.png"] with hfs7
  have hrd3' : ∀ p : FPath, p.head? ≠ some "temp_image" → fs3.readF p = fsA.readF p := by
    intro p hp
    have e1 : fs3.readF p = fs2.readF p := by
      rw [hfs3]
      exact readF_genResult_ne fs2 _ _ _ p (fun sz _ he => hp (by rw [← he]; rfl))
    have e2 : fs2.readF p = fs1.readF p := by
      rw [hfs2]
      exact readF_genResult_ne fs1 _ _ _ p (fun sz _ he => hp (by rw [← he]; rfl))
    exact e1.trans e2
  have hr3_def : ∀ sz ∈ sizelist, fs3.readF ["temp_image", outName "default" sz]
      = some (FContent.image (resizeImage im sz sz)) := by
    intro sz hsz
    have e1 : fs3.readF ["temp_image", outName "default" sz]
        = fs2.readF ["temp_image", outName "default" sz] := by
      rw [hfs3]
      refine readF_genResult_ne fs2 _ _ _ _ ?_
      intro sz2 _ he
      injection he with hh1 hh2
      injection hh2 with hh3 _
      exact outName_stems_ne sz sz2 hh3.symm
    have e2 : fs2.readF ["temp_image", outName "default" sz]
        = some (FContent.image (resizeImage im sz sz)) := by
      rw [hfs2]
      exact readF_genResult_mem fs1 ["temp_image"] "default" im sz hsz (outPaths_nodup _ _)
    exact e1.trans e2
  have hr3_sel : ∀ sz ∈ sizelist, fs3.readF ["temp_image", outName "selected" sz]
      = some (FContent.image (resizeImage simg sz sz)) := by
    intro sz hsz
    rw [hfs3]
    exact readF_genResult_mem fs2 ["temp_image"] "selected" simg sz hsz (outPaths_nodup _ _)
  have hlook4 : ∀ q : FPath, fs4.readF (["tempdir"] ++ q)
      = match archLookup E.reverse q with
        | some c => some c
        | none => fs3.readF (["tempdir"] ++ q) := by
    intro q
    rw [hfs4]
    exact readF_extractInto_lookup fs3 _ E D q
  have hr6ti : ∀ p : FPath, p.head? = some "temp_image" → fs6.readF p = fs3.readF p := by
    intro p hp
    have e2 : fs6.readF p = fs5.readF p := by
      rw [hfs6, readF_rmtree,
        if_neg (not_prefix_of_head_ne (show iconsOldP.head? = some "tempdir" from rfl)
          (by rw [hp]; decide))]
    have e3 : fs5.readF p = fs4.readF p := by
      rw [hfs5, readF_writeF_ne _ _ _ _ (fun he => by
        rw [he] at hp
        exact absurd hp (by decide))]
    have e4 : fs4.readF p = fs3.readF p := by
      rw [hfs4]
      exact readF_extractInto_out fs3 _ E D p
        (not_prefix_of_head_ne rfl (by rw [hp]; decide))
    exact (e2.trans e3).trans e4
  have hr6_def : ∀ sz ∈ sizelist, fs6.readF ["temp_image", outName "default" sz]
      = some (FContent.image (resizeImage im sz sz)) :=
    fun sz hsz => (hr6ti ["temp_image", outName "default" sz] rfl).trans (hr3_def sz hsz)
  have hr6_sel : ∀ sz ∈ sizelist, fs6.readF ["temp_image", outName "selected" sz]
      = some (FContent.image (resizeImage simg sz sz)) :=
    fun sz hsz => (hr6ti ["temp_image", outName "selected" sz] rfl).trans (hr3_sel sz hsz)
  have hrdorig : fs3.readF origDriver = some (FContent.arch E D) := by
    rcases horigshape with hsh | hsh
    · rw [hsh]
      refine (hrd3' _ ?_).trans (by rw [← hsh]; exact horig)
      simp only [List.head?_cons, ne_eq, Option.some.injEq]
      exact uib_head_ne_temp_image name ".c4z" 'z' (by decide) (by decide) (by decide)
    · rw [hsh]
      refine (hrd3' _ (by decide)).trans (by rw [← hsh]; exact horig)
  have hrd4drv : fs4.readF ["tempdir", "driver.xml"] = some (FContent.text X) := by
    have h4 := hlook4 ["driver.xml"]
    rw [hdrv] at h4
    exact h4
  have hiold : fs5.readF iconsOldP = none := by
    have e1 : fs5.readF iconsOldP = fs4.readF iconsOldP := by
      rw [hfs5, readF_writeF_ne _ _ _ _ (by decide)]
    have e2 : fs4.readF iconsOldP = fs3.readF iconsOldP := by
      have h4 := hlook4 ["www", "icons-old"]
      rw [hEoldf] at h4
      exact h4
    have e3 : fs3.readF iconsOldP = fsA.readF iconsOldP := hrd3' _ (by decide)
    have e4 : fsA.readF iconsOldP = none :=
      readF_none_of_no_entry _ _ (fun e he hep => absurd (by rw [hep]; rfl) (hclean e he).1)
    exact ((e1.trans e2).trans e3).trans e4
  have hstio : stageIconsOld fs5 = Except.ok fs6 := by
    rw [hfs6]
    refine stageIconsOld_eq fs5 (fun hfe => ?_)
    rw [fileExists_eq_isSome_readF, hiold] at hfe
    exact absurd hfe (by decide)
  have hdirs3 : fs3.dirs = ["temp_image"] :: fsA.dirs := by
    rw [hfs3, dirs_genResult, hfs2, dirs_genResult]
    rfl
  have hmem5 : ∀ e ∈ fs5.files,
      e = ((["tempdir", "driver.xml"] : FPath), FContent.text X2)
      ∨ (∃ e0 ∈ E, e = (["tempdir"] ++ e0.1, e0.2))
      ∨ (∃ sz ∈ sizelist, e = ((["temp_image", outName "selected" sz] : FPath),
          FContent.image (resizeImage simg sz sz)))
      ∨ (∃ sz ∈ sizelist, e = ((["temp_image", outName "default" sz] : FPath),
          FContent.image (resizeImage im sz sz)))
      ∨ e ∈ fsA.files := by
    intro e he
    rw [hfs5] at he
    rcases (mem_files_writeF _ _ _ _).mp he with rfl | ⟨he1, -⟩
    · exact Or.inl rfl
    · rw [hfs4] at he1
      rcases mem_files_extractInto _ _ _ _ _ he1 with ⟨e0, h0, rfl⟩ | he2
      · exact Or.inr (Or.inl ⟨e0, h0, rfl⟩)
      · rw [hfs3] at he2
        rcases mem_files_genResult _ _ _ _ _ he2 with ⟨sz, hsz, rfl⟩ | he3
        · exact Or.inr (Or.inr (Or.inl ⟨sz, hsz, rfl⟩))
        · rw [hfs2] at he3
          rcases mem_files_genResult _ _ _ _ _ he3 with ⟨sz, hsz, rfl⟩ | he4
          · exact Or.inr (Or.inr (Or.inr (Or.inl ⟨sz, hsz, rfl⟩)))
          · exact Or.inr (Or.inr (Or.inr (Or.inr he4)))
  have hmemd6 : ∀ d ∈ fs6.dirs, d = ["tempdir"] ∨ (∃ d0 ∈ D, d = ["tempdir"] ++ d0)
      ∨ d = ["temp_image"] ∨ d ∈ fsA.dirs := by
    intro d hd
    obtain ⟨hd1, -⟩ := (mem_dirs_rmtree fs5 iconsOldP d).mp hd
    rw [hfs5, dirs_writeF, hfs4, dirs_extractInto, hdirs3] at hd1
    rcases List.mem_cons.mp hd1 with rfl | hd2
    · exact Or.inl rfl
    rcases List.mem_append.mp hd2 with hd3 | hd4
    · obtain ⟨d0, hd0, rfl⟩ := List.mem_map.mp hd3
      exact Or.inr (Or.inl ⟨d0, hd0, rfl⟩)
    rcases List.mem_cons.mp hd4 with rfl | hd5
    · exact Or.inr (Or.inr (Or.inl rfl))
    · exact Or.inr (Or.inr (Or.inr hd5))
  have hdsm6 : fs6.isDir ["tempdir", "www", "icons", "device_sm.png"] = false := by
    apply isDir_eq_false
    · intro d hd hp
      rcases hmemd6 d hd with rfl | ⟨d0, hd0, rfl⟩ | rfl | hmem
      · exact absurd hp.length_le (by decide)
      · exact hDsm d0 hd0 ((List.prefix_append_right_inj ["tempdir"]).mp hp)
      · exact absurd hp.length_le (by decide)
      · exact absurd hp (not_prefix_of_head_ne rfl (hcleand d hmem).1)
    · intro e he hp
      obtain ⟨he1, -⟩ := (mem_files_rmtree fs5 iconsOldP e).mp he
      rcases hmem5 e he1 with rfl | ⟨e0, h0, rfl⟩ | ⟨sz, hsz, rfl⟩ | ⟨sz, hsz, rfl⟩ | hmem
      · exact absurd (show (["tempdir", "www", "icons", "device_sm.png"] : FPath)
            <+: ["tempdir", "driver.xml"] from hp) (by decide)
      · have h2 := hEsm e0 h0 ((List.prefix_append_right_inj ["tempdir"]).mp hp)
        show (["tempdir", "www", "icons", "device_sm.png"] : FPath) = ["tempdir"] ++ e0.1
        rw [h2]
        rfl
      · refine absurd hp (not_prefix_of_head_ne rfl ?_)
        show (some "temp_image" : Option String) ≠ some "tempdir"
        decide
      · refine absurd hp (not_prefix_of_head_ne rfl ?_)
        show (some "temp_image" : Option String) ≠ some "tempdir"
        decide
      · exact absurd hp (not_prefix_of_head_ne rfl (hclean e hmem).1)
  have hdlg6 : fs6.isDir ["tempdir", "www", "icons", "device_lg.png"] = false := by
    apply isDir_eq_false
    · intro d hd hp
      rcases hmemd6 d hd with rfl | ⟨d0, hd0, rfl⟩ | rfl | hmem
      · exact absurd hp.length_le (by decide)
      · exact hDlg d0 hd0 ((List.prefix_append_right_inj ["tempdir"]).mp hp)
      · exact absurd hp.length_le (by decide)
      · exact absurd hp (not_prefix_of_head_ne rfl (hcleand d hmem).1)
    · intro e he hp
      obtain ⟨he1, -⟩ := (mem_files_rmtree fs5 iconsOldP e).mp he
      rcases hmem5 e he1 with rfl | ⟨e0, h0, rfl⟩ | ⟨sz, hsz, rfl⟩ | ⟨sz, hsz, rfl⟩ | hmem
      · exact absurd (show (["tempdir", "www", "icons", "device_lg.png"] : FPath)
            <+: ["tempdir", "driver.xml"] from hp) (by decide)
      · have h2 := hElg e0 h0 ((List.prefix_append_right_inj ["tempdir"]).mp hp)
        show (["tempdir", "www", "icons", "device_lg.png"] : FPath) = ["tempdir"] ++ e0.1
        rw [h2]
        rfl
      · refine absurd hp (not_prefix_of_head_ne rfl ?_)
        show (some "temp_image" : Option String) ≠ some "tempdir"
        decide
      · refine absurd hp (not_prefix_of_head_ne rfl ?_)
        show (some "temp_image" : Option String) ≠ some "tempdir"
        decide
      · exact absurd hp (not_prefix_of_head_ne rfl (hclean e hmem).1)
  have ho16 : outName "default" 16 = "default_16.png" := by decide
  have ho32 : outName "default" 32 = "default_32.png" := by decide
  have hos16 : outName "selected" 16 = "selected_16.png" := by decide
  have hos32 : outName "selected" 32 = "selected_32.png" := by decide
  have h16v : fs6.readF ["temp_image", "default_16.png"]
      = some (FContent.image (resizeImage im 16 16)) := by
    have h := hr6_def 16 (by decide)
    rwa [ho16] at h
  have h32v : fs6.readF ["temp_image", "default_32.png"]
      = some (FContent.image (resizeImage im 32 32)) := by
    have h := hr6_def 32 (by decide)
    rwa [ho32] at h
  have hs16v : fs6.readF ["temp_image", "selected_16.png"]
      = some (FContent.image (resizeImage simg 16 16)) := by
    have h := hr6_sel 16 (by decide)
    rwa [hos16] at h
  have hs32v : fs6.readF ["temp_image", "selected_32.png"]
      = some (FContent.image (resizeImage simg 32 32)) := by
    have h := hr6_sel 32 (by decide)
    rwa [hos32] at h
  have hsm : stageMoves fs6 = Except.ok fs7 := by
    rw [hfs7, hfs6b, hfs6a]
    exact stageMoves_eq fs6 _ _ _ _ h16v h32v hs16v hs32v hdsm6 hdlg6
  have hr7chain : ∀ p : FPath, p ≠ ["temp_image", "default_16.png"]
      → p ≠ ["temp_image", "default_32.png"]
      → p ≠ ["temp_image", "selected_16.png"] → p ≠ ["temp_image", "selected_32.png"]
      → p ≠ ["tempdir", "www", "icons", "device_sm.png"]
      → p ≠ ["tempdir", "www", "icons", "device_lg.png"]
      → fs7.readF p = fs6.readF p := by
    intro p h1 h2 h3 h4 h5 h6
    rw [hfs7, readF_removeF, if_neg h4, readF_removeF, if_neg h3, hfs6b,
      readF_writeF_ne _ _ _ _ h6, readF_removeF, if_neg h2, hfs6a,
      readF_writeF_ne _ _ _ _ h5, readF_removeF, if_neg h1]
  have hr6chain : ∀ p : FPath, ¬ ["tempdir"] <+: p → fs6.readF p = fs3.readF p := by
    intro p h3
    have e2 : fs6.readF p = fs5.readF p := by
      rw [hfs6, readF_rmtree,
        if_neg (fun h1 => h3 ((by decide : (["tempdir"] : FPath) <+: iconsOldP).trans h1))]
    have e3 : fs5.readF p = fs4.readF p := by
      rw [hfs5, readF_writeF_ne _ _ _ _ (fun he => h3 (by rw [he]; decide))]
    have e4 : fs4.readF p = fs3.readF p := by
      rw [hfs4]
      exact readF_extractInto_out fs3 _ E D p h3
    exact (e2.trans e3).trans e4
  have hr7A : ∀ p : FPath, ¬ ["tempdir"] <+: p → ¬ ["temp_image"] <+: p →
      fs7.readF p = fsA.readF p := by
    intro p h3 h4
    have e1 := hr7chain p (fun he => h4 (by rw [he]; decide))
      (fun he => h4 (by rw [he]; decide)) (fun he => h4 (by rw [he]; decide))
      (fun he => h4 (by rw [he]; decide)) (fun he => h3 (by rw [he]; decide))
      (fun he => h3 (by rw [he]; decide))
    have e2 := hr6chain p h3
    have e3 := hrd3' p (fun hh => h4 (single_prefix_of_head hh))
    exact e1.trans (e2.trans e3)
  have hnd7 : (fs7.files.map Prod.fst).Nodup := by
    have n2 : (fs2.files.map Prod.fst).Nodup := pathsND_genResult _ _ _ _ hnd
    have n3 : (fs3.files.map Prod.fst).Nodup := pathsND_genResult _ _ _ _ n2
    have n4 : (fs4.files.map Prod.fst).Nodup := pathsND_foldl_writes _ _ n3
    have n5 : (fs5.files.map Prod.fst).Nodup := pathsND_writeF _ _ _ n4
    have n6 : (fs6.files.map Prod.fst).Nodup := pathsND_filter _ _ n5
    have n6a : (fs6a.files.map Prod.fst).Nodup := pathsND_writeF _ _ _ (pathsND_filter _ _ n6)
    have n6b : (fs6b.files.map Prod.fst).Nodup := pathsND_writeF _ _ _ (pathsND_filter _ _ n6a)
    exact pathsND_filter _ _ (pathsND_filter _ _ n6b)
  have hdirs7 : fs7.dirs = fs6.dirs := by
    rw [hfs7, dirs_removeF, dirs_removeF, hfs6b, dirs_writeF, dirs_removeF, hfs6a,
      dirs_writeF, dirs_removeF]
  have hdev7 : ["tempdir", "www", "icons", "device"] ∈ fs7.dirs := by
    rw [hdirs7]
    refine (mem_dirs_rmtree fs5 iconsOldP _).mpr ⟨?_, by decide⟩
    rw [hfs5, dirs_writeF, hfs4, dirs_extractInto]
    exact List.mem_cons_of_mem _
      (List.mem_append_left _ (List.mem_map.mpr ⟨["www", "icons", "device"], hdev, rfl⟩))
  obtain ⟨fs8, hcop, hdirs8, hframe8, hcontent8, hmem8, hframe8b⟩ :=
    stageCopies_spec fs7 hnd7 hdev7
  have hmem7 : ∀ e ∈ fs7.files, e.1.head? = some "tempdir"
      ∨ e.1.head? = some "temp_image" ∨ e ∈ fsA.files := by
    intro e he
    rw [hfs7] at he
    obtain ⟨he1, -⟩ := (mem_files_removeF _ _ _).mp he
    obtain ⟨he2, -⟩ := (mem_files_removeF _ _ _).mp he1
    rw [hfs6b] at he2
    rcases (mem_files_writeF _ _ _ _).mp he2 with rfl | ⟨he3, -⟩
    · exact Or.inl rfl
    obtain ⟨he4, -⟩ := (mem_files_removeF _ _ _).mp he3
    rw [hfs6a] at he4
    rcases (mem_files_writeF _ _ _ _).mp he4 with rfl | ⟨he5, -⟩
    · exact Or.inl rfl
    obtain ⟨he6, -⟩ := (mem_files_removeF _ _ _).mp he5
    obtain ⟨he7, -⟩ := (mem_files_rmtree fs5 iconsOldP _).mp he6
    rcases hmem5 e he7 with rfl | ⟨e0, -, rfl⟩ | ⟨sz, -, rfl⟩ | ⟨sz, -, rfl⟩ | hmem
    · exact Or.inl rfl
    · exact Or.inl rfl
    · exact Or.inr (Or.inl rfl)
    · exact Or.inr (Or.inl rfl)
    · exact Or.inr (Or.inr hmem)
  have hgnotsel : ∀ s ∈ fs7.globIn ["temp_image"] "default_" ".png"
      ++ fs7.globIn ["temp_image"] "selected" ".png",
      s.getLastD "" ≠ "selected_16.png" ∧ s.getLastD "" ≠ "selected_32.png" := by
    intro s hs
    have hform : ∃ b c, s = ["temp_image"] ++ [b] ∧ (s, c) ∈ fs7.files := by
      rcases List.mem_append.mp hs with h | h
      · exact mem_globIn_shape _ _ _ _ _ h
      · exact mem_globIn_shape _ _ _ _ _ h
    obtain ⟨b, c, rfl, hm⟩ := hform
    rw [hfs7] at hm
    obtain ⟨hm1, hne32⟩ := (mem_files_removeF _ _ _).mp hm
    obtain ⟨hm2, hne16⟩ := (mem_files_removeF _ _ _).mp hm1
    constructor
    · intro he
      have hb : b = "selected_16.png" := he
      exact hne16 (by rw [hb]; rfl)
    · intro he
      have hb : b = "selected_32.png" := he
      exact hne32 (by rw [hb]; rfl)
  have htplchain : fs8.readF [TEMPLATE_DRIVER_FILE] = fsA.readF [TEMPLATE_DRIVER_FILE] := by
    rw [hframe8 _ (fun b he => by
      have h2 : (TEMPLATE_DRIVER_FILE :: ([] : FPath))
          = ["tempdir", "www", "icons", "device", b] := he
      injection h2 with h1 _
      exact absurd h1 (by decide))]
    exact hr7A [TEMPLATE_DRIVER_FILE] (not_single_pfx (by decide))
      (not_single_pfx (by decide))
  have htpl8 : upd = false → (fs8.readF [TEMPLATE_DRIVER_FILE]).isSome = true := by
    intro h
    rw [htplchain]
    exact htpl h
  have hfinA_dirs : ∀ d ∈ fsA.dirs, ¬ (["uibutton_" ++ name ++ ".c4z"] : FPath) <+: d :=
    fun d hd hp => absurd ((isDir_iff fsA _).mpr (Or.inl ⟨d, hd, hp⟩)) (by simp [hfinDir])
  have hfinA_files : ∀ e ∈ fsA.files, (["uibutton_" ++ name ++ ".c4z"] : FPath) <+: e.1 →
      (["uibutton_" ++ name ++ ".c4z"] : FPath) = e.1 := by
    intro e he hp
    by_cases heq : (["uibutton_" ++ name ++ ".c4z"] : FPath) = e.1
    · exact heq
    · exact absurd ((isDir_iff fsA _).mpr (Or.inr ⟨e, he, heq, hp⟩)) (by simp [hfinDir])
  have hfin8 : fs8.isDir ["uibutton_" ++ name ++ ".c4z"] = false := by
    apply isDir_eq_false
    · intro d hd hp
      rw [hdirs8, hdirs7] at hd
      rcases hmemd6 d hd with rfl | ⟨d0, hd0, rfl⟩ | rfl | hmem
      · exact uib_head_ne_tempdir name ".c4z" 'z' (by decide) (by decide) (by decide)
          (single_prefix_single hp)
      · refine absurd hp (not_prefix_of_head_ne rfl ?_)
        intro he
        have h2 : ("tempdir" : String) = "uibutton_" ++ name ++ ".c4z" := Option.some.inj he
        exact uib_head_ne_tempdir name ".c4z" 'z' (by decide) (by decide) (by decide) h2.symm
      · exact uib_head_ne_temp_image name ".c4z" 'z' (by decide) (by decide) (by decide)
          (single_prefix_single hp)
      · exact hfinA_dirs d hmem hp
    · intro e he hp
      rcases hmem8 e he with ⟨b, hb⟩ | hm7
      · refine absurd hp (not_prefix_of_head_ne rfl ?_)
        rw [hb]
        intro he2
        have h2 : ("tempdir" : String) = "uibutton_" ++ name ++ ".c4z" := Option.some.inj he2
        exact uib_head_ne_tempdir name ".c4z" 'z' (by decide) (by decide) (by decide) h2.symm
      · rcases hmem7 e hm7 with hh | hh | hmem
        · refine absurd hp (not_prefix_of_head_ne rfl ?_)
          rw [hh]
          intro he2
          have h2 : ("tempdir" : String) = "uibutton_" ++ name ++ ".c4z" := Option.some.inj he2
          exact uib_head_ne_tempdir name ".c4z" 'z' (by decide) (by decide) (by decide) h2.symm
        · refine absurd hp (not_prefix_of_head_ne rfl ?_)
          rw [hh]
          intro he2
          have h2 : ("temp_image" : String) = "uibutton_" ++ name ++ ".c4z" :=
            Option.some.inj he2
          exact uib_head_ne_temp_image name ".c4z" 'z' (by decide) (by decide) (by decide)
            h2.symm
        · exact hfinA_files e hmem hp
  have hrun : pipelineRest name origDriver upd ct fsA = stagePack name upd fs8 := by
    unfold pipelineRest
    dsimp only
    rw [hselsrc, ← hfs1]
    have hg1 : make_image_files fs1 [name ++ ".png"] ["temp_image"] "default"
        = Except.ok fs2 := by
      rw [hfs2]
      exact make_image_files_eq fs1 _ _ _ im himg (fun sz _ he => by simp at he)
    rw [hg1]
    dsimp only
    have hg2read : fs2.readF selSrc = some (FContent.image simg) := by
      have e2 : fs2.readF selSrc = fs1.readF selSrc := by
        rw [hfs2]
        refine readF_genResult_ne fs1 _ _ _ _ ?_
        intro sz _ he
        rcases hself with hs | hs <;> rw [hs] at he <;> exact absurd he (by simp)
      exact e2.trans hsimg
    have hg2 : make_image_files fs2 selSrc ["temp_image"] "selected" = Except.ok fs3 := by
      rw [hfs3]
      refine make_image_files_eq fs2 _ _ _ simg hg2read ?_
      intro sz _ he
      rcases hself with hs | hs <;> rw [hs] at he <;> exact absurd he (by simp)
    rw [hg2]
    dsimp only
    rw [hrdorig]
    dsimp only
    rw [← hfs4, hrd4drv]
    dsimp only
    rw [hxml]
    dsimp only
    rw [← hfs5, hstio]
    dsimp only
    rw [hsm]
    dsimp only
    rw [hcop]
  rw [hrun]
  obtain ⟨houtc, hdirsP, hfinP, hframeP, htplN, htplE, hmemP⟩ :=
    stagePack_spec name upd fs8 hfin8 htpl8
  have harchq : ∀ q : FPath, q ≠ [] →
      archLookup (archEntriesAt (stagePack name upd fs8).fs
        ["uibutton_" ++ name ++ ".c4z"]) q = fs8.readF (["tempdir"] ++ q) := by
    intro q hq
    have hni : ¬ (["temp_image"] : FPath) <+: (["tempdir"] ++ q) := by
      refine not_prefix_of_head_ne rfl ?_
      rw [show ((["tempdir"] ++ q : FPath)).head? = some "tempdir" from rfl]
      decide
    rw [archLookup_archEntriesAt _ _ (fs8.rmtree ["temp_image"]) ["tempdir"] q hq hfinP,
      readF_rmtree, if_neg hni]
  have hq_dsm : ∀ b : String, ((["tempdir"] ++ ["www", "icons", "device_sm.png"] : FPath))
      ≠ ["tempdir", "www", "icons", "device", b] := by
    intro b he
    have h2 : ("tempdir" :: "www" :: "icons" :: "device_sm.png" :: ([] : FPath))
        = ["tempdir", "www", "icons", "device", b] := he
    injection h2 with g1 g2
    injection g2 with g3 g4
    injection g4 with g5 g6
    injection g6 with g7 _
    exact absurd g7 (by decide)
  have hq_dlg : ∀ b : String, ((["tempdir"] ++ ["www", "icons", "device_lg.png"] : FPath))
      ≠ ["tempdir", "www", "icons", "device", b] := by
    intro b he
    have h2 : ("tempdir" :: "www" :: "icons" :: "device_lg.png" :: ([] : FPath))
        = ["tempdir", "www", "icons", "device", b] := he
    injection h2 with g1 g2
    injection g2 with g3 g4
    injection g4 with g5 g6
    injection g6 with g7 _
    exact absurd g7 (by decide)
  have hq_drv : ∀ b : String, ((["tempdir"] ++ ["driver.xml"] : FPath))
      ≠ ["tempdir", "www", "icons", "device", b] := by
    intro b he
    have h2 : ("tempdir" :: "driver.xml" :: ([] : FPath))
        = ["tempdir", "www", "icons", "device", b] := he
    injection h2 with g1 g2
    injection g2 with g3 _
    exact absurd g3 (by decide)
  have hv_dsm : fs7.readF ["tempdir", "www", "icons", "device_sm.png"]
      = some (FContent.image (resizeImage im 16 16)) := by
    rw [hfs7, readF_removeF, if_neg (by decide), readF_removeF, if_neg (by decide), hfs6b,
      readF_writeF_ne _ _ _ _ (by decide), readF_removeF, if_neg (by decide), hfs6a,
      readF_writeF_same]
  have hv_dlg : fs7.readF ["tempdir", "www", "icons", "device_lg.png"]
      = some (FContent.image (resizeImage im 32 32)) := by
    rw [hfs7, readF_removeF, if_neg (by decide), readF_removeF, if_neg (by decide), hfs6b,
      readF_writeF_same]
  have hv_drv : fs7.readF ["tempdir", "driver.xml"] = some (FContent.text X2) := by
    have e1 : fs7.readF ["tempdir", "driver.xml"] = fs6.readF ["tempdir", "driver.xml"] :=
      hr7chain _ (by decide) (by decide) (by decide) (by decide) (by decide) (by decide)
    have e2 : fs6.readF ["tempdir", "driver.xml"] = fs5.readF ["tempdir", "driver.xml"] := by
      rw [hfs6, readF_rmtree, if_neg (by decide)]
    have e3 : fs5.readF ["tempdir", "driver.xml"] = some (FContent.text X2) := by
      rw [hfs5]
      exact readF_writeF_same _ _ _
    exact (e1.trans e2).trans e3
  have hmkmem : ∀ (pre suf : String) (bname : String) (v : FContent),
      fs7.readF ["temp_image", bname] = some v →
      (pre.data.isPrefixOf bname.data && suf.data.isSuffixOf bname.data
        && decide (pre.data.length + suf.data.length ≤ bname.data.length)) = true →
      ["temp_image", bname] ∈ fs7.globIn ["temp_image"] pre suf := by
    intro pre suf bname v hval hcond
    obtain ⟨c, hm⟩ := readF_isSome_elim fs7 _ (by rw [hval]; rfl)
    exact (mem_globIn _ _ _ _ _).mpr ⟨c, hm, rfl, bname, rfl, hcond⟩
  have hdevgen : ∀ (bname : String) (v : FContent),
      (["temp_image", bname] ∈ fs7.globIn ["temp_image"] "default_" ".png"
        ∨ ["temp_image", bname] ∈ fs7.globIn ["temp_image"] "selected" ".png") →
      fs7.readF ["temp_image", bname] = some v →
      archLookup (archEntriesAt (stagePack name upd fs8).fs
        ["uibutton_" ++ name ++ ".c4z"]) ["www", "icons", "device", bname] = some v := by
    intro bname v hmemg hval
    rw [harchq ["www", "icons", "device", bname] (by simp)]
    have hc := hcontent8 ["temp_image", bname] (List.mem_append.mpr hmemg)
    rw [hval] at hc
    exact hc
  refine ⟨houtc, ?_, ?_, ?_, ?_, ?_, ?_, ?_, ?_, ?_, ?_, ?_, htplN, ?_⟩
  · rw [harchq ["www", "icons", "device_sm.png"] (by simp), hframe8 _ hq_dsm]
    exact hv_dsm
  · rw [harchq ["www", "icons", "device_lg.png"] (by simp), hframe8 _ hq_dlg]
    exact hv_dlg
  · rw [harchq ["driver.xml"] (by simp), hframe8 _ hq_drv]
    exact hv_drv
  · intro sz hsz
    fin_cases hsz
    all_goals exact
      ⟨hdevgen _ _ (Or.inl (hmkmem "default_" ".png" _ _
          ((hr7chain _ (by decide) (by decide) (by decide) (by decide) (by decide)
            (by decide)).trans (hr6_def _ (by decide))) (by decide)))
        ((hr7chain _ (by decide) (by decide) (by decide) (by decide) (by decide)
          (by decide)).trans (hr6_def _ (by decide))),
       hdevgen _ _ (Or.inr (hmkmem "selected" ".png" _ _
          ((hr7chain _ (by decide) (by decide) (by decide) (by decide) (by decide)
            (by decide)).trans (hr6_sel _ (by decide))) (by decide)))
        ((hr7chain _ (by decide) (by decide) (by decide) (by decide) (by decide)
          (by decide)).trans (hr6_sel _ (by decide)))⟩
  · rw [harchq ["www", "icons", "device", "selected_16.png"] (by simp)]
    show fs8.readF ["tempdir", "www", "icons", "device", "selected_16.png"] = none
    rw [hframe8b "selected_16.png" (fun s hs => (hgnotsel s hs).1)]
    have e1 : fs7.readF ["tempdir", "www", "icons", "device", "selected_16.png"]
        = fs6.readF ["tempdir", "www", "icons", "device", "selected_16.png"] :=
      hr7chain _ (by decide) (by decide) (by decide) (by decide) (by decide) (by decide)
    have e2 : fs6.readF ["tempdir", "www", "icons", "device", "selected_16.png"]
        = fs5.readF ["tempdir", "www", "icons", "device", "selected_16.png"] := by
      rw [hfs6, readF_rmtree, if_neg (by decide)]
    have e3 : fs5.readF ["tempdir", "www", "icons", "device", "selected_16.png"]
        = fs4.readF ["tempdir", "www", "icons", "device", "selected_16.png"] := by
      rw [hfs5, readF_writeF_ne _ _ _ _ (by decide)]
    have e4 : fs4.readF ["tempdir", "www", "icons", "device", "selected_16.png"]
        = fs3.readF ["tempdir", "www", "icons", "device", "selected_16.png"] := by
      have h4 := hlook4 ["www", "icons", "device", "selected_16.png"]
      rw [hEs16] at h4
      exact h4
    have e5 : fs3.readF ["tempdir", "www", "icons", "device", "selected_16.png"]
        = fsA.readF ["tempdir", "www", "icons", "device", "selected_16.png"] :=
      hrd3' _ (by decide)
    have e6 : fsA.readF ["tempdir", "www", "icons", "device", "selected_16.png"] = none :=
      readF_none_of_no_entry _ _ (fun e he hep => absurd (by rw [hep]; rfl) (hclean e he).1)
    exact ((((e1.trans e2).trans e3).trans e4).trans e5).trans e6
  · rw [harchq ["www", "icons", "device", "selected_32.png"] (by simp)]
    show fs8.readF ["tempdir", "www", "icons", "device", "selected_32.png"] = none
    rw [hframe8b "selected_32.png" (fun s hs => (hgnotsel s hs).2)]
    have e1 : fs7.readF ["tempdir", "www", "icons", "device", "selected_32.png"]
        = fs6.readF ["tempdir", "www", "icons", "device", "selected_32.png"] :=
      hr7chain _ (by decide) (by decide) (by decide) (by decide) (by decide) (by decide)
    have e2 : fs6.readF ["tempdir", "www", "icons", "device", "selected_32.png"]
        = fs5.readF ["tempdir", "www", "icons", "device", "selected_32.png"] := by
      rw [hfs6, readF_rmtree, if_neg (by decide)]
    have e3 : fs5.readF ["tempdir", "www", "icons", "device", "selected_32.png"]
        = fs4.readF ["tempdir", "www", "icons", "device", "selected_32.png"] := by
      rw [hfs5, readF_writeF_ne _ _ _ _ (by decide)]
    have e4 : fs4.readF ["tempdir", "www", "icons", "device", "selected_32.png"]
        = fs3.readF ["tempdir", "www", "icons", "device", "selected_32.png"] := by
      have h4 := hlook4 ["www", "icons", "device", "selected_32.png"]
      rw [hEs32] at h4
      exact h4
    have e5 : fs3.readF ["tempdir", "www", "icons", "device", "selected_32.png"]
        = fsA.readF ["tempdir", "www", "icons", "device", "selected_32.png"] :=
      hrd3' _ (by decide)
    have e6 : fsA.readF ["tempdir", "www", "icons", "device", "selected_32.png"] = none :=
      readF_none_of_no_entry _ _ (fun e he hep => absurd (by rw [hep]; rfl) (hclean e he).1)
    exact ((((e1.trans e2).trans e3).trans e4).trans e5).trans e6
  · intro q hq
    obtain ⟨t0, rfl⟩ := hq
    rw [harchq _ (by simp)]
    have hb : ∀ b : String, ((["tempdir"] ++ (["www", "icons-old"] ++ t0) : FPath))
        ≠ ["tempdir", "www", "icons", "device", b] := by
      intro b he
      have h2 : ("tempdir" :: "www" :: "icons-old" :: t0 : FPath)
          = ["tempdir", "www", "icons", "device", b] := he
      injection h2 with g1 g2
      injection g2 with g3 g4
      injection g4 with g5 _
      exact absurd g5 (by decide)
    rw [hframe8 _ hb]
    have e1 : fs7.readF (["tempdir"] ++ (["www", "icons-old"] ++ t0))
        = fs6.readF (["tempdir"] ++ (["www", "icons-old"] ++ t0)) := by
      refine hr7chain _ ?_ ?_ ?_ ?_ ?_ ?_
      · intro he
        have h2 : ("tempdir" :: "www" :: "icons-old" :: t0 : FPath)
            = ["temp_image", "default_16.png"] := he
        injection h2 with g1 _
        exact absurd g1 (by decide)
      · intro he
        have h2 : ("tempdir" :: "www" :: "icons-old" :: t0 : FPath)
            = ["temp_image", "default_32.png"] := he
        injection h2 with g1 _
        exact absurd g1 (by decide)
      · intro he
        have h2 : ("tempdir" :: "www" :: "icons-old" :: t0 : FPath)
            = ["temp_image", "selected_16.png"] := he
        injection h2 with g1 _
        exact absurd g1 (by decide)
      · intro he
        have h2 : ("tempdir" :: "www" :: "icons-old" :: t0 : FPath)
            = ["temp_image", "selected_32.png"] := he
        injection h2 with g1 _
        exact absurd g1 (by decide)
      · intro he
        have h2 : ("tempdir" :: "www" :: "icons-old" :: t0 : FPath)
            = ["tempdir", "www", "icons", "device_sm.png"] := he
        injection h2 with g1 g2
        injection g2 with g3 g4
        injection g4 with g5 _
        exact absurd g5 (by decide)
      · intro he
        have h2 : ("tempdir" :: "www" :: "icons-old" :: t0 : FPath)
            = ["tempdir", "www", "icons", "device_lg.png"] := he
        injection h2 with g1 g2
        injection g2 with g3 g4
        injection g4 with g5 _
        exact absurd g5 (by decide)
    rw [e1, hfs6, readF_rmtree, if_pos ⟨t0, rfl⟩]
  · intro d hd hpre
    have hmem9 := mem_archDirsAt _ _ (fs8.rmtree ["temp_image"]) ["tempdir"] hfinP d hd
    obtain ⟨hm1, -⟩ := (mem_dirs_rmtree _ _ _).mp hmem9
    rw [hdirs8, hdirs7] at hm1
    obtain ⟨-, hnold⟩ := (mem_dirs_rmtree fs5 iconsOldP _).mp hm1
    obtain ⟨t0, rfl⟩ := hpre
    exact hnold ⟨t0, rfl⟩
  · have hfilter3 : ∀ (P : FPath → Bool) (L : List FPath),
        P ["tempdir"] = false → P ["temp_image"] = false →
        (∀ a ∈ D.map (fun d => ["tempdir"] ++ d), P a = false) →
        (∀ d ∈ L, P d = true) →
        ((["tempdir"] :: (D.map (fun d => ["tempdir"] ++ d) ++ ["temp_image"] :: L)).filter P)
          = L := by
      intro P L h1 h2 h3 h4
      have hnil : ∀ (M : List FPath), (∀ a ∈ M, P a = false) → M.filter P = [] := by
        intro M hM
        induction M with
        | nil => rfl
        | cons a t ih =>
          rw [List.filter_cons_of_neg (by rw [hM a (List.mem_cons_self a t)]; decide)]
          exact ih (fun x hx => hM x (List.mem_cons_of_mem _ hx))
      rw [List.filter_cons_of_neg (by rw [h1]; decide), List.filter_append,
        hnil _ h3, List.nil_append, List.filter_cons_of_neg (by rw [h2]; decide),
        List.filter_eq_self.mpr h4]
    rw [hdirsP, hdirs8, hdirs7, hfs6, dirs_rmtree, hfs5, dirs_writeF, hfs4,
      dirs_extractInto, hdirs3, List.filter_filter, List.filter_filter]
    refine hfilter3 _ fsA.dirs (by decide) (by decide) ?_ ?_
    · intro a ha
      obtain ⟨d0, -, rfl⟩ := List.mem_map.mp ha
      have hpp : List.isPrefixOf ["tempdir"] (["tempdir"] ++ d0) = true :=
        List.isPrefixOf_iff_prefix.mpr (List.prefix_append _ _)
      simp [hpp]
    · intro d hd
      have b1 : List.isPrefixOf ["tempdir"] d = false := by
        cases hb : List.isPrefixOf ["tempdir"] d
        · rfl
        · exact absurd (List.isPrefixOf_iff_prefix.mp hb) (not_single_pfx (hcleand d hd).1)
      have b2 : List.isPrefixOf ["temp_image"] d = false := by
        cases hb : List.isPrefixOf ["temp_image"] d
        · rfl
        · exact absurd (List.isPrefixOf_iff_prefix.mp hb) (not_single_pfx (hcleand d hd).2)
      have b3 : List.isPrefixOf iconsOldP d = false := by
        cases hb : List.isPrefixOf iconsOldP d
        · rfl
        · exact absurd ((by decide : (["tempdir"] : FPath) <+: iconsOldP).trans
            (List.isPrefixOf_iff_prefix.mp hb)) (not_single_pfx (hcleand d hd).1)
      simp [b1, b2, b3]
  · intro e he
    rcases hmemP e he with h | ⟨hm8, hti, htd⟩
    · exact Or.inl h
    · rcases hmem8 e hm8 with ⟨b, hb⟩ | hm7
      · exact absurd (single_prefix_of_head (show e.1.head? = some "tempdir" by rw [hb]; rfl))
          htd
      · rcases hmem7 e hm7 with hh | hh | hmem
        · exact absurd (single_prefix_of_head hh) htd
        · exact absurd (single_prefix_of_head hh) hti
        · exact Or.inr hmem
  · intro p h1 h2 h3
    rw [hframeP p h1 h2 h3]
    by_cases hc : ["temp_image"] <+: p ∨ ["tempdir"] <+: p
    · rw [if_pos hc]
      symm
      refine readF_none_of_no_entry _ _ (fun e he hep => ?_)
      rcases hc with hc | hc
      · have hh : p.head? = some "temp_image" := head?_eq_of_pfx hc (by simp)
        exact (hclean e he).2 (by rw [hep]; exact hh)
      · have hh : p.head? = some "tempdir" := head?_eq_of_pfx hc (by simp)
        exact (hclean e he).1 (by rw [hep]; exact hh)
    · rw [if_neg hc]
      push_neg at hc
      rw [hframe8 p (fun b he => hc.2 (single_prefix_of_head
        (show p.head? = some "tempdir" by rw [he]; rfl)))]
      exact hr7A p hc.2 hc.1
  · intro h
    rw [htplE h]
    exact htplchain

/-! ## Demonstration world shared by the pipeline witnesses -/

def demoE : List (FPath × FContent) :=
  [(["driver.xml"], FContent.text "<version>1</version>".data),
   (["www", "icons", "device_sm.png"], FContent.blob 1)]

def demoD : List FPath := [["www"], ["www", "icons"], ["www", "icons", "device"]]

def demoFS : FS :=
  ⟨[(["x.png"], FContent.image ⟨1, 1, [[5]]⟩),
    (["uibutton_x.c4z"], FContent.arch demoE demoD)], []⟩

/-! ## Claim C5 -/

/-- C5: after tree assembly, on every run whose starting directory has no
stale `tempdir`/`temp_image` state and whose extraction source is a sane
driver archive (a readable `driver.xml`, a `www/icons/device` folder, no
archive file entry named exactly `www/icons-old`, nothing strictly below
the two fixed icon names, and no pre-existing `device/selected_16/32`
entries), the run succeeds and in the produced archive: the default-set
16px and 32px outputs are at `www/icons/device_sm.png` and
`www/icons/device_lg.png` (overwriting whatever the source archive had
there), all remaining default-set and selected-set sizes are in
`www/icons/device`, the selected-set 16px and 32px outputs are discarded
(in particular they are not placed in `www/icons/device`), and the
archive contains no `www/icons-old` file or subfolder regardless of
whether the source archive had one. -/
theorem c5_tree_assembly
    (name : String) (origDriver : FPath) (upd : Bool) (ct X X2 : Str)
    (fsA : FS) (im simg : Image) (E : List (FPath × FContent)) (D : List FPath)
    (selSrc : FPath)
    (hnd : (fsA.files.map Prod.fst).Nodup)
    (hclean : ∀ e ∈ fsA.files, e.1.head? ≠ some "tempdir" ∧ e.1.head? ≠ some "temp_image")
    (hcleand : ∀ d ∈ fsA.dirs, d.head? ≠ some "tempdir" ∧ d.head? ≠ some "temp_image")
    (himg : fsA.readF [name ++ ".png"] = some (FContent.image im))
    (hselsrc : (if fsA.pathExists [name ++ "_selected.png"] then [name ++ "_selected.png"]
        else [name ++ ".png"]) = selSrc)
    (hsimg : fsA.readF selSrc = some (FContent.image simg))
    (horig : fsA.readF origDriver = some (FContent.arch E D))
    (horigshape : origDriver = ["uibutton_" ++ name ++ ".c4z"]
        ∨ origDriver = [TEMPLATE_DRIVER_FILE])
    (hdrv : archLookup E.reverse ["driver.xml"] = some (FContent.text X))
    (hxml : processXmlData X ("uibutton_" ++ name).data name.data upd ct = some X2)
    (hdev : ["www", "icons", "device"] ∈ D)
    (hEoldf : archLookup E.reverse ["www", "icons-old"] = none)
    (hEsm : ∀ e ∈ E, ["www", "icons", "device_sm.png"] <+: e.1
        → e.1 = ["www", "icons", "device_sm.png"])
    (hElg : ∀ e ∈ E, ["www", "icons", "device_lg.png"] <+: e.1
        → e.1 = ["www", "icons", "device_lg.png"])
    (hDsm : ∀ d ∈ D, ¬ ["www", "icons", "device_sm.png"] <+: d)
    (hDlg : ∀ d ∈ D, ¬ ["www", "icons", "device_lg.png"] <+: d)
    (hEs16 : archLookup E.reverse ["www", "icons", "device", "selected_16.png"] = none)
    (hEs32 : archLookup E.reverse ["www", "icons", "device", "selected_32.png"] = none)
    (hfinDir : fsA.isDir ["uibutton_" ++ name ++ ".c4z"] = false)
    (htpl : upd = false → (fsA.readF [TEMPLATE_DRIVER_FILE]).isSome = true) :
    (pipelineRest name origDriver upd ct fsA).outcome = Outcome.ok
  ∧ archLookup (archEntriesAt (pipelineRest name origDriver upd ct fsA).fs
        ["uibutton_" ++ name ++ ".c4z"]) ["www", "icons", "device_sm.png"]
      = some (FContent.image (resizeImage im 16 16))
  ∧ archLookup (archEntriesAt (pipelineRest name origDriver upd ct fsA).fs
        ["uibutton_" ++ name ++ ".c4z"]) ["www", "icons", "device_lg.png"]
      = some (FContent.image (resizeImage im 32 32))
  ∧ (∀ sz ∈ [70, 90, 300, 512, 1024],
      archLookup (archEntriesAt (pipelineRest name origDriver upd ct fsA).fs
          ["uibutton_" ++ name ++ ".c4z"]) ["www", "icons", "device", outName "default" sz]
        = some (FContent.image (resizeImage im sz sz))
      ∧ archLookup (archEntriesAt (pipelineRest name origDriver upd ct fsA).fs
          ["uibutton_" ++ name ++ ".c4z"]) ["www", "icons", "device", outName "selected" sz]
        = some (FContent.image (resizeImage simg sz sz)))
  ∧ archLookup (archEntriesAt (pipelineRest name origDriver upd ct fsA).fs
        ["uibutton_" ++ name ++ ".c4z"]) ["www", "icons", "device", "selected_16.png"] = none
  ∧ archLookup (archEntriesAt (pipelineRest name origDriver upd ct fsA).fs
        ["uibutton_" ++ name ++ ".c4z"]) ["www", "icons", "device", "selected_32.png"] = none
  ∧ (∀ q : FPath, ["www", "icons-old"] <+: q →
      archLookup (archEntriesAt (pipelineRest name origDriver upd ct fsA).fs
        ["uibutton_" ++ name ++ ".c4z"]) q = none)
  ∧ (∀ d ∈ archDirsAt (pipelineRest name origDriver upd ct fsA).fs
        ["uibutton_" ++ name ++ ".c4z"], ¬ ["www", "icons-old"] <+: d) := by
  obtain ⟨h1, h2, h3, h4, h5, h6, h7, h8, h9, h10, h11, h12, h13, h14⟩ :=
    pipeline_spec name origDriver upd ct X X2 fsA im simg E D selSrc hnd hclean hcleand
      himg hselsrc hsimg horig horigshape hdrv hxml hdev hEoldf hEsm hElg hDsm hDlg
      hEs16 hEs32 hfinDir htpl
  exact ⟨h1, h2, h3, h5, h6, h7, h8, h9⟩

/-- Witness for C5: a concrete update-mode run on a 1-pixel image. -/
theorem c5_tree_assembly_witness :
    (pipelineRest "x" ["uibutton_x.c4z"] true "T".data demoFS).outcome = Outcome.ok
  ∧ archLookup (archEntriesAt (pipelineRest "x" ["uibutton_x.c4z"] true "T".data demoFS).fs
        ["uibutton_x.c4z"]) ["www", "icons", "device_sm.png"]
      = some (FContent.image (resizeImage ⟨1, 1, [[5]]⟩ 16 16)) := by
  have h := c5_tree_assembly "x" ["uibutton_x.c4z"] true "T".data
    "<version>1</version>".data "<version>2</version>".data demoFS
    ⟨1, 1, [[5]]⟩ ⟨1, 1, [[5]]⟩ demoE demoD ["x.png"]
    (by decide) (by decide) (by decide) rfl (by decide) rfl
    rfl (Or.inl (by decide)) rfl (by decide) (by decide) rfl
    (by decide) (by decide) (by decide) (by decide) rfl rfl
    (by decide) (fun h => absurd h (by decide))
  exact ⟨h.1, h.2.1⟩

/-! ## Claim C7 -/

/-- C7: on every run (clean start, sane archive, as for C5) where no
`<name>_selected.png` file exists, the selected-icon set is generated
from the same source image as the default-icon set, so for each retained
size the selected output placed in `www/icons/device` has pixel content
identical to the default output of the same size — both are the square
resize of the single source image. -/
theorem c7_selected_equals_default
    (name : String) (origDriver : FPath) (upd : Bool) (ct X X2 : Str)
    (fsA : FS) (im : Image) (E : List (FPath × FContent)) (D : List FPath)
    (hnd : (fsA.files.map Prod.fst).Nodup)
    (hclean : ∀ e ∈ fsA.files, e.1.head? ≠ some "tempdir" ∧ e.1.head? ≠ some "temp_image")
    (hcleand : ∀ d ∈ fsA.dirs, d.head? ≠ some "tempdir" ∧ d.head? ≠ some "temp_image")
    (hnosel : fsA.pathExists [name ++ "_selected.png"] = false)
    (himg : fsA.readF [name ++ ".png"] = some (FContent.image im))
    (horig : fsA.readF origDriver = some (FContent.arch E D))
    (horigshape : origDriver = ["uibutton_" ++ name ++ ".c4z"]
        ∨ origDriver = [TEMPLATE_DRIVER_FILE])
    (hdrv : archLookup E.reverse ["driver.xml"] = some (FContent.text X))
    (hxml : processXmlData X ("uibutton_" ++ name).data name.data upd ct = some X2)
    (hdev : ["www", "icons", "device"] ∈ D)
    (hEoldf : archLookup E.reverse ["www", "icons-old"] = none)
    (hEsm : ∀ e ∈ E, ["www", "icons", "device_sm.png"] <+: e.1
        → e.1 = ["www", "icons", "device_sm.png"])
    (hElg : ∀ e ∈ E, ["www", "icons", "device_lg.png"] <+: e.1
        → e.1 = ["www", "icons", "device_lg.png"])
    (hDsm : ∀ d ∈ D, ¬ ["www", "icons", "device_sm.png"] <+: d)
    (hDlg : ∀ d ∈ D, ¬ ["www", "icons", "device_lg.png"] <+: d)
    (hEs16 : archLookup E.reverse ["www", "icons", "device", "selected_16.png"] = none)
    (hEs32 : archLookup E.reverse ["www", "icons", "device", "selected_32.png"] = none)
    (hfinDir : fsA.isDir ["uibutton_" ++ name ++ ".c4z"] = false)
    (htpl : upd = false → (fsA.readF [TEMPLATE_DRIVER_FILE]).isSome = true) :
    (pipelineRest name origDriver upd ct fsA).outcome = Outcome.ok
  ∧ (∀ sz ∈ [70, 90, 300, 512, 1024],
      archLookup (archEntriesAt (pipelineRest name origDriver upd ct fsA).fs
          ["uibutton_" ++ name ++ ".c4z"]) ["www", "icons", "device", outName "selected" sz]
        = archLookup (archEntriesAt (pipelineRest name origDriver upd ct fsA).fs
          ["uibutton_" ++ name ++ ".c4z"]) ["www", "icons", "device", outName "default" sz]
      ∧ archLookup (archEntriesAt (pipelineRest name origDriver upd ct fsA).fs
          ["uibutton_" ++ name ++ ".c4z"]) ["www", "icons", "device", outName "default" sz]
        = some (FContent.image (resizeImage im sz sz))) := by
  obtain ⟨h1, h2, h3, h4, h5, h6, h7, h8, h9, h10, h11, h12, h13, h14⟩ :=
    pipeline_spec name origDriver upd ct X X2 fsA im im E D [name ++ ".png"] hnd hclean
      hcleand himg (by rw [if_neg (by simp [hnosel])]) himg horig horigshape hdrv hxml
      hdev hEoldf hEsm hElg hDsm hDlg hEs16 hEs32 hfinDir htpl
  refine ⟨h1, fun sz hsz => ?_⟩
  obtain ⟨hd, hs⟩ := h5 sz hsz
  exact ⟨hs.trans hd.symm, hd⟩

/-- Witness for C7: the concrete run of the C5 witness world has no
`x_selected.png`, and the 70-pixel selected and default outputs agree. -/
theorem c7_selected_equals_default_witness :
    (pipelineRest "x" ["uibutton_x.c4z"] true "T".data demoFS).outcome = Outcome.ok
  ∧ archLookup (archEntriesAt (pipelineRest "x" ["uibutton_x.c4z"] true "T".data demoFS).fs
        ["uibutton_x.c4z"]) ["www", "icons", "device", outName "selected" 70]
      = archLookup (archEntriesAt (pipelineRest "x" ["uibutton_x.c4z"] true "T".data demoFS).fs
        ["uibutton_x.c4z"]) ["www", "icons", "device", outName "default" 70] := by
  have h := c7_selected_equals_default "x" ["uibutton_x.c4z"] true "T".data
    "<version>1</version>".data "<version>2</version>".data demoFS
    ⟨1, 1, [[5]]⟩ demoE demoD
    (by decide) (by decide) (by decide) (by decide) rfl
    rfl (Or.inl (by decide)) rfl (by decide) (by decide) rfl
    (by decide) (by decide) (by decide) (by decide) rfl rfl
    (by decide) (fun h => absurd h (by decide))
  exact ⟨h.1, (h.2 70 (by decide)).1⟩

/-! ## Claim C8 -/

/-- C8 fails as literally stated, in both halves.  First, the working
directory is not created fresh: a stale file under `tempdir` left by
some earlier failed run survives extraction and is packaged into the
output archive.  Second, the temporary directories are not deleted on
every run: a run that crashes in the descriptor patch (version field
missing) leaves both the extracted tree and the generated images on
disk. -/
theorem c8_counterexample :
    ((pipelineRest "x" ["uibutton_x.c4z"] true "T".data
        ⟨[(["x.png"], FContent.image ⟨1, 1, [[5]]⟩),
          (["uibutton_x.c4z"], FContent.arch demoE demoD),
          (["tempdir", "stale.txt"], FContent.blob 9)], []⟩).outcome = Outcome.ok
      ∧ archLookup (archEntriesAt (pipelineRest "x" ["uibutton_x.c4z"] true "T".data
          ⟨[(["x.png"], FContent.image ⟨1, 1, [[5]]⟩),
            (["uibutton_x.c4z"], FContent.arch demoE demoD),
            (["tempdir", "stale.txt"], FContent.blob 9)], []⟩).fs
          ["uibutton_x.c4z"]) ["stale.txt"] = some (FContent.blob 9))
  ∧ ((pipelineRest "x" ["uibutton_x.c4z"] true "T".data
        ⟨[(["x.png"], FContent.image ⟨1, 1, [[5]]⟩),
          (["uibutton_x.c4z"], FContent.arch
            [(["driver.xml"], FContent.text "no version field".data)] [["www"]])], []⟩).outcome
        = Outcome.crashed
      ∧ (pipelineRest "x" ["uibutton_x.c4z"] true "T".data
          ⟨[(["x.png"], FContent.image ⟨1, 1, [[5]]⟩),
            (["uibutton_x.c4z"], FContent.arch
              [(["driver.xml"], FContent.text "no version field".data)] [["www"]])],
           []⟩).fs.fileExists ["tempdir", "driver.xml"] = true
      ∧ (pipelineRest "x" ["uibutton_x.c4z"] true "T".data
          ⟨[(["x.png"], FContent.image ⟨1, 1, [[5]]⟩),
            (["uibutton_x.c4z"], FContent.arch
              [(["driver.xml"], FContent.text "no version field".data)] [["www"]])],
           []⟩).fs.fileExists ["temp_image", "default_16.png"] = true) :=
  ⟨⟨by decide, rfl⟩, by decide, by decide, by decide⟩

/-- C8 (amended): on every run that completes (clean start, sane source
archive, and in create mode a present template file — the bundle of C5),
the run succeeds and no state persists except the output archive: the
directory list is exactly the starting one, every remaining file is the
output archive or an original file (so in particular both `tempdir` and
`temp_image` are fully deleted), every path other than the output
archive, the intermediate zip name and the template file reads exactly
as before the run, and in create mode the downloaded template archive
has been deleted.  On a crashed run, or with stale temp state, the
literal claim fails as the counterexample shows. -/
theorem c8_cleanup_and_frame
    (name : String) (origDriver : FPath) (upd : Bool) (ct X X2 : Str)
    (fsA : FS) (im simg : Image) (E : List (FPath × FContent)) (D : List FPath)
    (selSrc : FPath)
    (hnd : (fsA.files.map Prod.fst).Nodup)
    (hclean : ∀ e ∈ fsA.files, e.1.head? ≠ some "tempdir" ∧ e.1.head? ≠ some "temp_image")
    (hcleand : ∀ d ∈ fsA.dirs, d.head? ≠ some "tempdir" ∧ d.head? ≠ some "temp_image")
    (himg : fsA.readF [name ++ ".png"] = some (FContent.image im))
    (hselsrc : (if fsA.pathExists [name ++ "_selected.png"] then [name ++ "_selected.png"]
        else [name ++ ".png"]) = selSrc)
    (hsimg : fsA.readF selSrc = some (FContent.image simg))
    (horig : fsA.readF origDriver = some (FContent.arch E D))
    (horigshape : origDriver = ["uibutton_" ++ name ++ ".c4z"]
        ∨ origDriver = [TEMPLATE_DRIVER_FILE])
    (hdrv : archLookup E.reverse ["driver.xml"] = some (FContent.text X))
    (hxml : processXmlData X ("uibutton_" ++ name).data name.data upd ct = some X2)
    (hdev : ["www", "icons", "device"] ∈ D)
    (hEoldf : archLookup E.reverse ["www", "icons-old"] = none)
    (hEsm : ∀ e ∈ E, ["www", "icons", "device_sm.png"] <+: e.1
        → e.1 = ["www", "icons", "device_sm.png"])
    (hElg : ∀ e ∈ E, ["www", "icons", "device_lg.png"] <+: e.1
        → e.1 = ["www", "icons", "device_lg.png"])
    (hDsm : ∀ d ∈ D, ¬ ["www", "icons", "device_sm.png"] <+: d)
    (hDlg : ∀ d ∈ D, ¬ ["www", "icons", "device_lg.png"] <+: d)
    (hEs16 : archLookup E.reverse ["www", "icons", "device", "selected_16.png"] = none)
    (hEs32 : archLookup E.reverse ["www", "icons", "device", "selected_32.png"] = none)
    (hfinDir : fsA.isDir ["uibutton_" ++ name ++ ".c4z"] = false)
    (htpl : upd = false → (fsA.readF [TEMPLATE_DRIVER_FILE]).isSome = true) :
    (pipelineRest name origDriver upd ct fsA).outcome = Outcome.ok
  ∧ (pipelineRest name origDriver upd ct fsA).fs.dirs = fsA.dirs
  ∧ (∀ e ∈ (pipelineRest name origDriver upd ct fsA).fs.files,
      e.1 = ["uibutton_" ++ name ++ ".c4z"] ∨ e ∈ fsA.files)
  ∧ (∀ e ∈ (pipelineRest name origDriver upd ct fsA).fs.files,
      e.1.head? ≠ some "tempdir" ∧ e.1.head? ≠ some "temp_image")
  ∧ (∀ p : FPath, p ≠ ["uibutton_" ++ name ++ ".c4z"] → p ≠ ["uibutton_" ++ name ++ ".zip"] →
      p ≠ [TEMPLATE_DRIVER_FILE] →
      (pipelineRest name origDriver upd ct fsA).fs.readF p = fsA.readF p)
  ∧ (upd = false →
      (pipelineRest name origDriver upd ct fsA).fs.readF [TEMPLATE_DRIVER_FILE] = none) := by
  obtain ⟨h1, h2, h3, h4, h5, h6, h7, h8, h9, h10, h11, h12, h13, h14⟩ :=
    pipeline_spec name origDriver upd ct X X2 fsA im simg E D selSrc hnd hclean hcleand
      himg hselsrc hsimg horig horigshape hdrv hxml hdev hEoldf hEsm hElg hDsm hDlg
      hEs16 hEs32 hfinDir htpl
  refine ⟨h1, h10, h11, ?_, h12, h13⟩
  intro e he
  rcases h11 e he with hh | hh
  · constructor
    · rw [hh]
      simp only [List.head?_cons, ne_eq, Option.some.injEq]
      exact uib_head_ne_tempdir name ".c4z" 'z' (by decide) (by decide) (by decide)
    · rw [hh]
      simp only [List.head?_cons, ne_eq, Option.some.injEq]
      exact uib_head_ne_temp_image name ".c4z" 'z' (by decide) (by decide) (by decide)
  · exact hclean e hh

/-- Witness for the amended C8 on the concrete world of the C5 witness. -/
theorem c8_cleanup_and_frame_witness :
    (pipelineRest "x" ["uibutton_x.c4z"] true "T".data demoFS).outcome = Outcome.ok
  ∧ (pipelineRest "x" ["uibutton_x.c4z"] true "T".data demoFS).fs.dirs = demoFS.dirs
  ∧ (∀ e ∈ (pipelineRest "x" ["uibutton_x.c4z"] true "T".data demoFS).fs.files,
      e.1.head? ≠ some "tempdir" ∧ e.1.head? ≠ some "temp_image") := by
  have h := c8_cleanup_and_frame "x" ["uibutton_x.c4z"] true "T".data
    "<version>1</version>".data "<version>2</version>".data demoFS
    ⟨1, 1, [[5]]⟩ ⟨1, 1, [[5]]⟩ demoE demoD ["x.png"]
    (by decide) (by decide) (by decide) rfl (by decide) rfl
    rfl (Or.inl (by decide)) rfl (by decide) (by decide) rfl
    (by decide) (by decide) (by decide) (by decide) rfl rfl
    (by decide) (fun h => absurd h (by decide))
  exact ⟨h.1, h.2.1, h.2.2.2.1⟩
